import Mathlib

/-!
# odbc_fdw: scan, modify and planner paths of `odbc_fdw.c`

A shallow embedding of the parts of `src/odbc_fdw.c` that the specification
talks about, followed by theorems about them.

Conventions of the embedding

* A C `char` is a `Nat` (its code); the NUL terminator is `0`.  A block of
  memory obtained from `palloc` is a `List Nat` whose length is the number of
  bytes allocated.  A local array is a block of its declared size.  Fresh
  blocks have unspecified contents, supplied by a parameter `junk`.  `palloc`
  is modelled without the host's allocation limit.
* Every store is bounds-checked: a store outside the block, or through a NULL
  pointer, ends the run with `Abort.fault`.  `ereport(ERROR, ...)` and
  `elog(ERROR, ...)` end the run with `Abort.error msg`.
* The ODBC driver is external.  It is modelled as a script: the list of
  replies it gives to the successive calls of one kind.  A script that has run
  out answers `SQL_NO_DATA`.  The calls issued to the driver are recorded in
  a trace.
* The constants of `sql.h` / `sqlext.h` carry the values fixed by the ODBC
  standard.
-/

namespace OdbcFdw

/-! ## ODBC constants (`sql.h`, `sqlext.h`) -/

def SQL_SUCCESS : Int := 0
def SQL_SUCCESS_WITH_INFO : Int := 1
def SQL_NO_DATA : Int := 100
def SQL_ERROR : Int := -1
def SQL_INVALID_HANDLE : Int := -2
def SQL_NULL_DATA : Int := -1
def SQL_NO_TOTAL : Int := -4

/-- The macro `SQL_SUCCEEDED(rc)`, `(((rc)&(~1))==0)`: true exactly for
`SQL_SUCCESS` and `SQL_SUCCESS_WITH_INFO`. -/
def SQL_SUCCEEDED (rc : Int) : Bool := rc == 0 || rc == 1

/-- Source: `MAXIMUM_BUFFER_SIZE` (odbc_fdw.c:88), the maximum GetData buffer size. -/
def MAXIMUM_BUFFER_SIZE : Nat := 8192

/-- Source: `ODBC_SQLSTATE_FRACTIONAL_TRUNCATION` (odbc_fdw.c:112). -/
def ODBC_SQLSTATE_FRACTIONAL_TRUNCATION : String := "01S07"

/-! ## Outcomes and memory -/

/-- How a run ends when it does not return. -/
inductive Abort where
  /-- The run reached `ereport(ERROR, ...)` or `elog(ERROR, ...)`. -/
  | error (msg : String)
  /-- The run accessed memory outside a block or through NULL. -/
  | fault
  deriving DecidableEq, Repr

/-- A fresh block of `n` bytes; byte `i` holds `junk i`. -/
def palloc (junk : Nat → Nat) (n : Nat) : List Nat := (List.range n).map junk

/-- Store the bytes `src` into block `m` from offset `off`. -/
def writeBytes (m : List Nat) (off : Nat) (src : List Nat) : Except Abort (List Nat) :=
  if off + src.length ≤ m.length then
    .ok (m.take off ++ src ++ m.drop (off + src.length))
  else .error .fault

/-- The assignment `m[i] = v`. -/
def store (m : List Nat) (i : Nat) (v : Nat) : Except Abort (List Nat) :=
  writeBytes m i [v]

/-- The characters of the C string that starts at the beginning of `m`. -/
def cstring (m : List Nat) : List Nat := m.takeWhile (fun c => c != 0)

/-- Reading the C string at the start of block `m` (as `strlen` or
`appendStringInfoString` do); a block without terminator is read past its
end. -/
def readCString (m : List Nat) : Except Abort (List Nat) :=
  if m.contains 0 then .ok (cstring m) else .error .fault

/-- The `n` bytes that `strncpy(_, src, n)` stores: the string in the first
`n` bytes of `src`, padded with NUL up to `n` bytes. -/
def strncpyBytes (src : List Nat) (n : Nat) : List Nat :=
  let s := cstring (src.take n)
  s ++ List.replicate (n - s.length) 0

/-- The call `strncpy(dst + off, src, n)`. -/
def strncpy (dst : List Nat) (off : Nat) (src : List Nat) (n : Nat) :
    Except Abort (List Nat) :=
  writeBytes dst off (strncpyBytes src n)

/-- The call `memmove(dst, src, n)`. -/
def memmove (dst : List Nat) (src : List Nat) (n : Nat) : Except Abort (List Nat) :=
  writeBytes dst 0 (src.take n)

/-! ## The driver as seen by a scan -/

/-- A call issued to the driver. -/
inductive OdbcCall where
  | SQLFetch
  | SQLDescribeCol (col : Nat)
  | SQLGetData (col : Nat) (bufferLength : Int)
  | SQLGetDiagRec
  | SQLExecDirect (query : String)
  | SQLRowCount
  deriving DecidableEq, Repr

/-- What the driver does on one `SQLGetData` call. -/
structure GetDataReply where
  /-- The return code. -/
  ret : Int
  /-- The bytes stored from the start of the target buffer. -/
  written : List Nat
  /-- The value stored in `*StrLen_or_IndPtr`; `none` leaves it untouched. -/
  indicator : Option Int
  /-- The SQLSTATE that `SQLGetDiagRec` reports for this call. -/
  sqlstate : String
  deriving DecidableEq, Repr

/-- The reply of a driver whose script has run out. -/
def GetDataReply.noData : GetDataReply :=
  { ret := SQL_NO_DATA, written := [], indicator := none, sqlstate := "00000" }

/-- The driver stores `written` at `target + off`; the caller has announced
`bufferLength` bytes there.  A driver that stores more than announced is
outside the ODBC contract. -/
def deliver (target : List Nat) (off : Nat) (bufferLength : Int) (written : List Nat) :
    Except Abort (List Nat) :=
  if (written.length : Int) ≤ bufferLength then writeBytes target off written
  else .error .fault

/-! ## `odbcIterateForeignScan`: truncation handling (odbc_fdw.c:2222-2316) -/

/-- The accumulation buffer of the unknown-length protocol: `accum_buffer`
(`none` is NULL), `accum_buffer_size`, `accum_used`. -/
structure Accum where
  accum_buffer : Option (List Nat)
  accum_buffer_size : Nat
  accum_used : Nat
  deriving DecidableEq, Repr

/-- Source: `buf[col_size] ? col_size + 1 : col_size`. -/
def bufLen (col_size : Nat) (buf : List Nat) : Nat :=
  if buf.getD col_size 0 != 0 then col_size + 1 else col_size

/-- Lines 2275-2289: allocate a new accumulation buffer if necessary.  The
size becomes `col_size*2` the first time and doubles afterwards; the bytes
in use are moved over and the new block is terminated at `accum_used`. -/
def growAccum (junk : Nat → Nat) (col_size buf_len : Nat) (a : Accum) :
    Except Abort Accum :=
  if a.accum_used + buf_len > a.accum_buffer_size then do
    let size := if a.accum_buffer_size == 0 then col_size * 2 else a.accum_buffer_size * 2
    let fresh := palloc junk (size + 1)
    let moved ← match a.accum_buffer with
      | some old => memmove fresh old a.accum_used
      | none => pure fresh
    let new_buff ← store moved a.accum_used 0
    pure { accum_buffer := some new_buff, accum_buffer_size := size,
           accum_used := a.accum_used }
  else pure a

/-- Lines 2290-2293: copy the part behind the bytes in use and terminate. -/
def copyPart (buf : List Nat) (buf_len : Nat) (a : Accum) : Except Abort Accum :=
  match a.accum_buffer with
  | none => throw Abort.fault
  | some m => do
    let copied ← strncpy m a.accum_used buf buf_len
    let used := a.accum_used + buf_len
    let closed ← store copied used 0
    pure { accum_buffer := some closed, accum_buffer_size := a.accum_buffer_size,
           accum_used := used }

/-- One turn of the `while (1)` loop up to the exit test, lines 2274-2293. -/
def accumulatePart (junk : Nat → Nat) (col_size : Nat) (buf : List Nat) (a : Accum) :
    Except Abort Accum := do
  let buf_len := bufLen col_size buf
  let a1 ← growAccum junk col_size buf_len a
  copyPart buf buf_len a1

/-- The state of one column read after the truncation handling. -/
structure ColumnRead where
  /-- The block `buf` points to. -/
  buf : List Nat
  /-- The last return code of `SQLGetData`. -/
  ret : Int
  /-- The last value of `indicator`. -/
  indicator : Int
  /-- Driver replies not consumed yet. -/
  reads : List GetDataReply
  /-- Calls issued so far, oldest first. -/
  calls : List OdbcCall
  /-- Texts of the NOTICE messages raised. -/
  notices : List (List Nat)
  deriving DecidableEq, Repr

/-- The `while (1)` loop of lines 2272-2299.  `col` is the driver's column
number `i+1`.  The loop ends when the part just copied came from a read that
was not `SQL_SUCCESS_WITH_INFO`. -/
def accumulateLoop (junk : Nat → Nat) (col_size col : Nat) :
    List GetDataReply → List Nat → Int → Int → Accum → List OdbcCall →
    Except Abort (Accum × ColumnRead)
  | reads, buf, ret, indicator, a, calls => do
    let a1 ← accumulatePart junk col_size buf a
    if ret ≠ SQL_SUCCESS_WITH_INFO then
      pure (a1, { buf := buf, ret := ret, indicator := indicator, reads := reads,
                  calls := calls, notices := [] })
    else
      let calls1 := calls ++ [OdbcCall.SQLGetData col ((col_size : Int) + 1)]
      match reads with
      | [] => do
        let a2 ← accumulatePart junk col_size buf a1
        pure (a2, { buf := buf, ret := SQL_NO_DATA, indicator := indicator, reads := [],
                    calls := calls1, notices := [] })
      | r :: rest => do
        let buf1 ← deliver buf 0 ((col_size : Int) + 1) r.written
        accumulateLoop junk col_size col rest buf1 r.ret (r.indicator.getD indicator) a1 calls1

/-- Lines 2243-2244: `SQLCHAR sqlstate[5]` and the call
`SQLGetDiagRec(SQL_HANDLE_STMT, stmt, 1, sqlstate, NULL, NULL, 0, NULL)`.  The
driver stores the characters of the SQLSTATE and the terminator from the
start of the array of 5 bytes. -/
def getDiagState (junk : Nat → Nat) (sqlstate : String) : Except Abort (List Nat) :=
  writeBytes (palloc junk 5) 0 (sqlstate.toList.map Char.toNat ++ [0])

/-- The test `strcmp(m, s) == 0` for a block `m` and the characters `s` of a
string constant: the bytes of `m` are read until one differs or the
terminator behind `s` has been compared. -/
def strcmp0 : List Nat → List Nat → Except Abort Bool
  | [], _ => .error .fault
  | c :: _, [] => .ok (c == 0)
  | c :: m, b :: s => if c = b then strcmp0 m s else .ok false

/-- Lines 2246-2316: the two branches behind the comparison of the SQLSTATE.
`fractional` is the outcome of `strcmp(sqlstate, "01S07") == 0`, `buf`, `ret`
and `indicator` are as the first `SQLGetData` left them. -/
def handleSuccessWithInfo (junk : Nat → Nat) (col_size col : Nat) (buf : List Nat)
    (ret indicator : Int) (fractional : Bool) (reads1 : List GetDataReply)
    (calls2 : List OdbcCall) : Except Abort ColumnRead :=
  if fractional then do
    let buf1 ←
      if buf.getD col_size 0 != 0 then do
        let buf2 ← strncpy (palloc junk (col_size + 2)) 0 buf (col_size + 1)
        store buf2 (col_size + 1) 0
      else pure buf
    let text ← readCString buf1
    pure { buf := buf1, ret := ret, indicator := indicator, reads := reads1,
           calls := calls2, notices := [text] }
  else if indicator = SQL_NO_TOTAL then do
    let (a, c) ← accumulateLoop junk col_size col reads1 buf ret indicator
      { accum_buffer := none, accum_buffer_size := 0, accum_used := 0 } calls2
    match a.accum_buffer with
    | none => throw Abort.fault
    | some m => pure { c with buf := m }
  else do
    let buf_len := bufLen col_size buf
    let accum_buffer_size : Int := (buf_len : Int) + indicator
    if accum_buffer_size + 1 < 0 then
      throw (Abort.error "invalid memory alloc request size")
    let accum0 := palloc junk (accum_buffer_size + 1).toNat
    let accum1 ← strncpy accum0 0 buf buf_len
    let accum2 ← store accum1 buf_len 0
    let calls3 := calls2 ++ [OdbcCall.SQLGetData col (indicator + 1)]
    let r2 := reads1.headD GetDataReply.noData
    let accum3 ← deliver accum2 buf_len (indicator + 1) r2.written
    pure { buf := accum3, ret := r2.ret, indicator := r2.indicator.getD indicator,
           reads := reads1.tail, calls := calls3, notices := [] }

/-- Lines 2222-2316 for one retrieved column: the first `SQLGetData` into a
buffer of `col_size + 1` bytes and the handling of `SQL_SUCCESS_WITH_INFO`.
`indicator0` is the unspecified initial value of the local `indicator`. -/
def getColumnData (junk : Nat → Nat) (indicator0 : Int) (col_size col : Nat)
    (reads : List GetDataReply) (calls : List OdbcCall) : Except Abort ColumnRead := do
  let buf0 ← store (palloc junk (col_size + 1)) 0 0
  let calls1 := calls ++ [OdbcCall.SQLGetData col ((col_size : Int) + 1)]
  let r := reads.headD GetDataReply.noData
  let reads1 := reads.tail
  let buf ← deliver buf0 0 ((col_size : Int) + 1) r.written
  let ret := r.ret
  let indicator := r.indicator.getD indicator0
  if ret = SQL_SUCCESS_WITH_INFO then do
    let calls2 := calls1 ++ [OdbcCall.SQLGetDiagRec]
    let sqlstate ← getDiagState junk r.sqlstate
    let fractional ← strcmp0 sqlstate (ODBC_SQLSTATE_FRACTIONAL_TRUNCATION.toList.map Char.toNat)
    handleSuccessWithInfo junk col_size col buf ret indicator fractional reads1 calls2
  else
    pure { buf := buf, ret := ret, indicator := indicator, reads := reads1,
           calls := calls1, notices := [] }

/-! ## `sql_data_type`, `minimum_buffer_size` (odbc_fdw.c:803-931) -/

def SQL_CHAR : Int := 1
def SQL_NUMERIC : Int := 2
def SQL_DECIMAL : Int := 3
def SQL_INTEGER : Int := 4
def SQL_SMALLINT : Int := 5
def SQL_FLOAT : Int := 6
def SQL_REAL : Int := 7
def SQL_DOUBLE : Int := 8
def SQL_DATE : Int := 9
def SQL_TIME : Int := 10
def SQL_TIMESTAMP : Int := 11
def SQL_VARCHAR : Int := 12
def SQL_TYPE_DATE : Int := 91
def SQL_TYPE_TIME : Int := 92
def SQL_TYPE_TIMESTAMP : Int := 93
def SQL_LONGVARCHAR : Int := -1
def SQL_BINARY : Int := -2
def SQL_VARBINARY : Int := -3
def SQL_LONGVARBINARY : Int := -4
def SQL_BIGINT : Int := -5
def SQL_TINYINT : Int := -6
def SQL_BIT : Int := -7
def SQL_WCHAR : Int := -8
def SQL_WVARCHAR : Int := -9
def SQL_WLONGVARCHAR : Int := -10
def SQL_GUID : Int := -11

/-- Decimal text of `(unsigned) column_size` as `%u` prints it. -/
def fmtUnsigned (column_size : Nat) : List Char := (Nat.repr (column_size % 2 ^ 32)).toList

/-- Decimal text of a `%d` argument. -/
def fmtInt (d : Int) : List Char :=
  if d < 0 then '-' :: (Nat.repr d.natAbs).toList else (Nat.repr d.natAbs).toList

/-- Source: `sql_data_type`, the PostgreSQL type name for an ODBC type.  A
type outside the `switch` leaves the string empty. -/
def sql_data_type (odbc_data_type : Int) (column_size : Nat) (decimal_digits : Int)
    (_nullable : Int) : List Char :=
  if odbc_data_type = SQL_CHAR ∨ odbc_data_type = SQL_WCHAR then
    "char(".toList ++ fmtUnsigned column_size ++ ")".toList
  else if odbc_data_type = SQL_VARCHAR ∨ odbc_data_type = SQL_WVARCHAR then
    if column_size ≤ 255 then "varchar(".toList ++ fmtUnsigned column_size ++ ")".toList
    else "text".toList
  else if odbc_data_type = SQL_LONGVARCHAR ∨ odbc_data_type = SQL_WLONGVARCHAR then
    "text".toList
  else if odbc_data_type = SQL_DECIMAL then
    "decimal(".toList ++ fmtUnsigned column_size ++ ",".toList ++ fmtInt decimal_digits
      ++ ")".toList
  else if odbc_data_type = SQL_NUMERIC then
    "numeric(".toList ++ fmtUnsigned column_size ++ ",".toList ++ fmtInt decimal_digits
      ++ ")".toList
  else if odbc_data_type = SQL_INTEGER then "integer".toList
  else if odbc_data_type = SQL_REAL then "real".toList
  else if odbc_data_type = SQL_FLOAT then "real".toList
  else if odbc_data_type = SQL_DOUBLE then "float8".toList
  else if odbc_data_type = SQL_BIT then "boolean".toList
  else if odbc_data_type = SQL_SMALLINT ∨ odbc_data_type = SQL_TINYINT then "smallint".toList
  else if odbc_data_type = SQL_BIGINT then "bigint".toList
  else if odbc_data_type = SQL_LONGVARBINARY then "bytea".toList
  else if odbc_data_type = SQL_TYPE_DATE ∨ odbc_data_type = SQL_DATE then "date".toList
  else if odbc_data_type = SQL_TYPE_TIME ∨ odbc_data_type = SQL_TIME then "time".toList
  else if odbc_data_type = SQL_TYPE_TIMESTAMP ∨ odbc_data_type = SQL_TIMESTAMP then
    "timestamp".toList
  else if odbc_data_type = SQL_GUID then "uuid".toList
  else []

/-- Source: `minimum_buffer_size`. -/
def minimum_buffer_size (odbc_data_type : Int) : Nat :=
  if odbc_data_type = SQL_DECIMAL ∨ odbc_data_type = SQL_NUMERIC then 32
  else if odbc_data_type = SQL_INTEGER then 12
  else if odbc_data_type = SQL_REAL ∨ odbc_data_type = SQL_FLOAT then 18
  else if odbc_data_type = SQL_DOUBLE then 26
  else if odbc_data_type = SQL_SMALLINT ∨ odbc_data_type = SQL_TINYINT then 6
  else if odbc_data_type = SQL_BIGINT then 21
  else if odbc_data_type = SQL_TYPE_DATE ∨ odbc_data_type = SQL_DATE then 10
  else if odbc_data_type = SQL_TYPE_TIME ∨ odbc_data_type = SQL_TIME then 8
  else if odbc_data_type = SQL_TYPE_TIMESTAMP ∨ odbc_data_type = SQL_TIMESTAMP then 20
  else 0

/-! ## `odbcIterateForeignScan` (odbc_fdw.c:2078-2375) -/

/-- The enum `ColumnConversion` (odbc_fdw.c:287-293). -/
inductive ColumnConversion where
  | TEXT_CONVERSION
  | HEX_CONVERSION
  | BIN_CONVERSION
  | BOOL_CONVERSION
  deriving DecidableEq, Repr

/-- What `SQLDescribeCol` reports for a result column. -/
structure ColumnDescription where
  dataType : Int
  columnSize : Nat
  decimalDigits : Int
  nullable : Int
  deriving DecidableEq, Repr

/-- The driver behind an open cursor: the return codes of the coming
`SQLFetch` calls, the description of each result column (by column number),
the replies to the coming `SQLGetData` calls, and the calls issued so far. -/
structure ScanDriver where
  fetches : List Int
  describe : Nat → ColumnDescription
  reads : List GetDataReply
  calls : List OdbcCall

/-- The fields of `odbcFdwExecutionState` that `odbcIterateForeignScan` uses;
`natts` is `tupdesc->natts`. -/
structure odbcFdwExecutionState where
  natts : Nat
  retrieved_attrs : List Nat
  num_of_result_cols : Nat
  first_iteration : Bool
  col_position_mask : List Int
  col_size_array : List Nat
  col_conversion_array : List ColumnConversion
  encoding : Int

/-- The host functions called on a non-null value: `pg_any_to_server` on the
buffer and `InputFunctionCall` of the attribute.  Both may raise an error. -/
structure ScanHost (δ : Type) where
  pg_any_to_server : Int → List Nat → Except Abort (List Nat)
  InputFunctionCall : Nat → List Nat → Except Abort δ

/-- Lines 2139-2177 for result column `i` (1-based): the conversion mode and
the buffer size planned from the column's description. -/
def planColumn (desc : ColumnDescription) : ColumnConversion × Nat :=
  let sql_type := sql_data_type desc.dataType desc.columnSize desc.decimalDigits desc.nullable
  let conversion0 :=
    if sql_type = "bytea".toList then ColumnConversion.HEX_CONVERSION
    else ColumnConversion.TEXT_CONVERSION
  let conversion :=
    if sql_type = "boolean".toList then ColumnConversion.BOOL_CONVERSION
    else if "bit(".toList.isPrefixOf sql_type ∨ "varbit(".toList.isPrefixOf sql_type then
      ColumnConversion.BIN_CONVERSION
    else conversion0
  let min_size := minimum_buffer_size desc.dataType
  let max_size := MAXIMUM_BUFFER_SIZE
  let size1 := if desc.columnSize < min_size then min_size else desc.columnSize
  let size2 := if size1 > max_size then max_size else size1
  (conversion, size2)

/-- Lines 2115-2194: on the first pull, describe every result column and
store the three per-column lists; later pulls reuse them. -/
def planColumns (festate : odbcFdwExecutionState) (d : ScanDriver) :
    odbcFdwExecutionState × ScanDriver :=
  if festate.first_iteration then
    let cols := (List.range festate.num_of_result_cols).map (fun k => k + 1)
    let plans := cols.map (fun i => planColumn (d.describe i))
    ({ festate with
        col_position_mask := cols.map (fun i => (i : Int) - 1)
        col_size_array := plans.map (fun p => p.2)
        col_conversion_array := plans.map (fun p => p.1)
        first_iteration := false },
     { d with calls := d.calls ++ cols.map OdbcCall.SQLDescribeCol })
  else (festate, d)

/-- The element `list_nth_int(l, i)`; an index outside the list is an access
outside the object. -/
def list_nth {α : Type} (l : List α) (i : Nat) : Except Abort α :=
  match l.get? i with
  | some v => .ok v
  | none => .error .fault

/-- The assignment `a[j-1] = v` for a 1-based attribute number `j`. -/
def setAttr {α : Type} (a : List α) (j : Nat) (v : α) : Except Abort (List α) :=
  if 1 ≤ j ∧ j ≤ a.length then .ok (a.set (j - 1) v) else .error .fault

/-- Record of one processed column: the attribute number `j`, and the return
code and indicator that line 2318 tests. -/
structure ColumnOutcome where
  attr : Nat
  ret : Int
  indicator : Int
  deriving DecidableEq, Repr

/-- The variables of the `foreach` loop of lines 2208-2367. -/
structure ScanLoop (δ : Type) where
  i : Nat
  values : List (Option δ)
  nulls : List Bool
  reads : List GetDataReply
  calls : List OdbcCall
  notices : List (List Nat)
  outcomes : List ColumnOutcome

/-- Lines 2326-2362: the text handed to the attribute's input function.
`TEXT` passes the string, `HEX` puts `\x` in front, `BOOL` rewrites a first
byte 0 or 1 to `F` or `T`, `BIN` raises the error. -/
def convertValue (conversion : ColumnConversion) (buf : List Nat) :
    Except Abort (List Nat) :=
  match conversion with
  | .TEXT_CONVERSION => readCString buf
  | .HEX_CONVERSION => do
    let s ← readCString buf
    pure ([92, 120] ++ s)
  | .BOOL_CONVERSION => do
    let buf1 ←
      if buf.getD 0 0 = 0 then writeBytes buf 0 [70, 0]
      else if buf.getD 0 0 = 1 then writeBytes buf 0 [84, 0]
      else pure buf
    readCString buf1
  | .BIN_CONVERSION => throw (Abort.error "Bit string columns are not supported")

/-- Lines 2328-2332: convert the character encoding when one is set. -/
def encodeBuffer {δ : Type} (host : ScanHost δ) (festate : odbcFdwExecutionState)
    (buf : List Nat) : Except Abort (List Nat) :=
  if festate.encoding ≠ -1 then host.pg_any_to_server festate.encoding buf else .ok buf

/-- Lines 2318-2364: store the column that was read.  Nothing is stored when
the read did not succeed; a null indicator stores a NULL datum and leaves the
null flag set; otherwise the value is converted and the null flag cleared. -/
def storeColumn {δ : Type} (host : ScanHost δ) (festate : odbcFdwExecutionState)
    (conversion : ColumnConversion) (j : Nat) (c : ColumnRead) (s1 : ScanLoop δ) :
    Except Abort (ScanLoop δ) :=
  if SQL_SUCCEEDED c.ret then
    if c.indicator = SQL_NULL_DATA then
      setAttr s1.values j none >>= fun values =>
      Except.ok { s1 with values := values }
    else
      encodeBuffer host festate c.buf >>= fun buf =>
      convertValue conversion buf >>= fun col_data =>
      setAttr s1.nulls j false >>= fun nulls =>
      host.InputFunctionCall j col_data >>= fun v =>
      setAttr s1.values j (some v) >>= fun values =>
      Except.ok { s1 with values := values, nulls := nulls }
  else Except.ok s1

/-- The body of the `foreach` loop for attribute number `j`. -/
def scanColumn {δ : Type} (host : ScanHost δ) (junk : Nat → Nat) (indicator0 : Int)
    (festate : odbcFdwExecutionState) (j : Nat) (s : ScanLoop δ) :
    Except Abort (ScanLoop δ) :=
  list_nth festate.col_size_array s.i >>= fun col_size =>
  list_nth festate.col_position_mask s.i >>= fun mapped_pos =>
  list_nth festate.col_conversion_array s.i >>= fun conversion =>
  if mapped_pos = -1 then Except.ok s
  else
    getColumnData junk indicator0 col_size (s.i + 1) s.reads s.calls >>= fun c =>
    storeColumn host festate conversion j c
      { s with reads := c.reads, calls := c.calls, notices := s.notices ++ c.notices,
               outcomes := s.outcomes ++
                 [{ attr := j, ret := c.ret, indicator := c.indicator }] } >>= fun s2 =>
    Except.ok { s2 with i := s2.i + 1 }

/-- The `foreach(lc, festate->retrieved_attrs)` loop. -/
def scanColumns {δ : Type} (host : ScanHost δ) (junk : Nat → Nat) (indicator0 : Int)
    (festate : odbcFdwExecutionState) : List Nat → ScanLoop δ → Except Abort (ScanLoop δ)
  | [], s => pure s
  | j :: js, s => do
    let s1 ← scanColumn host junk indicator0 festate j s
    scanColumns host junk indicator0 festate js s1

/-- Source: `heap_form_tuple(tupdesc, values, nulls)`: attribute `k` is null
when `nulls[k]` is set and holds `values[k]` otherwise. -/
def heap_form_tuple {δ : Type} (values : List (Option δ)) (nulls : List Bool) :
    List (Option δ) :=
  List.zipWith (fun v n => if n then none else v) values nulls

/-- What one pull hands back: the slot (`none` is the cleared slot, which the
executor reads as the end of the data), the state, the driver, the notices
raised and the record of the columns processed. -/
structure IterateResult (δ : Type) where
  slot : Option (List (Option δ))
  festate : odbcFdwExecutionState
  driver : ScanDriver
  notices : List (List Nat)
  outcomes : List ColumnOutcome

/-- Source: `odbcIterateForeignScan`.  The row is fetched, the per-column
plan is made on the first pull, the slot is cleared, and only when the fetch
succeeded are the retrieved columns read and a tuple stored. -/
def odbcIterateForeignScan {δ : Type} (host : ScanHost δ) (junk : Nat → Nat)
    (indicator0 : Int) (festate : odbcFdwExecutionState) (d : ScanDriver) :
    Except Abort (IterateResult δ) :=
  let ret := d.fetches.headD SQL_NO_DATA
  let planned := planColumns festate
    { d with fetches := d.fetches.tail, calls := d.calls ++ [OdbcCall.SQLFetch] }
  let festate1 := planned.1
  let d2 := planned.2
  if SQL_SUCCEEDED ret then
    scanColumns host junk indicator0 festate1 festate1.retrieved_attrs
      { i := 0, values := List.replicate festate1.natts none,
        nulls := List.replicate festate1.natts true,
        reads := d2.reads, calls := d2.calls, notices := [], outcomes := [] } >>= fun s =>
    Except.ok { slot := some (heap_form_tuple s.values s.nulls), festate := festate1,
                driver := { d2 with reads := s.reads, calls := s.calls },
                notices := s.notices, outcomes := s.outcomes }
  else
    Except.ok { slot := none, festate := festate1, driver := d2, notices := [],
                outcomes := [] }

/-! ## Insert: `odbc_convert_prep_stmt_params`, `odbc_Bind_Prepared`,
`build_insert_sql` (odbc_fdw.c:3076-3395) -/

def SQL_C_CHAR : Int := 1
def SQL_C_SHORT : Int := 5

/-- The single quote character, `SINGLE_QUOTE` of `appendQuotedString`. -/
def SINGLE_QUOTE : Char := Char.ofNat 39

/-- A `Datum` returned by an input function: a machine word, or a pointer to
a variable-length value with the given payload. -/
inductive Datum where
  | word (v : Int)
  | varlena (payload : List Nat)
  deriving DecidableEq, Repr

/-- The host functions of the insert path.  `OutputFunctionCall k v` is the
text of value `v` under the output function of parameter `k`;
`InputFunctionCall k s` applies the input function of parameter `k` to the
text `s`, where `none` is the NULL string. -/
structure ModifyHost (δ : Type) where
  OutputFunctionCall : Nat → δ → List Char
  InputFunctionCall : Nat → Option (List Char) → Except Abort Datum

/-- The fields of `odbcFdwModifyState` used on the insert path.  `atttypid j`
is the type OID of attribute `j` of the relation; `bindRet k` is the return
code the driver gives to `SQLBindParameter` for parameter `k`, and `diag` the
diagnostic text it reports on failure. -/
structure odbcFdwModifyState where
  query : List Char
  target_attrs : List Nat
  atttypid : Nat → Nat
  bindRet : Nat → Int
  diag : String

/-- Source: `check_return` with a non-null handle: a return code that did not
succeed raises an error carrying the driver's diagnostic text. -/
def check_return (ret : Int) (diag : String) : Except Abort Unit :=
  if SQL_SUCCEEDED ret then .ok () else .error (Abort.error diag)

/-- Source: the `foreach` loop of `odbc_convert_prep_stmt_params` (lines
3106-3119) with `tupleid == NULL`: a null attribute becomes the NULL string,
any other one the text its output function gives.  `pindex` is the index of
the first parameter in `attrs`. -/
def convertParams {δ : Type} (host : ModifyHost δ) (slot : Nat → Option δ) :
    List Nat → Nat → List (Option (List Char))
  | [], _ => []
  | attnum :: rest, pindex =>
    (match slot attnum with
      | none => none
      | some value => some (host.OutputFunctionCall pindex value))
      :: convertParams host slot rest (pindex + 1)

/-- Source: `odbc_convert_prep_stmt_params(fmstate, NULL, slot)`. -/
def odbc_convert_prep_stmt_params {δ : Type} (host : ModifyHost δ)
    (fmstate : odbcFdwModifyState) (slot : Nat → Option δ) : List (Option (List Char)) :=
  convertParams host slot fmstate.target_attrs 0

/-- The data a bound parameter points to. -/
inductive ParamValue where
  | short (v : Int)
  | chars (p : Option (List Char))
  | bytes (b : List Nat)
  deriving DecidableEq, Repr

/-- One `SQLBindParameter` call: parameter number, C type, SQL type, column
size, the data bound and the value of `*StrLen_or_IndPtr` (the local
`param_size`) when the call is made.  A parameter is bound as null exactly
when that value is `SQL_NULL_DATA`. -/
structure BoundParam where
  number : Nat
  valueType : Int
  parameterType : Int
  columnSize : Int
  value : ParamValue
  strLenOrInd : Int
  deriving DecidableEq, Repr

/-- The conversion `(SQLSMALLINT) result`. -/
def toSmallInt (v : Int) : Int := (v + 2 ^ 15) % 2 ^ 16 - 2 ^ 15

/-- The call `strlen(param_p)`: the NULL pointer cannot be read. -/
def strlen (param_p : Option (List Char)) : Except Abort Int :=
  match param_p with
  | none => .error .fault
  | some s => .ok s.length

/-- The `switch (attr->atttypid)` of lines 3182-3287: `dst_type` and whether
`param_size` is `sizeof(SQLCHAR)` rather than `strlen(param_p)`. -/
def bindDispatch (atttypid : Nat) : Option (Int × Bool) :=
  if atttypid = 18 then some (SQL_CHAR, true)
  else if atttypid = 1042 then some (SQL_WCHAR, false)
  else if atttypid = 1043 then some (SQL_VARCHAR, false)
  else if atttypid = 25 then some (SQL_LONGVARCHAR, false)
  else if atttypid = 1700 then some (SQL_DECIMAL, false)
  else if atttypid = 23 then some (SQL_INTEGER, false)
  else if atttypid = 700 then some (SQL_FLOAT, false)
  else if atttypid = 701 then some (SQL_DOUBLE, false)
  else if atttypid = 21 then some (SQL_SMALLINT, false)
  else if atttypid = 20 then some (SQL_BIGINT, false)
  else if atttypid = 1082 then some (SQL_DATE, false)
  else if atttypid = 1083 then some (SQL_TIME, false)
  else if atttypid = 1114 then some (SQL_TIMESTAMP, false)
  else if atttypid = 2950 then some (SQL_GUID, false)
  else none

/-- Decimal text of a type OID for the error message, as `%d` prints the
32-bit value. -/
def oidText (atttypid : Nat) : String :=
  String.mk (fmtInt (((atttypid : Int) + 2 ^ 31) % 2 ^ 32 - 2 ^ 31))

/-- The body of the `foreach` loop of `odbc_Bind_Prepared` up to the
`SQLBindParameter` call, for parameter index `nums`. -/
def bindOne {δ : Type} (host : ModifyHost δ) (atttypid nums : Nat)
    (p : Option (List Char)) : Except Abort BoundParam :=
  if atttypid = 16 then
    host.InputFunctionCall nums p >>= fun result =>
    match result with
    | .word v =>
      .ok { number := nums + 1, valueType := SQL_C_SHORT, parameterType := SQL_SMALLINT,
            columnSize := 0, value := .short (toSmallInt v), strLenOrInd := 2 }
    | .varlena _ => .error .fault
  else if atttypid = 17 then
    host.InputFunctionCall nums p >>= fun result =>
    match result with
    | .varlena payload =>
      .ok { number := nums + 1, valueType := SQL_C_CHAR, parameterType := SQL_LONGVARBINARY,
            columnSize := 0, value := .bytes payload, strLenOrInd := payload.length }
    | .word _ => .error .fault
  else
    match bindDispatch atttypid with
    | none => .error (Abort.error ("Does not support data type " ++ oidText atttypid))
    | some (dst_type, isChar) =>
      (if isChar then .ok 1 else strlen p) >>= fun param_size =>
      let column_size : Int :=
        if dst_type = SQL_CHAR ∨ dst_type = SQL_WCHAR ∨ dst_type = SQL_VARCHAR ∨
            dst_type = SQL_LONGVARCHAR then param_size else 0
      .ok { number := nums + 1, valueType := SQL_C_CHAR, parameterType := dst_type,
            columnSize := column_size, value := .chars p,
            strLenOrInd := param_size }

/-- The `foreach(lc, fmstate->target_attrs)` loop of `odbc_Bind_Prepared`. -/
def bindParams {δ : Type} (host : ModifyHost δ) (fmstate : odbcFdwModifyState)
    (p_value : List (Option (List Char))) : List Nat → Nat → Except Abort (List BoundParam)
  | [], _ => .ok []
  | attnum :: rest, nums =>
    list_nth p_value nums >>= fun p =>
    bindOne host (fmstate.atttypid attnum) nums p >>= fun b =>
    check_return (fmstate.bindRet nums) fmstate.diag >>= fun _ =>
    bindParams host fmstate p_value rest (nums + 1) >>= fun bs =>
    .ok (b :: bs)

/-- Source: `odbc_Bind_Prepared`; the result lists the parameters bound. -/
def odbc_Bind_Prepared {δ : Type} (host : ModifyHost δ) (fmstate : odbcFdwModifyState)
    (p_value : List (Option (List Char))) : Except Abort (List BoundParam) :=
  bindParams host fmstate p_value fmstate.target_attrs 0

/-- The prepared-statement path of `odbcExecForeignInsert` up to the binding:
convert the row, then bind it. -/
def bindRow {δ : Type} (host : ModifyHost δ) (fmstate : odbcFdwModifyState)
    (slot : Nat → Option δ) : Except Abort (List BoundParam) :=
  odbc_Bind_Prepared host fmstate (odbc_convert_prep_stmt_params host fmstate slot)

/-- The literal that `build_insert_sql` appends for one column (lines
3331-3389). -/
def insertLiteral {δ : Type} (host : ModifyHost δ) (atttypid nums : Nat)
    (p : Option (List Char)) : Except Abort (List Char) :=
  if atttypid = 16 then
    host.InputFunctionCall nums p >>= fun result =>
    match result with
    | .word v => if toSmallInt v = 0 then .ok ['0'] else .ok ['1']
    | .varlena _ => .error .fault
  else if atttypid = 18 then
    match p with
    | none => .error .fault
    | some s => .ok ([SINGLE_QUOTE] ++ [s.headD (Char.ofNat 0)] ++ [SINGLE_QUOTE])
  else if atttypid = 17 ∨ atttypid = 1042 ∨ atttypid = 1043 ∨ atttypid = 1082 ∨
      atttypid = 1083 ∨ atttypid = 1114 ∨ atttypid = 25 then
    match p with
    | none => .error .fault
    | some s => .ok ([SINGLE_QUOTE] ++ s ++ [SINGLE_QUOTE])
  else if atttypid = 1700 ∨ atttypid = 23 ∨ atttypid = 700 ∨ atttypid = 701 ∨
      atttypid = 21 ∨ atttypid = 20 ∨ atttypid = 2950 then
    match p with
    | none => .error .fault
    | some s => .ok s
  else .error (Abort.error ("Does not support data type " ++ oidText atttypid))

/-- The `foreach` loop of `build_insert_sql`: literals separated by commas. -/
def insertLiterals {δ : Type} (host : ModifyHost δ) (fmstate : odbcFdwModifyState)
    (p_value : List (Option (List Char))) : List Nat → Nat → Except Abort (List Char)
  | [], _ => .ok []
  | attnum :: rest, nums =>
    list_nth p_value nums >>= fun p =>
    insertLiteral host (fmstate.atttypid attnum) nums p >>= fun lit =>
    insertLiterals host fmstate p_value rest (nums + 1) >>= fun more =>
    .ok ((if nums > 0 then [','] else []) ++ lit ++ more)

/-- Source: `build_insert_sql` (compiled under `DIRECT_INSERT`). -/
def build_insert_sql {δ : Type} (host : ModifyHost δ) (fmstate : odbcFdwModifyState)
    (p_value : List (Option (List Char))) : Except Abort (List Char) :=
  insertLiterals host fmstate p_value fmstate.target_attrs 0 >>= fun lits =>
  .ok (fmstate.query ++ ['('] ++ lits ++ [')'])

/-- The characters `appendQuotedString` puts between the enclosing quotes:
the text with every single quote doubled. -/
def quotedBody : List Char → List Char
  | [] => []
  | c :: cs => if c = SINGLE_QUOTE then SINGLE_QUOTE :: SINGLE_QUOTE :: quotedBody cs
               else c :: quotedBody cs

/-- Source: `appendQuotedString` (odbc_fdw.c:2444-2470). -/
def appendQuotedString (buffer text : List Char) : List Char :=
  buffer ++ [SINGLE_QUOTE] ++ quotedBody text ++ [SINGLE_QUOTE]

/-- The body of a character string literal read by the SQL rule: two single
quotes stand for one quote character, and a single quote not followed by
another one closes the literal.  Returns the value and the text behind the
closing quote. -/
def readLiteralBody : List Char → Option (List Char × List Char)
  | [] => none
  | c :: cs =>
    if c = SINGLE_QUOTE then
      match cs with
      | d :: ds =>
        if d = SINGLE_QUOTE then
          (readLiteralBody ds).map (fun r => (SINGLE_QUOTE :: r.1, r.2))
        else some ([], cs)
      | [] => some ([], [])
    else (readLiteralBody cs).map (fun r => (c :: r.1, r.2))

/-- The value of a text that consists of one SQL character string literal;
`none` when the text is not exactly one literal. -/
def sqlLiteralValue (text : List Char) : Option (List Char) :=
  match text with
  | [] => none
  | c :: cs =>
    if c = SINGLE_QUOTE then
      match readLiteralBody cs with
      | some (v, []) => some v
      | _ => none
    else none

/-! ## `odbcIsForeignRelUpdatable` (odbc_fdw.c:3490-3535) -/

/-- An option of a server or a table: its name and the value `defGetBoolean`
returns for it. -/
structure DefElem where
  defname : String
  boolValue : Bool
  deriving DecidableEq, Repr

/-- The enum `CmdType` of the host (`nodes/nodes.h`). -/
inductive CmdType where
  | CMD_UNKNOWN
  | CMD_SELECT
  | CMD_UPDATE
  | CMD_INSERT
  | CMD_DELETE
  | CMD_UTILITY
  | CMD_NOTHING
  deriving DecidableEq, Repr

/-- The integer value of a `CmdType`. -/
def CmdType.toNat : CmdType → Nat
  | .CMD_UNKNOWN => 0
  | .CMD_SELECT => 1
  | .CMD_UPDATE => 2
  | .CMD_INSERT => 3
  | .CMD_DELETE => 4
  | .CMD_UTILITY => 5
  | .CMD_NOTHING => 6

/-- The loops of lines 3508-3516 and 3519-3527: the value of the first option
named `updatable`, when there is one. -/
def firstUpdatable : List DefElem → Option Bool
  | [] => none
  | d :: rest => if d.defname = "updatable" then some d.boolValue else firstUpdatable rest

/-- Source: `odbcIsForeignRelUpdatable`.  The table options are consulted
only when the server stage left `updatable` false. -/
def odbcIsForeignRelUpdatable (serverOptions tableOptions : List DefElem) : Nat :=
  let updatable0 := true
  let updatable1 := match firstUpdatable serverOptions with
    | some v => v
    | none => updatable0
  let updatable2 :=
    if !updatable1 then
      match firstUpdatable tableOptions with
      | some v => v
      | none => updatable1
    else updatable1
  if updatable2 then
    (1 <<< CmdType.CMD_INSERT.toNat) ||| (1 <<< CmdType.CMD_UPDATE.toNat) |||
      (1 <<< CmdType.CMD_DELETE.toNat)
  else 0

/-- What the comment of lines 3498-3502 describes: updatable by default,
overridden by the server setting, overridden in turn by the table setting. -/
def updatableByOverride (serverOptions tableOptions : List DefElem) : Bool :=
  match firstUpdatable tableOptions with
  | some v => v
  | none =>
    match firstUpdatable serverOptions with
    | some v => v
    | none => true

/-! ## `odbcPlanDirectModify` (odbc_fdw.c:2491-2650) -/

/-- The constant `FirstLowInvalidHeapAttributeNumber` of the host (`access/sysattr.h`,
PostgreSQL 9.6 and 10). -/
def FirstLowInvalidHeapAttributeNumber : Int := -8

/-- A target-list entry: `resno` and `expr`. -/
structure TargetEntry (Expr : Type) where
  resno : Int
  expr : Expr

/-- What `odbcPlanDirectModify` reads: the operation of the `ModifyTable`
node, whether the subplan is a `ForeignScan`, the subplan's `qual` and
`targetlist`, `scanrelid`, and the members of `rte->updatedCols` in the order
`bms_next_member` yields them (increasing). -/
structure DirectModifyPlan (Expr : Type) where
  operation : CmdType
  subplanIsForeignScan : Bool
  qual : List Expr
  scanrelid : Nat
  updatedCols : List Nat
  targetlist : List (TargetEntry Expr)

/-- Source: `get_tle_by_resno` of the host: the first entry with that
`resno`. -/
def get_tle_by_resno {Expr : Type} (tlist : List (TargetEntry Expr)) (resno : Int) :
    Option (TargetEntry Expr) :=
  tlist.find? (fun tle => tle.resno == resno)

/-- The `while ((col = bms_next_member(...)) >= 0)` loop of lines 2561-2580.
`none` is the `return false` of line 2577; otherwise the attribute numbers
appended to `targetAttrs`. -/
def collectTargetAttrs {Expr : Type} (is_foreign_expr : Expr → Bool)
    (targetlist : List (TargetEntry Expr)) : List Nat → Except Abort (Option (List Int))
  | [] => .ok (some [])
  | col :: rest =>
    let attno : Int := (col : Int) + FirstLowInvalidHeapAttributeNumber
    if attno ≤ 0 then .error (Abort.error "system-column update is not supported")
    else
      match get_tle_by_resno targetlist attno with
      | none => .error (Abort.error "attribute number not found in subplan targetlist")
      | some tle =>
        if !is_foreign_expr tle.expr then .ok none
        else
          collectTargetAttrs is_foreign_expr targetlist rest >>= fun more =>
          .ok (more.map (fun l => attno :: l))

/-- Source: `odbcPlanDirectModify`.  `none` is `return false`; `some attrs` is
`return true`, with `attrs` the `targetAttrs` handed to the deparser.  The
remote-safety test `odbc_is_foreign_expr` lives in `odbc_deparse.c` and is a
parameter. -/
def odbcPlanDirectModify {Expr : Type} (is_foreign_expr : Expr → Bool)
    (plan : DirectModifyPlan Expr) : Except Abort (Option (List Int)) :=
  if plan.operation ≠ CmdType.CMD_UPDATE ∧ plan.operation ≠ CmdType.CMD_DELETE then .ok none
  else if !plan.subplanIsForeignScan then .ok none
  else if !plan.qual.isEmpty then .ok none
  else if plan.scanrelid = 0 then .ok none
  else if plan.operation = CmdType.CMD_UPDATE then
    collectTargetAttrs is_foreign_expr plan.targetlist plan.updatedCols
  else .ok (some [])

/-! ## `odbcIterateDirectModify` (odbc_fdw.c:2737-2782) -/

/-- The fields of `odbcFdwDirectModifyState` and of the executor state that
`odbcIterateDirectModify` uses.  `num_tuples` is `-1` after
`odbcBeginDirectModify` (line 2710). -/
structure odbcFdwDirectModifyState where
  query : String
  num_tuples : Int
  set_processed : Bool
  es_processed : Int

/-- The driver behind a direct modification: return codes of the coming
`SQLExecDirect` calls, return code and count of the coming `SQLRowCount`
calls, the diagnostic text, and the calls issued so far. -/
structure ModifyDriver where
  execRets : List Int
  rowCounts : List (Int × Int)
  diag : String
  calls : List OdbcCall

/-- The value an `int` holds after a count is stored into it. -/
def toInt32 (v : Int) : Int := (v + 2 ^ 31) % 2 ^ 32 - 2 ^ 31

/-- Lines 2748-2756: execute the statement and read the affected-row count
when `num_tuples` is `-1`. -/
def executeIfFirst (dmstate : odbcFdwDirectModifyState) (d : ModifyDriver) :
    Except Abort (odbcFdwDirectModifyState × ModifyDriver) :=
  if dmstate.num_tuples = -1 then
    let d1 : ModifyDriver :=
      { d with execRets := d.execRets.tail,
               calls := d.calls ++ [OdbcCall.SQLExecDirect dmstate.query] }
    check_return (d.execRets.headD SQL_NO_DATA) d.diag >>= fun _ =>
    let reply := d1.rowCounts.headD (SQL_ERROR, 0)
    let d2 : ModifyDriver :=
      { d1 with rowCounts := d1.rowCounts.tail, calls := d1.calls ++ [OdbcCall.SQLRowCount] }
    check_return reply.1 d.diag >>= fun _ =>
    .ok ({ dmstate with num_tuples := toInt32 reply.2 }, d2)
  else .ok (dmstate, d)

/-- Source: `odbcIterateDirectModify`.  `ri_projectReturning` tells whether
the local query specifies RETURNING.  The slot returned is always the cleared
one, so the result is the state and the driver. -/
def odbcIterateDirectModify (ri_projectReturning : Bool)
    (dmstate : odbcFdwDirectModifyState) (d : ModifyDriver) :
    Except Abort (odbcFdwDirectModifyState × ModifyDriver) :=
  executeIfFirst dmstate d >>= fun r =>
  if !ri_projectReturning then
    .ok ({ r.1 with es_processed :=
            if r.1.set_processed then r.1.es_processed + r.1.num_tuples
            else r.1.es_processed }, r.2)
  else .error (Abort.error "Does not support local query  specified RETURNING")

/-- Lines 2761-2780 with the driver `d` as the first part of the call left
it: the branch on `ri_projectReturning`. -/
def finishDirectModify (ri_projectReturning : Bool) (dmstate : odbcFdwDirectModifyState)
    (d : ModifyDriver) : ModifyDriver × Except Abort odbcFdwDirectModifyState :=
  if !ri_projectReturning then
    (d, .ok { dmstate with es_processed :=
                if dmstate.set_processed then dmstate.es_processed + dmstate.num_tuples
                else dmstate.es_processed })
  else (d, .error (Abort.error "Does not support local query  specified RETURNING"))

/-- Source: `odbcIterateDirectModify` (lines 2737-2782), statement by
statement, with the driver as the call leaves it: the calls issued before an
error is raised stay in the trace.  The first component is the driver, the
second the state returned or the error raised. -/
def odbcIterateDirectModifyTraced (ri_projectReturning : Bool)
    (dmstate : odbcFdwDirectModifyState) (d : ModifyDriver) :
    ModifyDriver × Except Abort odbcFdwDirectModifyState :=
  if dmstate.num_tuples = -1 then
    let d1 : ModifyDriver :=
      { d with execRets := d.execRets.tail,
               calls := d.calls ++ [OdbcCall.SQLExecDirect dmstate.query] }
    match check_return (d.execRets.headD SQL_NO_DATA) d.diag with
    | .error e => (d1, .error e)
    | .ok _ =>
      let reply := d1.rowCounts.headD (SQL_ERROR, 0)
      let d2 : ModifyDriver :=
        { d1 with rowCounts := d1.rowCounts.tail,
                  calls := d1.calls ++ [OdbcCall.SQLRowCount] }
      match check_return reply.1 d.diag with
      | .error e => (d2, .error e)
      | .ok _ =>
        finishDirectModify ri_projectReturning
          { dmstate with num_tuples := toInt32 reply.2 } d2
  else finishDirectModify ri_projectReturning dmstate d

/-- A sequence of `n` pulls on one state. -/
def pullDirectModify (ri_projectReturning : Bool) :
    Nat → odbcFdwDirectModifyState → ModifyDriver →
    Except Abort (odbcFdwDirectModifyState × ModifyDriver)
  | 0, dmstate, d => .ok (dmstate, d)
  | n + 1, dmstate, d =>
    odbcIterateDirectModify ri_projectReturning dmstate d >>= fun r =>
    pullDirectModify ri_projectReturning n r.1 r.2

/-- The number of `SQLExecDirect` calls in a trace. -/
def countExec (calls : List OdbcCall) : Nat :=
  (calls.filter (fun c => match c with
    | OdbcCall.SQLExecDirect _ => true
    | _ => false)).length

/-! ## Grouping pushdown: `odbcGetForeignUpperPaths`,
`add_foreign_grouping_paths`, `foreign_grouping_ok` (odbc_fdw.c:4491-4791) -/

/-- What the planner code needs from the host and from `odbc_deparse.c` about
expression nodes: the remote-safety test `odbc_is_foreign_expr`, the test
`IsA(expr, Aggref)`, `pull_var_clause(expr, PVC_INCLUDE_AGGREGATES)`, and the
view of a list of nodes as a node (the cast `(Expr *) aggvars`). -/
structure ExprHost (Node : Type) where
  odbc_is_foreign_expr : Node → Bool
  isAggref : Node → Bool
  pull_var_clause : Node → List Node
  listNode : List Node → Node

/-- An entry of the target list built for the remote query. -/
structure GroupTle (Node : Type) where
  expr : Node
  resno : Nat
  ressortgroupref : Nat

/-- The fields of `PgFdwRelationInfo` used by the grouping code. -/
structure PgFdwRelationInfo (Node : Type) where
  pushdown_safe : Bool
  remote_conds : List Node
  local_conds : List Node
  grouped_tlist : List (GroupTle Node)
  rel_startup_cost : Int
  rel_total_cost : Int

/-- The parts of the query the grouping code reads: the `tleSortGroupRef` of
each GROUP BY clause, whether grouping sets are present, `hasAggs`,
`root->hasHavingQual`, the HAVING clauses, and the grouping target as pairs
of expression and sortgroupref (0 when it has none). -/
structure GroupingQuery (Node : Type) where
  groupClause : List Nat
  groupingSets : Bool
  hasAggs : Bool
  hasHavingQual : Bool
  havingQual : List Node
  grouping_target : List (Node × Nat)

/-- Source: `add_to_flat_tlist(tlist, list_make1(expr))` of the host: append
an entry unless the expression is already in the list. -/
def add_to_flat_tlist {Node : Type} [DecidableEq Node] (tlist : List (GroupTle Node))
    (expr : Node) : List (GroupTle Node) :=
  if tlist.any (fun tle => tle.expr = expr) then tlist
  else tlist ++ [{ expr := expr, resno := tlist.length + 1, ressortgroupref := 0 }]

/-- Lines 4684-4690: add the aggregates among `aggvars` to the list. -/
def addAggrefs {Node : Type} [DecidableEq Node] (h : ExprHost Node) :
    List Node → List (GroupTle Node) → List (GroupTle Node)
  | [], tlist => tlist
  | e :: rest, tlist =>
    addAggrefs h rest (if h.isAggref e then add_to_flat_tlist tlist e else tlist)

/-- The `foreach(lc, grouping_target->exprs)` loop of lines 4621-4695; `none`
is `return false`. -/
def checkGroupingTarget {Node : Type} [DecidableEq Node] (h : ExprHost Node)
    (groupClause : List Nat) :
    List (Node × Nat) → List (GroupTle Node) → Option (List (GroupTle Node))
  | [], tlist => some tlist
  | (expr, sgref) :: rest, tlist =>
    if sgref ≠ 0 ∧ sgref ∈ groupClause then
      if !h.odbc_is_foreign_expr expr then none
      else checkGroupingTarget h groupClause rest
        (tlist ++ [{ expr := expr, resno := tlist.length + 1, ressortgroupref := sgref }])
    else if h.odbc_is_foreign_expr expr then
      checkGroupingTarget h groupClause rest (add_to_flat_tlist tlist expr)
    else
      let aggvars := h.pull_var_clause expr
      if !h.odbc_is_foreign_expr (h.listNode aggvars) then none
      else checkGroupingTarget h groupClause rest (addAggrefs h aggvars tlist)

/-- The `foreach(lc, aggvars)` loop of lines 4748-4765; `none` is
`return false`. -/
def checkHavingAggrefs {Node : Type} [DecidableEq Node] (h : ExprHost Node) :
    List Node → List (GroupTle Node) → Option (List (GroupTle Node))
  | [], tlist => some tlist
  | e :: rest, tlist =>
    if h.isAggref e then
      if !h.odbc_is_foreign_expr e then none
      else checkHavingAggrefs h rest (add_to_flat_tlist tlist e)
    else checkHavingAggrefs h rest tlist

/-- Source: `foreign_grouping_ok`.  `ofpinfo` is the descriptor of the
underlying scan, `fpinfo` that of the grouped relation.  The HAVING clauses
are classified before the last check, so the condition lists of the
descriptor are updated even when the result is false. -/
def foreign_grouping_ok {Node : Type} [DecidableEq Node] (h : ExprHost Node)
    (query : GroupingQuery Node) (ofpinfo fpinfo : PgFdwRelationInfo Node) :
    Bool × PgFdwRelationInfo Node :=
  if query.groupingSets then (false, fpinfo)
  else if !ofpinfo.local_conds.isEmpty then (false, fpinfo)
  else
    match checkGroupingTarget h query.groupClause query.grouping_target [] with
    | none => (false, fpinfo)
    | some tlist =>
      let fpinfo1 :=
        if query.hasHavingQual ∧ !query.havingQual.isEmpty then
          { fpinfo with
            remote_conds := fpinfo.remote_conds ++
              query.havingQual.filter (fun e => h.odbc_is_foreign_expr e)
            local_conds := fpinfo.local_conds ++
              query.havingQual.filter (fun e => !h.odbc_is_foreign_expr e) }
        else fpinfo
      let checked :=
        if !fpinfo1.local_conds.isEmpty then
          checkHavingAggrefs h (fpinfo1.local_conds.map h.pull_var_clause).flatten tlist
        else some tlist
      match checked with
      | none => (false, fpinfo1)
      | some tlist1 =>
        (true, { fpinfo1 with grouped_tlist := tlist1, pushdown_safe := true,
                              rel_startup_cost := -1, rel_total_cost := -1 })

/-- The descriptor `palloc0` yields; `pushdown_safe` is false in it, as line
4510 sets it again. -/
def PgFdwRelationInfo.zero {Node : Type} : PgFdwRelationInfo Node :=
  { pushdown_safe := false, remote_conds := [], local_conds := [], grouped_tlist := [],
    rel_startup_cost := 0, rel_total_cost := 0 }

/-- The outcome of the upper-path hook for the grouped relation: its
descriptor (`output_rel->fdw_private`) and whether a foreign path was added
to it. -/
structure UpperResult (Node : Type) where
  fdw_private : Option (PgFdwRelationInfo Node)
  pathAdded : Bool

/-- Source: `add_foreign_grouping_paths`; `fpinfo` is the descriptor already
attached to the grouped relation. -/
def add_foreign_grouping_paths {Node : Type} [DecidableEq Node] (h : ExprHost Node)
    (query : GroupingQuery Node) (ifpinfo fpinfo : PgFdwRelationInfo Node) :
    UpperResult Node :=
  if query.groupClause.isEmpty ∧ !query.groupingSets ∧ !query.hasAggs ∧
      !query.hasHavingQual then
    { fdw_private := some fpinfo, pathAdded := false }
  else
    let r := foreign_grouping_ok h query ifpinfo fpinfo
    if !r.1 then { fdw_private := some r.2, pathAdded := false }
    else { fdw_private := some r.2, pathAdded := true }

/-- Source: `odbcGetForeignUpperPaths`.  `stageIsGroupAgg` tells whether the
stage is `UPPERREL_GROUP_AGG`; `input_private` and `output_private` are the
`fdw_private` of the input and the output relation. -/
def odbcGetForeignUpperPaths {Node : Type} [DecidableEq Node] (h : ExprHost Node)
    (query : GroupingQuery Node) (stageIsGroupAgg : Bool)
    (input_private output_private : Option (PgFdwRelationInfo Node)) : UpperResult Node :=
  match input_private with
  | none => { fdw_private := output_private, pathAdded := false }
  | some ifpinfo =>
    if !ifpinfo.pushdown_safe then { fdw_private := output_private, pathAdded := false }
    else if !stageIsGroupAgg ∨ output_private.isSome then
      { fdw_private := output_private, pathAdded := false }
    else
      add_foreign_grouping_paths h query ifpinfo PgFdwRelationInfo.zero

/-! ## Shippability: `odbc_shippable.c` -/

/-- The enum `ShipObj` (odbc_fdw.h:165-172). -/
inductive ShipObj where
  | AggObj
  | ProcedureObj
  | DataTypeObj
  | OperatorObj
  | UNKOWNOBJ
  deriving DecidableEq, Repr

/-- Source: `SHIPAGGMIN` (odbc_fdw.h:173). -/
def SHIPAGGMIN : Nat := 2100

/-- Source: `SHIPAGGMAX` (odbc_fdw.h:174). -/
def SHIPAGGMAX : Nat := 2803

/-- The key of a cache entry: `objid`, `classid`, `serverid`. -/
structure ShippableCacheKey where
  objid : Nat
  classid : Nat
  serverid : Nat
  deriving DecidableEq, Repr

/-- The static `ShippableCacheHash`: `none` before `InitializeShippableCache`,
afterwards the entries (key and `shippable`).  `lookups` counts the runs of
`lookup_shippable`; it is not part of the C state. -/
structure ShippableCache where
  table : Option (List (ShippableCacheKey × Bool))
  lookups : Nat
  deriving DecidableEq, Repr

/-- The condition of the `if` of lines 175: an aggregate in the fixed range. -/
def aggCondition (objectId : Nat) : Bool :=
  (objectId ≥ SHIPAGGMIN && objectId ≤ SHIPAGGMAX)

/-- The condition of the `if` of lines 179-182: a type in the fixed set. -/
def typeCondition (objectId : Nat) : Bool :=
  (objectId == 16 || objectId == 17 || objectId == 18 || objectId == 20 ||
    objectId == 21 || objectId == 23 || objectId == 25 || objectId == 700 ||
    objectId == 701 || objectId == 1042 || objectId == 1043 || objectId == 1082 ||
    objectId == 1083 || objectId == 1114 || objectId == 1700 || objectId == 2950)

/-- The condition of the `if` of lines 187-214, term by term as written. -/
def procedureCondition (objectId : Nat) : Bool :=
  ((objectId ≥ 1242 && objectId ≤ 1245) || (objectId ≥ 31 && objectId ≤ 39) ||
    (objectId == 42 || objectId == 43) || (objectId == 46 || objectId == 47) ||
    (objectId ≥ 56 && objectId ≤ 67) || (objectId ≥ 70 && objectId ≤ 84) ||
    (objectId ≥ 1252 && objectId ≤ 1258) || (objectId ≥ 141 && objectId ≤ 183) ||
    (objectId ≥ 200 && objectId ≤ 224) || (objectId ≥ 235 && objectId ≤ 238) ||
    (objectId ≥ 1242 && objectId ≤ 1245) || (objectId ≥ 240 && objectId ≤ 319) ||
    (objectId ≥ 350 && objectId ≤ 382) || (objectId ≥ 3129 && objectId ≤ 3135) ||
    (objectId ≥ 438 && objectId ≤ 483) || (objectId ≥ 652 && objectId ≤ 659) ||
    (objectId ≥ 740 && objectId ≤ 743) || (objectId ≥ 766 && objectId ≤ 848) ||
    (objectId ≥ 852 && objectId ≤ 857) ||
    (objectId == 3399 || objectId == 3344 || objectId == 3345) ||
    (objectId ≥ 862 && objectId ≤ 946) || (objectId ≥ 3822 || objectId ≤ 3824) ||
    (objectId == 3811 || objectId == 3812) || (objectId ≥ 1044 && objectId ≤ 1078) ||
    objectId == 3328 ||
    (objectId ≥ 1084 && objectId ≤ 1092) || (objectId ≥ 1102 && objectId ≤ 1145) ||
    objectId == 3136 ||
    (objectId ≥ 1150 && objectId ≤ 1158) || (objectId == 1195 || objectId == 1196) ||
    objectId == 1219 || objectId == 3546 ||
    (objectId ≥ 1236 && objectId ≤ 1253) || (objectId ≥ 1274 && objectId ≤ 1281) ||
    (objectId ≥ 837 && objectId ≤ 848) || (objectId == 1296 || objectId ≤ 1298) ||
    (objectId ≥ 1312 && objectId ≤ 1316) || (objectId ≥ 1350 && objectId ≤ 1359) ||
    (objectId ≥ 1377 && objectId ≤ 1380) || (objectId ≥ 1564 && objectId ≤ 1572) ||
    (objectId ≥ 1579 && objectId ≤ 1596) || (objectId ≥ 1631 && objectId ≤ 1661) ||
    (objectId ≥ 1666 && objectId ≤ 1672) || (objectId ≥ 1691 && objectId ≤ 1693) ||
    (objectId ≥ 1701 && objectId ≤ 1703) || (objectId ≥ 1718 && objectId ≤ 1728) ||
    (objectId ≥ 1742 && objectId ≤ 1746) || (objectId ≥ 1764 && objectId ≤ 1783) ||
    objectId == 3283 ||
    (objectId ≥ 1850 && objectId ≤ 1862) || (objectId ≥ 1910 && objectId ≤ 1915) ||
    (objectId ≥ 1948 && objectId ≤ 1954) || objectId == 3331 ||
    (objectId ≥ 2005 && objectId ≤ 2008) ||
    (objectId ≥ 2052 && objectId ≤ 2057) || (objectId ≥ 1910 && objectId ≤ 1915) ||
    objectId == 3137 ||
    (objectId ≥ 2160 && objectId ≤ 2195) || (objectId == 3322 || objectId == 3333) ||
    (objectId ≥ 2338 && objectId ≤ 2383) || (objectId ≥ 2520 && objectId ≤ 2533))

/-- The condition of lines 187-214 with the two terms that have one bound
only read as the range and the pair of ids that the neighbouring terms
suggest: `3822..3824` for `objectId >= 3822 || objectId <= 3824`, and `1296`,
`1298` for `objectId == 1296 || objectId <= 1298`.  It is used only to name an
id that no term lists. -/
def procedureListed (objectId : Nat) : Bool :=
  ((objectId ≥ 1242 && objectId ≤ 1245) || (objectId ≥ 31 && objectId ≤ 39) ||
    (objectId == 42 || objectId == 43) || (objectId == 46 || objectId == 47) ||
    (objectId ≥ 56 && objectId ≤ 67) || (objectId ≥ 70 && objectId ≤ 84) ||
    (objectId ≥ 1252 && objectId ≤ 1258) || (objectId ≥ 141 && objectId ≤ 183) ||
    (objectId ≥ 200 && objectId ≤ 224) || (objectId ≥ 235 && objectId ≤ 238) ||
    (objectId ≥ 1242 && objectId ≤ 1245) || (objectId ≥ 240 && objectId ≤ 319) ||
    (objectId ≥ 350 && objectId ≤ 382) || (objectId ≥ 3129 && objectId ≤ 3135) ||
    (objectId ≥ 438 && objectId ≤ 483) || (objectId ≥ 652 && objectId ≤ 659) ||
    (objectId ≥ 740 && objectId ≤ 743) || (objectId ≥ 766 && objectId ≤ 848) ||
    (objectId ≥ 852 && objectId ≤ 857) ||
    (objectId == 3399 || objectId == 3344 || objectId == 3345) ||
    (objectId ≥ 862 && objectId ≤ 946) || (objectId ≥ 3822 && objectId ≤ 3824) ||
    (objectId == 3811 || objectId == 3812) || (objectId ≥ 1044 && objectId ≤ 1078) ||
    objectId == 3328 ||
    (objectId ≥ 1084 && objectId ≤ 1092) || (objectId ≥ 1102 && objectId ≤ 1145) ||
    objectId == 3136 ||
    (objectId ≥ 1150 && objectId ≤ 1158) || (objectId == 1195 || objectId == 1196) ||
    objectId == 1219 || objectId == 3546 ||
    (objectId ≥ 1236 && objectId ≤ 1253) || (objectId ≥ 1274 && objectId ≤ 1281) ||
    (objectId ≥ 837 && objectId ≤ 848) || (objectId == 1296 || objectId == 1298) ||
    (objectId ≥ 1312 && objectId ≤ 1316) || (objectId ≥ 1350 && objectId ≤ 1359) ||
    (objectId ≥ 1377 && objectId ≤ 1380) || (objectId ≥ 1564 && objectId ≤ 1572) ||
    (objectId ≥ 1579 && objectId ≤ 1596) || (objectId ≥ 1631 && objectId ≤ 1661) ||
    (objectId ≥ 1666 && objectId ≤ 1672) || (objectId ≥ 1691 && objectId ≤ 1693) ||
    (objectId ≥ 1701 && objectId ≤ 1703) || (objectId ≥ 1718 && objectId ≤ 1728) ||
    (objectId ≥ 1742 && objectId ≤ 1746) || (objectId ≥ 1764 && objectId ≤ 1783) ||
    objectId == 3283 ||
    (objectId ≥ 1850 && objectId ≤ 1862) || (objectId ≥ 1910 && objectId ≤ 1915) ||
    (objectId ≥ 1948 && objectId ≤ 1954) || objectId == 3331 ||
    (objectId ≥ 2005 && objectId ≤ 2008) ||
    (objectId ≥ 2052 && objectId ≤ 2057) || (objectId ≥ 1910 && objectId ≤ 1915) ||
    objectId == 3137 ||
    (objectId ≥ 2160 && objectId ≤ 2195) || (objectId == 3322 || objectId == 3333) ||
    (objectId ≥ 2338 && objectId ≤ 2383) || (objectId ≥ 2520 && objectId ≤ 2533))

/-- Lines 174-218: whether the first part of `odbc_is_shippable` returns true.
For `ProcedureObj` the `if` of lines 187-216 is followed by the `return true`
of line 217, so both arms return true. -/
def shippableBuiltin (objType : ShipObj) (objectId : Nat) : Bool :=
  match objType with
  | .AggObj => aggCondition objectId
  | .DataTypeObj => typeCondition objectId
  | .OperatorObj => true
  | .ProcedureObj => if procedureCondition objectId then true else true
  | .UNKOWNOBJ => false

/-- Source: `lookup_shippable`.  `getExtensionOfObject classId objectId` is the
host's catalog lookup; 0 is `InvalidOid`. -/
def lookup_shippable (getExtensionOfObject : Nat → Nat → Nat) (objectId classId : Nat)
    (shippable_extensions : List Nat) : Bool :=
  let extensionOid := getExtensionOfObject classId objectId
  decide (extensionOid ≠ 0) && shippable_extensions.contains extensionOid

/-- The call `hash_search(..., HASH_FIND, ...)`: the `shippable` of the entry
with that key. -/
def hashFind (table : List (ShippableCacheKey × Bool)) (key : ShippableCacheKey) :
    Option Bool :=
  (table.find? (fun e => e.1 = key)).map (fun e => e.2)

/-- The call `hash_search(..., HASH_ENTER, ...)` followed by
`entry->shippable = shippable`: the entry with that key is created when there
is none, and set. -/
def hashEnter (table : List (ShippableCacheKey × Bool)) (key : ShippableCacheKey)
    (shippable : Bool) : List (ShippableCacheKey × Bool) :=
  if table.any (fun e => e.1 = key) then
    table.map (fun e => if e.1 = key then (key, shippable) else e)
  else table ++ [(key, shippable)]

/-- The call `hash_search(..., HASH_REMOVE, ...)`: `none` when there is no
entry with that key. -/
def hashRemove (table : List (ShippableCacheKey × Bool)) (key : ShippableCacheKey) :
    Option (List (ShippableCacheKey × Bool)) :=
  if table.any (fun e => e.1 = key) then some (table.filter (fun e => e.1 ≠ key))
  else none

/-- The `while` loop of `InvalidateShippableCacheCallback` over the entries
the sequential scan yields. -/
def flushEntries : List (ShippableCacheKey × Bool) → List (ShippableCacheKey × Bool) →
    Except Abort (List (ShippableCacheKey × Bool))
  | [], table => .ok table
  | entry :: rest, table =>
    match hashRemove table entry.1 with
    | none => .error (Abort.error "hash table corrupted")
    | some table1 => flushEntries rest table1

/-- Source: `InvalidateShippableCacheCallback` on an initialised cache. -/
def InvalidateShippableCacheCallback (cache : ShippableCache) :
    Except Abort ShippableCache :=
  match cache.table with
  | none => .ok cache
  | some table =>
    flushEntries table table >>= fun table1 =>
    .ok { cache with table := some table1 }

/-- Source: `odbc_is_shippable`.  `shippable_extensions` and `serverid` are
`fpinfo->shippable_extensions` and `fpinfo->server->serverid`. -/
def odbc_is_shippable (getExtensionOfObject : Nat → Nat → Nat) (objectId classId : Nat)
    (shippable_extensions : List Nat) (serverid : Nat) (objType : ShipObj)
    (cache : ShippableCache) : Bool × ShippableCache :=
  if shippableBuiltin objType objectId then (true, cache)
  else if shippable_extensions.isEmpty then (false, cache)
  else
    let table := cache.table.getD []
    let key : ShippableCacheKey := { objid := objectId, classid := classId, serverid := serverid }
    match hashFind table key with
    | some shippable => (shippable, { cache with table := some table })
    | none =>
      let shippable := lookup_shippable getExtensionOfObject objectId classId
        shippable_extensions
      (shippable, { table := some (hashEnter table key shippable),
                    lookups := cache.lookups + 1 })

/-! ## Cost estimation: `estimate_path_cost_size`

`double` and `Cost` values are rationals: rounding, infinities and NaN are
not modelled. -/

/-- Source: `DEFAULT_FDW_SORT_MULTIPLIER` (odbc_fdw.c:96), the decimal 1.2. -/
def DEFAULT_FDW_SORT_MULTIPLIER : ℚ := 12 / 10

/-- The C macro `Min(x, y)`: `((x) < (y) ? (x) : (y))`. -/
def Min (x y : ℚ) : ℚ := if x < y then x else y

/-- The host's `QualCost`. -/
structure QualCost where
  startup : ℚ
  per_tuple : ℚ
  deriving DecidableEq, Repr

/-- The fields of the host's `AggClauseCosts` that the estimate reads. -/
structure AggClauseCosts where
  transCost : QualCost
  finalCost : ℚ
  deriving DecidableEq, Repr

/-- The result of `MemSet(&aggcosts, 0, sizeof(AggClauseCosts))`. -/
def AggClauseCosts.zero : AggClauseCosts :=
  { transCost := { startup := 0, per_tuple := 0 }, finalCost := 0 }

/-- The host's cost settings and `clamp_row_est`. -/
structure CostEnv where
  seq_page_cost : ℚ
  cpu_tuple_cost : ℚ
  cpu_operator_cost : ℚ
  clamp_row_est : ℚ → ℚ

/-- The fields of `PgFdwRelationInfo` that `estimate_path_cost_size` reads or
writes. -/
structure FdwCostInfo where
  rows : ℚ
  width : Int
  local_conds_sel : ℚ
  local_conds_cost : QualCost
  joinclause_sel : ℚ
  rel_startup_cost : ℚ
  rel_total_cost : ℚ
  fdw_startup_cost : ℚ
  fdw_tuple_cost : ℚ
  deriving DecidableEq, Repr

/-- What distinguishes the three kinds of relation, with what each branch of
the estimate reads.  `join`: the descriptors of the inner and outer relation
and the results of `cost_qual_eval` on `remote_conds` and `joinclauses`.
`upper`: the descriptor of the input relation, `root->parse->hasAggs`, what
the two `get_agg_clause_costs` calls leave in `aggcosts`, the length of the
GROUP BY clause, the result of `estimate_num_groups`, and the cost of the
grouping target.  `base`: `tuples`, `pages` and `baserestrictcost`. -/
inductive RelShape where
  | join (fpinfo_i fpinfo_o : FdwCostInfo) (remote_conds_cost join_cost : QualCost)
  | upper (ofpinfo : FdwCostInfo) (hasAggs : Bool) (aggcosts : AggClauseCosts)
      (numGroupCols : Nat) (numGroups : ℚ) (ptarget_cost : QualCost)
  | base (tuples pages : ℚ) (baserestrictcost : QualCost)
  deriving DecidableEq, Repr

/-- The `RelOptInfo` of a foreign relation: `rows`, `reltarget->width`, the
kind of relation, and the descriptor in `fdw_private`. -/
structure ForeignRel where
  rows : ℚ
  width : Int
  shape : RelShape
  fpinfo : FdwCostInfo
  deriving DecidableEq, Repr

/-- The locals `startup_cost`, `run_cost`, `rows`, `retrieved_rows` and `width`
after the `if` chain of lines 4073-4236.  `computed` tells whether one of the
three computing branches ran; it is not a C variable. -/
structure BareCost where
  startup_cost : ℚ
  run_cost : ℚ
  rows : ℚ
  retrieved_rows : ℚ
  width : Int
  computed : Bool
  deriving DecidableEq, Repr

/-- Lines 4078-4236: the cost of the bare scan, by kind of relation. -/
def computeBareCost (env : CostEnv) (fpinfo : FdwCostInfo) (shape : RelShape)
    (rows retrieved_rows : ℚ) (width : Int) : BareCost :=
  match shape with
  | .join fpinfo_i fpinfo_o remote_conds_cost join_cost =>
    let nrows := fpinfo_i.rows * fpinfo_o.rows
    let retrieved_rows1 := Min retrieved_rows nrows
    let startup_cost := fpinfo_i.rel_startup_cost + fpinfo_o.rel_startup_cost
    let startup_cost := startup_cost + join_cost.startup
    let startup_cost := startup_cost + remote_conds_cost.startup
    let startup_cost := startup_cost + fpinfo.local_conds_cost.startup
    let run_cost := fpinfo_i.rel_total_cost - fpinfo_i.rel_startup_cost
    let run_cost := run_cost + (fpinfo_o.rel_total_cost - fpinfo_o.rel_startup_cost)
    let run_cost := run_cost + nrows * join_cost.per_tuple
    let nrows1 := env.clamp_row_est (nrows * fpinfo.joinclause_sel)
    let run_cost := run_cost + nrows1 * remote_conds_cost.per_tuple
    let run_cost := run_cost + fpinfo.local_conds_cost.per_tuple * retrieved_rows1
    { startup_cost := startup_cost, run_cost := run_cost, rows := rows,
      retrieved_rows := retrieved_rows1, width := width, computed := true }
  | .upper ofpinfo hasAggs aggcosts0 numGroupCols numGroups ptarget_cost =>
    let input_rows := ofpinfo.rows
    let aggcosts := if hasAggs then aggcosts0 else AggClauseCosts.zero
    let startup_cost := ofpinfo.rel_startup_cost
    let startup_cost := startup_cost + aggcosts.transCost.startup
    let startup_cost := startup_cost + aggcosts.transCost.per_tuple * input_rows
    let startup_cost := startup_cost + (env.cpu_operator_cost * numGroupCols) * input_rows
    let startup_cost := startup_cost + ptarget_cost.startup
    let run_cost := ofpinfo.rel_total_cost - ofpinfo.rel_startup_cost
    let run_cost := run_cost + aggcosts.finalCost * numGroups
    let run_cost := run_cost + env.cpu_tuple_cost * numGroups
    let run_cost := run_cost + ptarget_cost.per_tuple * numGroups
    { startup_cost := startup_cost, run_cost := run_cost, rows := numGroups,
      retrieved_rows := numGroups, width := ofpinfo.width, computed := true }
  | .base tuples pages baserestrictcost =>
    let retrieved_rows1 := Min retrieved_rows tuples
    let startup_cost : ℚ := 0
    let run_cost : ℚ := 0
    let run_cost := run_cost + env.seq_page_cost * pages
    let startup_cost := startup_cost + baserestrictcost.startup
    let cpu_per_tuple := env.cpu_tuple_cost + baserestrictcost.per_tuple
    let run_cost := run_cost + cpu_per_tuple * tuples
    { startup_cost := startup_cost, run_cost := run_cost, rows := rows,
      retrieved_rows := retrieved_rows1, width := width, computed := true }

/-- Lines 4061-4236: the cached pair when the test of line 4073 passes, the
computed cost otherwise. -/
def bareCost (env : CostEnv) (foreignrel : ForeignRel) : BareCost :=
  let fpinfo := foreignrel.fpinfo
  let rows := foreignrel.rows
  let width := foreignrel.width
  let retrieved_rows := env.clamp_row_est (rows / fpinfo.local_conds_sel)
  if fpinfo.rel_startup_cost > 0 ∧ fpinfo.rel_total_cost > 0 then
    { startup_cost := fpinfo.rel_startup_cost,
      run_cost := fpinfo.rel_total_cost - fpinfo.rel_startup_cost,
      rows := rows, retrieved_rows := retrieved_rows, width := width, computed := false }
  else computeBareCost env fpinfo foreignrel.shape rows retrieved_rows width

/-- The outputs of `estimate_path_cost_size`, the descriptor as the call
leaves it, and whether the call computed the cost of the bare scan (the last
is not part of the C state). -/
structure PathCostEstimate where
  p_rows : ℚ
  p_width : Int
  p_startup_cost : ℚ
  p_total_cost : ℚ
  fpinfo : FdwCostInfo
  computed : Bool
  deriving DecidableEq, Repr

/-- Source: `estimate_path_cost_size` (odbc_fdw.c:4023-4287).  Of
`param_join_conds` and `pathkeys` only emptiness is read.  The `Assert` of
line 4054 stops the run when the build has `USE_ASSERT_CHECKING` and is
nothing otherwise. -/
def estimate_path_cost_size {α β : Type} (USE_ASSERT_CHECKING : Bool) (env : CostEnv)
    (foreignrel : ForeignRel) (param_join_conds : List α) (pathkeys : List β) :
    Except Abort PathCostEstimate :=
  if USE_ASSERT_CHECKING && !param_join_conds.isEmpty then
    .error (Abort.error "TRAP: FailedAssertion(param_join_conds == NIL)")
  else
    let fpinfo := foreignrel.fpinfo
    let bare := bareCost env foreignrel
    let startup_cost :=
      if !pathkeys.isEmpty then bare.startup_cost * DEFAULT_FDW_SORT_MULTIPLIER
      else bare.startup_cost
    let run_cost :=
      if !pathkeys.isEmpty then bare.run_cost * DEFAULT_FDW_SORT_MULTIPLIER
      else bare.run_cost
    let total_cost := startup_cost + run_cost
    let fpinfo1 :=
      if pathkeys.isEmpty && param_join_conds.isEmpty then
        { fpinfo with rel_startup_cost := startup_cost, rel_total_cost := total_cost }
      else fpinfo
    let startup_cost1 := startup_cost + fpinfo1.fdw_startup_cost
    let total_cost1 := total_cost + fpinfo1.fdw_startup_cost
    let total_cost2 := total_cost1 + fpinfo1.fdw_tuple_cost * bare.retrieved_rows
    let total_cost3 := total_cost2 + env.cpu_tuple_cost * bare.retrieved_rows
    .ok { p_rows := bare.rows, p_width := bare.width, p_startup_cost := startup_cost1,
          p_total_cost := total_cost3, fpinfo := fpinfo1, computed := bare.computed }

/-- Lines 1534-1535 of `odbcGetForeignRelSize` (and 4779-4780): the cached
costs are set "to some negative value, so that we can detect when they are
set to some sensible costs". -/
def resetRelCosts (fpinfo : FdwCostInfo) : FdwCostInfo :=
  { fpinfo with rel_startup_cost := -1, rel_total_cost := -1 }

/-! ## Options and `odbcBeginForeignScan` -/

/-- An option of a table, a server or a user mapping: its name and the text
`defGetString` returns for it. -/
structure OptionDef where
  defname : String
  arg : String
  deriving DecidableEq, Repr

/-- The struct `odbcFdwOptions` (odbc_fdw.c:113-125); `none` is a NULL string.
`pfx` is the field the source calls by the word for a leading part of a
name. -/
structure odbcFdwOptions where
  schema : Option String
  table : Option String
  pfx : Option String
  sql_query : Option String
  sql_count : Option String
  encoding : Option String
  updatable : Bool
  connection_list : List OptionDef
  mapping_list : List OptionDef
  deriving DecidableEq, Repr

/-- Source: `init_odbcFdwOptions`: all bytes zero. -/
def init_odbcFdwOptions : odbcFdwOptions :=
  { schema := none, table := none, pfx := none, sql_query := none, sql_count := none,
    encoding := none, updatable := false, connection_list := [], mapping_list := [] }

/-- The body of the `foreach` of `extract_odbcFdwOptions` for one option. -/
def extractOption (defGetBoolean : String → Bool) (extracted_options : odbcFdwOptions)
    (d : OptionDef) : odbcFdwOptions :=
  if d.defname = "dsn" then
    { extracted_options with connection_list := extracted_options.connection_list ++ [d] }
  else if d.defname = "driver" then
    { extracted_options with connection_list := extracted_options.connection_list ++ [d] }
  else if d.defname = "schema" then { extracted_options with schema := some d.arg }
  else if d.defname = "table" then { extracted_options with table := some d.arg }
  else if d.defname = "prefix" then { extracted_options with pfx := some d.arg }
  else if d.defname = "sql_query" then { extracted_options with sql_query := some d.arg }
  else if d.defname = "sql_count" then { extracted_options with sql_count := some d.arg }
  else if d.defname = "encoding" then { extracted_options with encoding := some d.arg }
  else if d.defname = "updatable" then
    { extracted_options with updatable := defGetBoolean d.arg }
  else { extracted_options with mapping_list := extracted_options.mapping_list ++ [d] }

/-- Source: `extract_odbcFdwOptions` (odbc_fdw.c:569-645).  `defGetBoolean` is
the host's reading of a boolean option. -/
def extract_odbcFdwOptions (defGetBoolean : String → Bool) (options_list : List OptionDef) :
    odbcFdwOptions :=
  options_list.foldl (extractOption defGetBoolean) init_odbcFdwOptions

/-- Source: `odbcGetTableOptions` with `odbcGetOptions`: the options of the
table, then of its server, then of the user mapping. -/
def odbcGetTableOptions (defGetBoolean : String → Bool)
    (tableOptions serverOptions mappingOptions : List OptionDef) : odbcFdwOptions :=
  extract_odbcFdwOptions defGetBoolean (tableOptions ++ serverOptions ++ mappingOptions)

/-- What the driver answers while a scan begins: the return code and
diagnostic text of `SQLDriverConnect` and of `SQLExecDirect`, and the column
count `SQLNumResultCols` reports. -/
structure BeginDriver where
  connectRet : Int
  connectDiag : String
  execRet : Int
  execDiag : String
  result_columns : Nat
  deriving DecidableEq, Repr

/-- The scan state `odbcBeginForeignScan` leaves in `node->fdw_state`: the
fields `odbcIterateForeignScan` uses, and the copy in `festate->options`. -/
structure BeginState where
  festate : odbcFdwExecutionState
  options : odbcFdwOptions

/-- Source: `odbcBeginForeignScan` (odbc_fdw.c:1990-2072).  `none` is the
return under `EXEC_FLAG_EXPLAIN_ONLY`, which leaves `fdw_state` unset.  The
three arrays of the state are not set here; they are empty until the first
pull fills them. -/
def odbcBeginForeignScan (defGetBoolean : String → Bool) (explainOnly : Bool)
    (tableOptions serverOptions mappingOptions : List OptionDef) (driver : BeginDriver)
    (natts : Nat) (retrieved_attrs : List Nat) : Except Abort (Option BeginState) :=
  let encoding : Int := -1
  if explainOnly then .ok none
  else
    let options := odbcGetTableOptions defGetBoolean tableOptions serverOptions mappingOptions
    check_return driver.connectRet driver.connectDiag >>= fun _ =>
    check_return driver.execRet driver.execDiag >>= fun _ =>
    .ok (some {
      festate := {
        natts := natts, retrieved_attrs := retrieved_attrs,
        num_of_result_cols := driver.result_columns, first_iteration := true,
        col_position_mask := [], col_size_array := [], col_conversion_array := [],
        encoding := encoding },
      options := options })

/-! ## Scan clauses of `odbcGetForeignPlan` (odbc_fdw.c:1848-1870) -/

/-- A `RestrictInfo`: `ptr` is its address, by which `list_member_ptr`
compares. -/
structure RestrictInfo (Node : Type) where
  ptr : Nat
  clause : Node
  pseudoconstant : Bool

/-- The host's `list_member_ptr` on lists of `RestrictInfo`. -/
def list_member_ptr {Node : Type} (list : List (RestrictInfo Node))
    (datum : RestrictInfo Node) : Bool :=
  list.any (fun r => r.ptr == datum.ptr)

/-- The locals `remote_exprs`, `local_exprs` and `fdw_recheck_quals`. -/
structure ScanExprs (Node : Type) where
  remote_exprs : List Node
  local_exprs : List Node
  fdw_recheck_quals : List Node

/-- The `foreach` of lines 1848-1863 over the scan clauses that remain, from
the lists built so far. -/
def separateScanClauses {Node : Type} (odbc_is_foreign_expr : Node → Bool)
    (remote_conds local_conds : List (RestrictInfo Node)) :
    List (RestrictInfo Node) → List Node → List Node → List Node × List Node
  | [], remote_exprs, local_exprs => (remote_exprs, local_exprs)
  | rinfo :: rest, remote_exprs, local_exprs =>
    if rinfo.pseudoconstant then
      separateScanClauses odbc_is_foreign_expr remote_conds local_conds rest
        remote_exprs local_exprs
    else if list_member_ptr remote_conds rinfo then
      separateScanClauses odbc_is_foreign_expr remote_conds local_conds rest
        (remote_exprs ++ [rinfo.clause]) local_exprs
    else if list_member_ptr local_conds rinfo then
      separateScanClauses odbc_is_foreign_expr remote_conds local_conds rest
        remote_exprs (local_exprs ++ [rinfo.clause])
    else if odbc_is_foreign_expr rinfo.clause then
      separateScanClauses odbc_is_foreign_expr remote_conds local_conds rest
        (remote_exprs ++ [rinfo.clause]) local_exprs
    else
      separateScanClauses odbc_is_foreign_expr remote_conds local_conds rest
        remote_exprs (local_exprs ++ [rinfo.clause])

/-- Source: `odbcGetForeignPlan`, the branch `IS_SIMPLE_REL(foreignrel)` up to
line 1870. -/
def odbcGetForeignPlan {Node : Type} (odbc_is_foreign_expr : Node → Bool)
    (remote_conds local_conds scan_clauses : List (RestrictInfo Node)) : ScanExprs Node :=
  let r := separateScanClauses odbc_is_foreign_expr remote_conds local_conds scan_clauses [] []
  { remote_exprs := r.1, local_exprs := r.2, fdw_recheck_quals := r.1 }

/-! ## Useful pathkeys (odbc_fdw.c:3918-3940, 4289-4481) -/

/-- The host's `EquivalenceMember`: the relations its expression refers to,
and the expression. -/
structure EquivalenceMember (Node : Type) where
  em_relids : List Nat
  em_expr : Node

/-- The host's `EquivalenceClass`; `ptr` is its address. -/
structure EquivalenceClass (Node : Type) where
  ptr : Nat
  ec_has_volatile : Bool
  ec_members : List (EquivalenceMember Node)
  ec_relids : List Nat
  ec_opfamilies : List Nat

/-- The host's `PathKey`. -/
structure PathKey (Node : Type) where
  pk_eclass : EquivalenceClass Node
  pk_opfamily : Nat
  pk_strategy : Nat
  pk_nulls_first : Bool

/-- The host's `bms_is_subset` on sets given as lists. -/
def bms_is_subset (a b : List Nat) : Bool := a.all (fun x => b.contains x)

/-- The host's `bms_overlap` on sets given as lists. -/
def bms_overlap (a b : List Nat) : Bool := a.any (fun x => b.contains x)

/-- Source: `odbc_find_em_expr_for_rel`; `none` is NULL. -/
def odbc_find_em_expr_for_rel {Node : Type} (ec : EquivalenceClass Node)
    (relids : List Nat) : Option Node :=
  (ec.ec_members.find? (fun em => bms_is_subset em.em_relids relids)).map
    (fun em => em.em_expr)

/-- A join clause of `rel->joininfo` after `update_mergeclause_eclasses`. -/
structure JoinClause (Node : Type) where
  mergeopfamilies : List Nat
  left_ec : EquivalenceClass Node
  right_ec : EquivalenceClass Node

/-- The fields of the relation and of its descriptor that the pathkey code
reads. -/
structure PathkeyRel (Node : Type) where
  relids : List Nat
  top_parent_relids : List Nat
  isOtherRel : Bool
  has_eclass_joins : Bool
  joininfo : List (JoinClause Node)
  use_remote_estimate : Bool

/-- The host's `list_append_unique_ptr` on lists of equivalence classes. -/
def list_append_unique_ptr {Node : Type} (list : List (EquivalenceClass Node))
    (datum : EquivalenceClass Node) : List (EquivalenceClass Node) :=
  if list.any (fun e => e.ptr == datum.ptr) then list else list ++ [datum]

/-- The `foreach` over `rel->joininfo` of `get_useful_ecs_for_relation`. -/
def joinClauseEcs {Node : Type} (relids : List Nat) :
    List (JoinClause Node) → List (EquivalenceClass Node) → List (EquivalenceClass Node)
  | [], useful_eclass_list => useful_eclass_list
  | restrictinfo :: rest, useful_eclass_list =>
    if restrictinfo.mergeopfamilies.isEmpty then joinClauseEcs relids rest useful_eclass_list
    else if bms_overlap relids restrictinfo.right_ec.ec_relids then
      joinClauseEcs relids rest (list_append_unique_ptr useful_eclass_list restrictinfo.right_ec)
    else if bms_overlap relids restrictinfo.left_ec.ec_relids then
      joinClauseEcs relids rest (list_append_unique_ptr useful_eclass_list restrictinfo.left_ec)
    else joinClauseEcs relids rest useful_eclass_list

/-- Source: `get_useful_ecs_for_relation`.  `eq_classes` is
`root->eq_classes` and `eclass_useful_for_merging` the host's test. -/
def get_useful_ecs_for_relation {Node : Type} (eq_classes : List (EquivalenceClass Node))
    (eclass_useful_for_merging : EquivalenceClass Node → Bool) (rel : PathkeyRel Node) :
    List (EquivalenceClass Node) :=
  let useful_eclass_list :=
    if rel.has_eclass_joins then eq_classes.filter eclass_useful_for_merging else []
  if rel.joininfo.isEmpty then useful_eclass_list
  else
    let relids := if rel.isOtherRel then rel.top_parent_relids else rel.relids
    joinClauseEcs relids rel.joininfo useful_eclass_list

/-- The test of lines 4320-4322 on one pathkey of the query, negated: the
pathkey can be sorted by on the remote side. -/
def pathkeyPushable {Node : Type} (odbc_is_foreign_expr : Node → Bool) (relids : List Nat)
    (pathkey : PathKey Node) : Bool :=
  let pathkey_ec := pathkey.pk_eclass
  if pathkey_ec.ec_has_volatile then false
  else
    match odbc_find_em_expr_for_rel pathkey_ec relids with
    | none => false
    | some em_expr => odbc_is_foreign_expr em_expr

/-- The `foreach` of lines 4305-4328: the value of `query_pathkeys_ok` when
the loop ends; the first pathkey that fails ends it. -/
def queryPathkeysOk {Node : Type} (odbc_is_foreign_expr : Node → Bool) (relids : List Nat) :
    List (PathKey Node) → Bool
  | [] => true
  | pathkey :: rest =>
    if !pathkeyPushable odbc_is_foreign_expr relids pathkey then false
    else queryPathkeysOk odbc_is_foreign_expr relids rest

/-- The host's `BTLessStrategyNumber`. -/
def BTLessStrategyNumber : Nat := 1

/-- The host's `make_canonical_pathkey`: the pathkey with these fields. -/
def make_canonical_pathkey {Node : Type} (eclass : EquivalenceClass Node) (opfamily : Nat)
    (strategy : Nat) (nulls_first : Bool) : PathKey Node :=
  { pk_eclass := eclass, pk_opfamily := opfamily, pk_strategy := strategy,
    pk_nulls_first := nulls_first }

/-- The `foreach` of lines 4363-4387 over the useful equivalence classes;
`query_ec` is the address of the query's single class, if it has one. -/
def mergePathkeys {Node : Type} (odbc_is_foreign_expr : Node → Bool) (relids : List Nat)
    (query_ec : Option Nat) :
    List (EquivalenceClass Node) → List (List (PathKey Node)) → List (List (PathKey Node))
  | [], useful_pathkeys_list => useful_pathkeys_list
  | cur_ec :: rest, useful_pathkeys_list =>
    if query_ec = some cur_ec.ptr then
      mergePathkeys odbc_is_foreign_expr relids query_ec rest useful_pathkeys_list
    else
      match odbc_find_em_expr_for_rel cur_ec relids with
      | none => mergePathkeys odbc_is_foreign_expr relids query_ec rest useful_pathkeys_list
      | some em_expr =>
        if !odbc_is_foreign_expr em_expr then
          mergePathkeys odbc_is_foreign_expr relids query_ec rest useful_pathkeys_list
        else
          let pathkey := make_canonical_pathkey cur_ec (cur_ec.ec_opfamilies.headD 0)
            BTLessStrategyNumber false
          mergePathkeys odbc_is_foreign_expr relids query_ec rest
            (useful_pathkeys_list ++ [[pathkey]])

/-- Source: `get_useful_pathkeys_for_relation` (odbc_fdw.c:4289-4390). -/
def get_useful_pathkeys_for_relation {Node : Type} (odbc_is_foreign_expr : Node → Bool)
    (eq_classes : List (EquivalenceClass Node))
    (eclass_useful_for_merging : EquivalenceClass Node → Bool)
    (query_pathkeys : List (PathKey Node)) (rel : PathkeyRel Node) :
    List (List (PathKey Node)) :=
  let useful_pathkeys_list :=
    if !query_pathkeys.isEmpty then
      if queryPathkeysOk odbc_is_foreign_expr rel.relids query_pathkeys then [query_pathkeys]
      else []
    else []
  if !rel.use_remote_estimate then useful_pathkeys_list
  else
    let useful_eclass_list :=
      get_useful_ecs_for_relation eq_classes eclass_useful_for_merging rel
    let query_ec :=
      match query_pathkeys with
      | [query_pathkey] => some query_pathkey.pk_eclass.ptr
      | _ => none
    mergePathkeys odbc_is_foreign_expr rel.relids query_ec useful_eclass_list
      useful_pathkeys_list

/-! ## Closing: `odbcEndForeignScan`, `odbcEndForeignModify`,
`odbcEndDirectModify` (odbc_fdw.c:2408-2432, 3461-3483, 2788-2811) -/

/-- A driver call that a close issues on a handle. -/
inductive HandleCall where
  | SQLFreeHandleStmt (stmt : Nat)
  | SQLDisconnect (conn : Nat)
  | SQLFreeHandleDbc (conn : Nat)
  deriving DecidableEq, Repr

/-- The fields `stmt` and `conn` of a scan, modify or direct-modify state;
`none` is the NULL handle. -/
structure Handles where
  stmt : Option Nat
  conn : Option Nat
  deriving DecidableEq, Repr

/-- Source: `odbcEndForeignScan`.  The argument is `node->fdw_state`, `none`
when it is NULL; the result is the state afterwards and the driver calls
issued. -/
def odbcEndForeignScan (fdw_state : Option Handles) : Option Handles × List HandleCall :=
  match fdw_state with
  | none => (none, [])
  | some festate =>
    let r1 : Handles × List HandleCall :=
      match festate.stmt with
      | some stmt => ({ festate with stmt := none }, [HandleCall.SQLFreeHandleStmt stmt])
      | none => (festate, [])
    let r2 : Handles × List HandleCall :=
      match r1.1.conn with
      | some conn =>
        ({ r1.1 with conn := none },
         r1.2 ++ [HandleCall.SQLDisconnect conn, HandleCall.SQLFreeHandleDbc conn])
      | none => r1
    (some r2.1, r2.2)

/-- Source: `odbcEndForeignModify`.  The argument is
`resultRelInfo->ri_FdwState`. -/
def odbcEndForeignModify (ri_FdwState : Option Handles) : Option Handles × List HandleCall :=
  match ri_FdwState with
  | none => (none, [])
  | some fmstate =>
    let r1 : Handles × List HandleCall :=
      match fmstate.stmt with
      | some stmt => ({ fmstate with stmt := none }, [HandleCall.SQLFreeHandleStmt stmt])
      | none => (fmstate, [])
    let r2 : Handles × List HandleCall :=
      match r1.1.conn with
      | some conn =>
        ({ r1.1 with conn := none },
         r1.2 ++ [HandleCall.SQLDisconnect conn, HandleCall.SQLFreeHandleDbc conn])
      | none => r1
    (some r2.1, r2.2)

/-- Source: `odbcEndDirectModify`.  The argument is `node->fdw_state`. -/
def odbcEndDirectModify (fdw_state : Option Handles) : Option Handles × List HandleCall :=
  match fdw_state with
  | none => (none, [])
  | some dmstate =>
    let r1 : Handles × List HandleCall :=
      match dmstate.stmt with
      | some stmt => ({ dmstate with stmt := none }, [HandleCall.SQLFreeHandleStmt stmt])
      | none => (dmstate, [])
    let r2 : Handles × List HandleCall :=
      match r1.1.conn with
      | some conn =>
        ({ r1.1 with conn := none },
         r1.2 ++ [HandleCall.SQLDisconnect conn, HandleCall.SQLFreeHandleDbc conn])
      | none => r1
    (some r2.1, r2.2)

/-! ## Operations that are not implemented (odbc_fdw.c:2434-2442, 2819-2940) -/

/-- Source: `odbcReScanForeignScan`; `node` is not read. -/
def odbcReScanForeignScan {σ : Type} (_node : σ) : Except Abort Unit :=
  .error (Abort.error "should not be here, TBD")

/-- Source: `odbcExecForeignUpdate`; no argument is read. -/
def odbcExecForeignUpdate {σ τ : Type} (_resultRelInfo : σ) (_slot _planSlot : τ) :
    Except Abort (Option τ) :=
  .error (Abort.error "should not be here, TBD")

/-- Source: `odbcExecForeignDelete`; no argument is read. -/
def odbcExecForeignDelete {σ τ : Type} (_resultRelInfo : σ) (_slot _planSlot : τ) :
    Except Abort (Option τ) :=
  .error (Abort.error "should not be here, TBD")

/-- The host's `OnConflictAction`. -/
inductive OnConflictAction where
  | ONCONFLICT_NONE
  | ONCONFLICT_NOTHING
  | ONCONFLICT_UPDATE
  deriving DecidableEq, Repr

/-- The integer value of an `OnConflictAction`. -/
def OnConflictAction.toNat : OnConflictAction → Nat
  | .ONCONFLICT_NONE => 0
  | .ONCONFLICT_NOTHING => 1
  | .ONCONFLICT_UPDATE => 2

/-- The list `odbcPlanForeignModify` returns: the statement text, the target
attributes, whether attributes are retrieved, and the retrieved attributes. -/
structure ModifyPlan where
  sql : List Char
  targetAttrs : List Nat
  has_returning : Bool
  retrieved_attrs : List Nat
  deriving DecidableEq, Repr

/-- Source: `odbcPlanForeignModify` (odbc_fdw.c:2819-2912), built without
`DIRECT_INSERT`.  `attisdropped` lists the attributes of the relation in
order; `returningList` is the entry of `plan->returningLists` for the subplan
(empty when there is none); `odbc_deparseInsertSql` (odbc_deparse.c) gives the
statement text and the retrieved attributes. -/
def odbcPlanForeignModify (operation : CmdType) (attisdropped : List Bool)
    (returningList : List Nat) (onConflictAction : OnConflictAction)
    (odbc_deparseInsertSql : List Nat → Bool → List Nat → List Char × List Nat) :
    Except Abort ModifyPlan :=
  if operation ≠ CmdType.CMD_INSERT then
    .error (Abort.error ("unexpected operation: " ++ Nat.repr operation.toNat))
  else
    let targetAttrs :=
      ((List.range attisdropped.length).filter (fun k => !attisdropped.getD k true)).map
        (fun k => k + 1)
    (if onConflictAction = OnConflictAction.ONCONFLICT_NOTHING then .ok true
     else if onConflictAction ≠ OnConflictAction.ONCONFLICT_NONE then
       .error (Abort.error ("unexpected ON CONFLICT specification: " ++
         Nat.repr onConflictAction.toNat))
     else .ok false) >>= fun doNothing =>
    let r := odbc_deparseInsertSql targetAttrs doNothing returningList
    .ok { sql := r.1, targetAttrs := targetAttrs, has_returning := !r.2.isEmpty,
          retrieved_attrs := r.2 }

/-! ## Connection attributes (odbc_fdw.c:217-244, 534-567, 1049-1080,
1418-1447) -/

/-- The catalog ids the validator is called with. -/
def ForeignServerRelationId : Nat := 1417
def UserMappingRelationId : Nat := 1418
def ForeignDataWrapperRelationId : Nat := 2328
def ForeignTableRelationId : Nat := 3118

/-- Source: `valid_options` (odbc_fdw.c:226-244) without the sentinel. -/
def valid_options : List (String × Nat) :=
  [("dsn", ForeignServerRelationId), ("driver", ForeignServerRelationId),
   ("encoding", ForeignServerRelationId), ("updatable", ForeignServerRelationId),
   ("schema", ForeignTableRelationId), ("table", ForeignTableRelationId),
   ("prefix", ForeignTableRelationId), ("sql_query", ForeignTableRelationId),
   ("sql_count", ForeignTableRelationId), ("updatable", ForeignTableRelationId)]

/-- The length of the string `odbc_`, `odbc_attribute_prefix_len` in the
source. -/
def odbc_attribute_lead_len : Nat := 5

/-- Source: `is_odbc_attribute`. -/
def is_odbc_attribute (defname : List Char) : Bool :=
  decide (defname.length > odbc_attribute_lead_len) &&
    (defname.take odbc_attribute_lead_len == "odbc_".toList)

/-- Source: `normalized_attributes`. -/
def normalized_attributes : List (List Char) :=
  ["DRIVER".toList, "DSN".toList, "UID".toList, "PWD".toList]

/-- The test `strcasecmp(a, b) == 0` in the C locale. -/
def strcasecmpEq (a b : List Char) : Bool := a.map Char.toLower == b.map Char.toLower

/-- Source: `normalized_attribute`. -/
def normalized_attribute (attribute_name : List Char) : List Char :=
  match normalized_attributes.find? (fun n => strcasecmpEq attribute_name n) with
  | some n => n
  | none => attribute_name

/-- Source: `get_odbc_attribute_name`. -/
def get_odbc_attribute_name (defname : List Char) : List Char :=
  let offset := if is_odbc_attribute defname then odbc_attribute_lead_len else 0
  normalized_attribute (defname.drop offset)

/-- Source: `is_blank_string` on a string that is not NULL. -/
def is_blank_string (s : List Char) : Bool := s.isEmpty

/-- Source: `appendConnAttribute`; the result is `sep` and the string. -/
def appendConnAttribute (sep : Bool) (conn_str : List Char) (name value : List Char) :
    Bool × List Char :=
  if !is_blank_string value then
    let conn_str1 := if sep then conn_str ++ ";".toList else conn_str
    (true, conn_str1 ++ name ++ "=".toList ++ value)
  else (sep, conn_str)

/-- Source: `odbcConnStr`. -/
def odbcConnStr (options : odbcFdwOptions) : List Char :=
  (options.connection_list.foldl
    (fun (acc : Bool × List Char) d =>
      appendConnAttribute acc.1 acc.2 (get_odbc_attribute_name d.defname.toList) d.arg.toList)
    (false, [])).2

/-- Source: `odbcIsValidOption`. -/
def odbcIsValidOption (option : String) (context : Nat) : Bool :=
  if valid_options.any (fun opt => context == opt.2 && opt.1 == option) then true
  else if is_odbc_attribute option.toList then true
  else if context = ForeignTableRelationId then true
  else false

/-! ## Options of a pushdown descriptor (odbc_fdw.c:1482-1486, 1601-1635,
4794-4838) -/

/-- Source: `DEFAULT_FDW_STARTUP_COST` (odbc_fdw.c:90). -/
def DEFAULT_FDW_STARTUP_COST : ℚ := 100

/-- Source: `DEFAULT_FDW_TUPLE_COST` (odbc_fdw.c:93), the decimal 0.01. -/
def DEFAULT_FDW_TUPLE_COST : ℚ := 1 / 100

/-- The option fields of `PgFdwRelationInfo`. -/
structure FdwOptionFields where
  use_remote_estimate : Bool
  fdw_startup_cost : ℚ
  fdw_tuple_cost : ℚ
  shippable_extensions : List Nat
  fetch_size : Int
  deriving DecidableEq, Repr

/-- The option fields after `palloc0`. -/
def FdwOptionFields.zero : FdwOptionFields :=
  { use_remote_estimate := false, fdw_startup_cost := 0, fdw_tuple_cost := 0,
    shippable_extensions := [], fetch_size := 0 }

/-- Lines 1463-1486 of `odbcGetForeignRelSize`: the options of the table are
fetched, the descriptor is allocated zeroed and its option fields are set. -/
def odbcGetForeignRelSize (_options : odbcFdwOptions) : FdwOptionFields :=
  let fpinfo := FdwOptionFields.zero
  let fpinfo := { fpinfo with use_remote_estimate := false }
  let fpinfo := { fpinfo with fdw_startup_cost := DEFAULT_FDW_STARTUP_COST }
  let fpinfo := { fpinfo with fdw_tuple_cost := DEFAULT_FDW_TUPLE_COST }
  let fpinfo := { fpinfo with shippable_extensions := [] }
  { fpinfo with fetch_size := 100 }

/-- Source: `merge_fdw_options`; `fpinfo_i` is `none` when it is NULL. -/
def merge_fdw_options (fpinfo fpinfo_o : FdwOptionFields) (fpinfo_i : Option FdwOptionFields) :
    FdwOptionFields :=
  let fpinfo := { fpinfo with fdw_startup_cost := fpinfo_o.fdw_startup_cost }
  let fpinfo := { fpinfo with fdw_tuple_cost := fpinfo_o.fdw_tuple_cost }
  let fpinfo := { fpinfo with shippable_extensions := fpinfo_o.shippable_extensions }
  let fpinfo := { fpinfo with use_remote_estimate := fpinfo_o.use_remote_estimate }
  let fpinfo := { fpinfo with fetch_size := fpinfo_o.fetch_size }
  match fpinfo_i with
  | some i =>
    { fpinfo with
      use_remote_estimate := fpinfo_o.use_remote_estimate || i.use_remote_estimate,
      fetch_size := if fpinfo_o.fetch_size > i.fetch_size then fpinfo_o.fetch_size
                    else i.fetch_size }
  | none => fpinfo

/-- Lines 4503-4507 and 4554: the option fields of the descriptor that
`odbcGetForeignUpperPaths` allocates for a grouped relation, after
`add_foreign_grouping_paths` has merged those of the input relation. -/
def groupedOptionFields (ifpinfo : FdwOptionFields) : FdwOptionFields :=
  merge_fdw_options FdwOptionFields.zero ifpinfo none

/-- The paths `odbcGetForeignPaths` adds: the plain scan, one path for each
useful list of pathkeys, and one for each `ParamPathInfo`. -/
structure ForeignPaths (κ π : Type) where
  plain : Nat
  ordered : List κ
  parameterized : List π

/-- Source: `odbcGetForeignPaths`.  `useful_pathkeys_list` is what
`add_paths_with_pathkeys_for_rel` makes paths for, and `ppi_list` what the
loops of lines 1650-1761 would collect. -/
def odbcGetForeignPaths {κ π : Type} (fpinfo : FdwOptionFields)
    (useful_pathkeys_list : List κ) (ppi_list : List π) : ForeignPaths κ π :=
  if !fpinfo.use_remote_estimate then
    { plain := 1, ordered := useful_pathkeys_list, parameterized := [] }
  else
    { plain := 1, ordered := useful_pathkeys_list, parameterized := ppi_list }

/-! ## Predicates used in the statements about the truncation handling -/

/-- No byte of the list is the terminator. -/
def NoNul (l : List Nat) : Prop := ∀ c ∈ l, c ≠ 0

instance (l : List Nat) : Decidable (NoNul l) :=
  inferInstanceAs (Decidable (∀ c ∈ l, c ≠ 0))

/-- A reply that fills the whole buffer of `cs + 1` bytes: `cs` characters
followed by the terminator or, when the driver omits it, by one more
character. -/
def FullChunk (cs : Nat) (w : List Nat) : Prop := w.length = cs + 1 ∧ NoNul (w.take cs)

instance (cs : Nat) (w : List Nat) : Decidable (FullChunk cs w) :=
  inferInstanceAs (Decidable (w.length = cs + 1 ∧ NoNul (w.take cs)))

/-- The accumulation buffer holds `pre`, terminated, and has room to grow by
doubling. -/
def AccumFull (cs : Nat) (a : Accum) (pre : List Nat) : Prop :=
  ∃ tail, a.accum_buffer = some (pre ++ 0 :: tail) ∧
    (pre ++ 0 :: tail).length = a.accum_buffer_size + 1 ∧
    a.accum_used = pre.length ∧ cs + 1 ≤ a.accum_buffer_size

/-- Loop invariant: nothing allocated yet, or `AccumFull`. -/
def AccumInv (cs : Nat) (a : Accum) (pre : List Nat) : Prop :=
  (a = ⟨none, 0, 0⟩ ∧ pre = []) ∨ AccumFull cs a pre

/-! ## Predicates used in the statements about the planner -/

/-- The attribute number of member `col` of `updatedCols`. -/
def attnoOf (col : Nat) : Int := (col : Int) + FirstLowInvalidHeapAttributeNumber

/-- Every explicitly updated column is a user column, has a target entry,
and the expression of that entry passes the remote-safety test. -/
def TargetsShippable {Expr : Type} (is_foreign_expr : Expr → Bool)
    (targetlist : List (TargetEntry Expr)) (cols : List Nat) : Prop :=
  ∀ col ∈ cols, 0 < attnoOf col ∧
    ∃ tle, get_tle_by_resno targetlist (attnoOf col) = some tle ∧
      is_foreign_expr tle.expr = true

/-- The eligibility conditions of the direct-modify fast path. -/
def DirectModifyEligible {Expr : Type} (is_foreign_expr : Expr → Bool)
    (plan : DirectModifyPlan Expr) : Prop :=
  (plan.operation = CmdType.CMD_UPDATE ∨ plan.operation = CmdType.CMD_DELETE) ∧
  plan.subplanIsForeignScan = true ∧ plan.qual = [] ∧ plan.scanrelid ≠ 0 ∧
  (plan.operation = CmdType.CMD_UPDATE →
    TargetsShippable is_foreign_expr plan.targetlist plan.updatedCols)

/-- An entry of the grouping target is a GROUP BY expression: it has a
sortgroupref that a GROUP BY clause carries (line 4628). -/
def IsGroupBy (groupClause : List Nat) (p : α × Nat) : Prop :=
  p.2 ≠ 0 ∧ p.2 ∈ groupClause

/-- The checks of `foreign_grouping_ok` on the grouping target: a GROUP BY
expression passes the remote-safety test; any other expression passes it as
a whole, or else the list of the Vars and aggregates it references passes
it. -/
def TargetChecks {Node : Type} (h : ExprHost Node) (groupClause : List Nat)
    (target : List (Node × Nat)) : Prop :=
  ∀ p ∈ target,
    (IsGroupBy groupClause p → h.odbc_is_foreign_expr p.1 = true) ∧
    (¬ IsGroupBy groupClause p → h.odbc_is_foreign_expr p.1 = true ∨
      h.odbc_is_foreign_expr (h.listNode (h.pull_var_clause p.1)) = true)

/-- All checks of `foreign_grouping_ok`: no grouping sets, no local condition
on the underlying scan, the checks on the grouping target, and every
aggregate referenced by a HAVING clause that stays local passes the
remote-safety test. -/
def GroupingChecks {Node : Type} (h : ExprHost Node) (query : GroupingQuery Node)
    (ofpinfo : PgFdwRelationInfo Node) : Prop :=
  query.groupingSets = false ∧ ofpinfo.local_conds = [] ∧
  TargetChecks h query.groupClause query.grouping_target ∧
  (query.hasHavingQual = true → ∀ c ∈ query.havingQual,
    h.odbc_is_foreign_expr c = false →
    ∀ a ∈ h.pull_var_clause c, h.isAggref a = true → h.odbc_is_foreign_expr a = true)

/-- The remote-safety test is compositional: an expression that passes has
only Vars and aggregates that pass, and a list that passes has only members
that pass. -/
def Compositional {Node : Type} (h : ExprHost Node) : Prop :=
  (∀ e, h.odbc_is_foreign_expr e = true →
    ∀ a ∈ h.pull_var_clause e, h.odbc_is_foreign_expr a = true) ∧
  (∀ l, h.odbc_is_foreign_expr (h.listNode l) = true →
    ∀ a ∈ l, h.odbc_is_foreign_expr a = true)

/-- Every aggregate referenced by an expression of the grouping target or by
a HAVING clause passes the remote-safety test. -/
def AggregatesShippable {Node : Type} (h : ExprHost Node) (query : GroupingQuery Node) :
    Prop :=
  (∀ p ∈ query.grouping_target, ∀ a ∈ h.pull_var_clause p.1,
    h.isAggref a = true → h.odbc_is_foreign_expr a = true) ∧
  (query.hasHavingQual = true → ∀ c ∈ query.havingQual, ∀ a ∈ h.pull_var_clause c,
    h.isAggref a = true → h.odbc_is_foreign_expr a = true)


/-- The entries of the cache have distinct keys, as those of a hash table
do. -/
def CacheKeysDistinct (cache : ShippableCache) : Prop :=
  ((cache.table.getD []).map Prod.fst).Nodup

/-- Both parts of a `QualCost` are non-negative. -/
def QualCost.Nonneg (c : QualCost) : Prop := 0 ≤ c.startup ∧ 0 ≤ c.per_tuple

/-- The cached costs and the row count of an input relation are
non-negative. -/
def FdwCostInfo.Nonneg (fp : FdwCostInfo) : Prop :=
  0 ≤ fp.rel_startup_cost ∧ 0 ≤ fp.rel_total_cost ∧ 0 ≤ fp.rows

/-- The costs and counts that the branch for this kind of relation reads are
non-negative. -/
def RelShape.Nonneg : RelShape → Prop
  | .join fpinfo_i fpinfo_o remote_conds_cost join_cost =>
    fpinfo_i.Nonneg ∧ fpinfo_o.Nonneg ∧ remote_conds_cost.Nonneg ∧ join_cost.Nonneg
  | .upper ofpinfo _ aggcosts _ numGroups ptarget_cost =>
    ofpinfo.Nonneg ∧ aggcosts.transCost.Nonneg ∧ 0 ≤ aggcosts.finalCost ∧ 0 ≤ numGroups ∧
      ptarget_cost.Nonneg
  | .base tuples pages baserestrictcost =>
    0 ≤ tuples ∧ 0 ≤ pages ∧ baserestrictcost.Nonneg

/-- The cost inputs of an estimate are non-negative: the host's cost settings,
the row estimates `clamp_row_est` gives, the cost of the local conditions, and
what the branch for the kind of relation reads.  The cached pair of the
relation itself is not constrained. -/
def CostInputsNonneg (env : CostEnv) (foreignrel : ForeignRel) : Prop :=
  0 ≤ env.seq_page_cost ∧ 0 ≤ env.cpu_tuple_cost ∧ 0 ≤ env.cpu_operator_cost ∧
  (∀ x, 0 ≤ env.clamp_row_est x) ∧
  foreignrel.fpinfo.local_conds_cost.Nonneg ∧ foreignrel.shape.Nonneg

/-- The three bounds on the planned size of the transfer buffer of a column:
at least the declared size, at least the minimum of the type, at most
`MAXIMUM_BUFFER_SIZE`. -/
def BufferSizeBounds (desc : ColumnDescription) : Prop :=
  desc.columnSize ≤ (planColumn desc).2 ∧
  minimum_buffer_size desc.dataType ≤ (planColumn desc).2 ∧
  (planColumn desc).2 ≤ MAXIMUM_BUFFER_SIZE

/-- A type name that starts neither with `bit(` nor with `varbit(`. -/
def NoBitName (s : List Char) : Prop :=
  ("bit(".toList.isPrefixOf s) = false ∧ ("varbit(".toList.isPrefixOf s) = false

/-- The decision of lines 1857-1862 for a scan clause that is not a
pseudoconstant: it goes to `remote_exprs` when it is in `remote_conds`, or is
in neither list of the descriptor and passes `odbc_is_foreign_expr`. -/
def shipsRemote {Node : Type} (odbc_is_foreign_expr : Node → Bool)
    (remote_conds local_conds : List (RestrictInfo Node)) (rinfo : RestrictInfo Node) : Bool :=
  list_member_ptr remote_conds rinfo ||
    (!list_member_ptr local_conds rinfo && odbc_is_foreign_expr rinfo.clause)

/-- A pathkey qualifies for the remote side: its equivalence class is not
volatile, `odbc_find_em_expr_for_rel` finds an expression, and the expression
passes `odbc_is_foreign_expr`. -/
def PathkeyQualifies {Node : Type} (odbc_is_foreign_expr : Node → Bool) (relids : List Nat)
    (pathkey : PathKey Node) : Prop :=
  pathkey.pk_eclass.ec_has_volatile = false ∧
  ∃ em_expr, odbc_find_em_expr_for_rel pathkey.pk_eclass relids = some em_expr ∧
    odbc_is_foreign_expr em_expr = true


/-- The type OIDs that `odbc_Bind_Prepared` has a case for: bool, bytea, char,
int8, int2, int4, text, float4, float8, bpchar, varchar, date, time,
timestamp, numeric, uuid. -/
def supportedBindTypes : List Nat :=
  [16, 17, 18, 20, 21, 23, 25, 700, 701, 1042, 1043, 1082, 1083, 1114, 1700, 2950]

/-- The binding of a value with text `s` to a column of type `atttypid` in
which the declared width of every string-like type (char, bpchar, varchar,
text) is the length of the text: boolean as a small integer, bytea as a long
binary parameter of width 0, every other type as character data of width 0. -/
def WidthIsTextLength (atttypid : Nat) (s : List Char) (b : BoundParam) : Prop :=
  if atttypid = 16 then b.valueType = SQL_C_SHORT ∧ b.parameterType = SQL_SMALLINT
  else if atttypid = 17 then b.parameterType = SQL_LONGVARBINARY ∧ b.columnSize = 0
  else b.valueType = SQL_C_CHAR ∧
    b.columnSize = (if atttypid ∈ [18, 1042, 1043, 25] then (s.length : Int) else 0)

/-! ## Concrete inputs used in the evaluations below -/

/-- A steady-state scan state with one text column of 4 characters. -/
def sampleState : odbcFdwExecutionState :=
  { natts := 2, retrieved_attrs := [1], num_of_result_cols := 1, first_iteration := false,
    col_position_mask := [0], col_size_array := [4],
    col_conversion_array := [ColumnConversion.TEXT_CONVERSION], encoding := -1 }

/-- A host whose input function returns the length of the text. -/
def sampleHost : ScanHost Nat :=
  { pg_any_to_server := fun _ b => .ok b, InputFunctionCall := fun _ t => .ok t.length }

/-- A host of the insert path: values are printed by `Nat.repr`; the input
functions are strict (the NULL string gives the zero word), the text `t`
reads as the word 1, and any other text as a variable-length value with one
payload byte per character. -/
def sampleModifyHost : ModifyHost Nat :=
  { OutputFunctionCall := fun _ v => (Nat.repr v).toList,
    InputFunctionCall := fun _ s =>
      match s with
      | none => .ok (Datum.word 0)
      | some t => if t = ['t'] then .ok (Datum.word 1)
                  else .ok (Datum.varlena (t.map Char.toNat)) }

/-- An insert into a table with one column of type OID `typ`, on a driver
that accepts every binding. -/
def sampleModify (typ : Nat) : odbcFdwModifyState :=
  { query := "INSERT INTO t VALUES".toList, target_attrs := [1], atttypid := fun _ => typ,
    bindRet := fun _ => SQL_SUCCESS, diag := "diagnostic" }

/-- The text `a` quote `b`. -/
def sampleQuoted : List Char := ['a', SINGLE_QUOTE, 'b']

/-- A direct-modify state as `odbcBeginDirectModify` leaves it. -/
def sampleDirect : odbcFdwDirectModifyState :=
  { query := "DELETE FROM t", num_tuples := -1, set_processed := true, es_processed := 0 }

/-- A driver that executes every statement and reports the row count
`count` each time. -/
def sampleModifyDriver (count : Int) : ModifyDriver :=
  { execRets := [SQL_SUCCESS, SQL_SUCCESS, SQL_SUCCESS],
    rowCounts := [(SQL_SUCCESS, count), (SQL_SUCCESS, count), (SQL_SUCCESS, count)],
    diag := "diagnostic", calls := [] }

/-- Expression nodes as numbers: a node passes the remote-safety test when it
is below 100, is an aggregate from 50 on, references nothing, and a list of
nodes is viewed as the node of their sum. -/
def sampleExprHost : ExprHost Nat :=
  { odbc_is_foreign_expr := fun n => decide (n < 100), isAggref := fun n => decide (50 ≤ n),
    pull_var_clause := fun _ => [], listNode := fun l => l.sum }

/-- A query that groups by node 1 and computes the aggregate 60. -/
def sampleQuery : GroupingQuery Nat :=
  { groupClause := [1], groupingSets := false, hasAggs := true, hasHavingQual := false,
    havingQual := [], grouping_target := [(1, 1), (60, 0)] }

/-- The descriptor of a safe underlying scan without local conditions. -/
def sampleScanInfo : PgFdwRelationInfo Nat :=
  { pushdown_safe := true, remote_conds := [], local_conds := [], grouped_tlist := [],
    rel_startup_cost := -1, rel_total_cost := -1 }


/-- A catalog in which every object belongs to extension 7. -/
def sampleExtensionOf : Nat → Nat → Nat := fun _ _ => 7

/-- A cache that holds one decision, for another object. -/
def sampleCache : ShippableCache :=
  { table := some [({ objid := 5, classid := 1255, serverid := 1 }, false)], lookups := 3 }

/-- Cost settings with the host's defaults; `clamp_row_est` without its
rounding. -/
def sampleCostEnv : CostEnv :=
  { seq_page_cost := 1, cpu_tuple_cost := 1 / 100, cpu_operator_cost := 1 / 400,
    clamp_row_est := fun x => if x ≤ 1 then 1 else x }

/-- A descriptor as `odbcGetForeignRelSize` prepares it: costs reset, startup
cost 100 and tuple cost 0.01 for the connection. -/
def sampleCostInfo : FdwCostInfo :=
  resetRelCosts
    { rows := 0, width := 0, local_conds_sel := 1,
      local_conds_cost := { startup := 0, per_tuple := 0 }, joinclause_sel := 1,
      rel_startup_cost := 0, rel_total_cost := 0, fdw_startup_cost := 100,
      fdw_tuple_cost := 1 / 100 }

/-- A base relation of 1000 rows on 10 pages whose restriction clauses have
the given startup cost. -/
def sampleBaseRel (startup : ℚ) : ForeignRel :=
  { rows := 1000, width := 8,
    shape := .base 1000 10 { startup := startup, per_tuple := 1 / 400 },
    fpinfo := sampleCostInfo }

/-- A scan state before the first pull: one result column for attribute 1 of
two. -/
def sampleFreshState : odbcFdwExecutionState :=
  { natts := 2, retrieved_attrs := [1], num_of_result_cols := 1, first_iteration := true,
    col_position_mask := [], col_size_array := [], col_conversion_array := [], encoding := -1 }

/-- A host whose encoding conversion changes every byte and whose input
function returns the text. -/
def sampleRecodingHost : ScanHost (List Nat) :=
  { pg_any_to_server := fun _ b => .ok (b.map (fun c => if c = 0 then 0 else c + 1)),
    InputFunctionCall := fun _ t => .ok t }

/-- A driver that connects and executes with success and reports one result
column. -/
def sampleBeginDriver : BeginDriver :=
  { connectRet := SQL_SUCCESS, connectDiag := "", execRet := SQL_SUCCESS, execDiag := "",
    result_columns := 1 }

/-- Expression nodes as numbers, with a remote-safety test that looks at a
list as one node: node 300 references the aggregate 200, nodes below 100
pass the test, and every list is viewed as node 0. -/
def sampleListHost : ExprHost Nat :=
  { odbc_is_foreign_expr := fun n => decide (n < 100), isAggref := fun n => decide (n = 200),
    pull_var_clause := fun n => if n = 300 then [200] else [], listNode := fun _ => 0 }

/-- A query that groups by node 1 and computes node 300. -/
def sampleListQuery : GroupingQuery Nat :=
  { groupClause := [1], groupingSets := false, hasAggs := true, hasHavingQual := false,
    havingQual := [], grouping_target := [(1, 1), (300, 0)] }

/-! ## Lemmas on memory operations -/

theorem ok_bind {ε α β : Type} (a : α) (f : α → Except ε β) :
    (Except.ok a >>= f) = f a := rfl

theorem error_bind {ε α β : Type} (e : ε) (f : α → Except ε β) :
    ((Except.error e : Except ε α) >>= f) = Except.error e := rfl

theorem pure_eq_ok {ε α : Type} (a : α) : (pure a : Except ε α) = Except.ok a := rfl

theorem palloc_length (junk : Nat → Nat) (n : Nat) : (palloc junk n).length = n := by
  simp [palloc]

theorem cstring_append_nul (p t : List Nat) (hp : NoNul p) : cstring (p ++ 0 :: t) = p := by
  induction p with
  | nil => simp [cstring]
  | cons c p ih =>
    have hc : c ≠ 0 := hp c (List.mem_cons_self _ _)
    have hb : (c != 0) = true := by simpa using hc
    have hp2 : NoNul p := fun d hd => hp d (List.mem_cons_of_mem _ hd)
    have := ih hp2
    simp only [cstring] at this ⊢
    rw [List.cons_append, List.takeWhile_cons, hb]
    simp [this]

theorem cstring_of_noNul (p : List Nat) (hp : NoNul p) : cstring p = p := by
  induction p with
  | nil => simp [cstring]
  | cons c p ih =>
    have hc : c ≠ 0 := hp c (List.mem_cons_self _ _)
    have hb : (c != 0) = true := by simpa using hc
    have hp2 : NoNul p := fun d hd => hp d (List.mem_cons_of_mem _ hd)
    have := ih hp2
    simp only [cstring] at this ⊢
    rw [List.takeWhile_cons, hb]
    simp [this]

theorem cstring_length_le (m : List Nat) : (cstring m).length ≤ m.length := by
  induction m with
  | nil => simp [cstring]
  | cons c m ih =>
    simp only [cstring] at ih ⊢
    rw [List.takeWhile_cons]
    cases hb : (c != 0)
    · simp
    · simp only [if_true, List.length_cons]; omega

theorem strncpyBytes_length (src : List Nat) (n : Nat) : (strncpyBytes src n).length = n := by
  have h1 := cstring_length_le (src.take n)
  have h2 : (src.take n).length ≤ n := by simp
  simp only [strncpyBytes, List.length_append, List.length_replicate]
  omega

theorem writeBytes_behind (p t src : List Nat) (h : src.length ≤ t.length) :
    writeBytes (p ++ t) p.length src = .ok (p ++ src ++ t.drop src.length) := by
  unfold writeBytes
  have : p.length + src.length ≤ (p ++ t).length := by simp; omega
  rw [if_pos this]
  congr 1
  simp [List.take_append_eq_append_take, List.drop_append_eq_append_drop]

/-- Copy a part behind the prefix and terminate it. -/
theorem copy_then_close (p t src : List Nat) (h : src.length + 1 ≤ t.length) :
    (writeBytes (p ++ t) p.length src >>= fun m => store m (p.length + src.length) 0)
      = .ok (p ++ src ++ 0 :: t.drop (src.length + 1)) := by
  rw [writeBytes_behind p t src (by omega), ok_bind]
  unfold store
  have h1 := writeBytes_behind (p ++ src) (t.drop src.length) [0] (by simp; omega)
  simp only [List.length_append] at h1
  rw [h1]
  simp [List.drop_drop, Nat.add_comm]

theorem bufLen_bounds (cs : Nat) (buf : List Nat) :
    cs ≤ bufLen cs buf ∧ bufLen cs buf ≤ cs + 1 := by
  unfold bufLen; split <;> omega

theorem growAccum_step (junk : Nat → Nat) (cs bl : Nat) (a : Accum) (pre : List Nat)
    (hcs : 1 ≤ cs) (hbl1 : cs ≤ bl) (hbl : bl ≤ cs + 1) (h : AccumInv cs a pre) :
    ∃ a1, growAccum junk cs bl a = .ok a1 ∧ AccumFull cs a1 pre ∧
      a1.accum_used + bl ≤ a1.accum_buffer_size := by
  rcases h with ⟨rfl, rfl⟩ | ⟨tail, hbuf, hlen, hused, hsize⟩
  · have hgt : 0 + bl > 0 := by omega
    have hf := palloc_length junk (cs * 2 + 1)
    have hw := writeBytes_behind [] (palloc junk (cs * 2 + 1)) [0] (by simp [hf])
    simp only [List.length_nil, List.nil_append] at hw
    refine ⟨⟨some (0 :: (palloc junk (cs * 2 + 1)).drop 1), cs * 2, 0⟩, ?_, ?_, ?_⟩
    · simp only [growAccum, hgt, if_true, store, pure_eq_ok, ok_bind, beq_self_eq_true]
      rw [hw]
      simp [ok_bind]
    · refine ⟨(palloc junk (cs * 2 + 1)).drop 1, by simp, ?_, by simp, by simp; omega⟩
      simp [hf]
    · simp; omega
  · by_cases hg : a.accum_used + bl > a.accum_buffer_size
    · have hne : a.accum_buffer_size ≠ 0 := by omega
      have hpl : pre.length ≤ a.accum_buffer_size := by
        simp at hlen; omega
      have hf := palloc_length junk (a.accum_buffer_size * 2 + 1)
      have hmv : memmove (palloc junk (a.accum_buffer_size * 2 + 1)) (pre ++ 0 :: tail)
          a.accum_used = .ok (pre ++ (palloc junk (a.accum_buffer_size * 2 + 1)).drop pre.length) := by
        have := writeBytes_behind [] (palloc junk (a.accum_buffer_size * 2 + 1)) pre
          (by rw [hf]; omega)
        simp only [List.length_nil, List.nil_append] at this
        simp [memmove, hused, this]
      have hst := writeBytes_behind pre
        ((palloc junk (a.accum_buffer_size * 2 + 1)).drop pre.length) [0]
        (by simp [hf]; omega)
      refine ⟨⟨some (pre ++ 0 :: ((palloc junk (a.accum_buffer_size * 2 + 1)).drop pre.length).drop 1),
        a.accum_buffer_size * 2, a.accum_used⟩, ?_, ?_, ?_⟩
      · have hb : (a.accum_buffer_size == 0) = false := by simpa using hne
        simp only [growAccum, hg, if_true, hbuf, store, hb, Bool.false_eq_true, if_false]
        rw [hmv]
        simp only [ok_bind, hused]
        rw [hst]
        simp [pure_eq_ok, ok_bind, hused]
      · refine ⟨_, rfl, ?_, hused, by simp; omega⟩
        simp [hf]; omega
      · simp; omega
    · refine ⟨a, ?_, ⟨tail, hbuf, hlen, hused, hsize⟩, by omega⟩
      simp [growAccum, hg, pure_eq_ok]

theorem copyPart_step (cs bl : Nat) (buf : List Nat) (a : Accum) (pre : List Nat)
    (h : AccumFull cs a pre) (hfit : a.accum_used + bl ≤ a.accum_buffer_size) :
    ∃ a2, copyPart buf bl a = .ok a2 ∧ AccumFull cs a2 (pre ++ strncpyBytes buf bl) := by
  obtain ⟨tail, hbuf, hlen, hused, hsize⟩ := h
  have hsl := strncpyBytes_length buf bl
  have htl : bl ≤ tail.length := by simp at hlen; omega
  have hcc := copy_then_close pre (0 :: tail) (strncpyBytes buf bl) (by simp [hsl]; omega)
  rw [hsl] at hcc
  refine ⟨⟨some (pre ++ strncpyBytes buf bl ++ 0 :: (0 :: tail).drop (bl + 1)),
    a.accum_buffer_size, a.accum_used + bl⟩, ?_, ?_⟩
  · simp only [copyPart, hbuf, strncpy, hused]
    have : ∀ (x : Except Abort (List Nat)) (f : List Nat → Except Abort (List Nat)),
        x >>= f = .ok (pre ++ strncpyBytes buf bl ++ 0 :: (0 :: tail).drop (bl + 1)) →
        (do let copied ← x; let closed ← f copied
            pure { accum_buffer := some closed, accum_buffer_size := a.accum_buffer_size,
                   accum_used := pre.length + bl : Accum }) =
          .ok ⟨some (pre ++ strncpyBytes buf bl ++ 0 :: (0 :: tail).drop (bl + 1)),
            a.accum_buffer_size, pre.length + bl⟩ := by
      intro x f hx
      cases x with
      | error e => simp [error_bind] at hx
      | ok v =>
        simp only [ok_bind] at hx ⊢
        simp [hx, ok_bind, pure_eq_ok]
    exact this _ _ hcc
  · refine ⟨(0 :: tail).drop (bl + 1), rfl, ?_, by simp [hused, hsl], hsize⟩
    simp [hsl] at hlen ⊢
    omega

theorem accumulatePart_step (junk : Nat → Nat) (cs : Nat) (buf : List Nat) (a : Accum)
    (pre : List Nat) (hcs : 1 ≤ cs) (h : AccumInv cs a pre) :
    ∃ a2, accumulatePart junk cs buf a = .ok a2 ∧
      AccumFull cs a2 (pre ++ strncpyBytes buf (bufLen cs buf)) := by
  obtain ⟨hb1, hb2⟩ := bufLen_bounds cs buf
  obtain ⟨a1, h1, hfull, hfit⟩ := growAccum_step junk cs (bufLen cs buf) a pre hcs hb1 hb2 h
  obtain ⟨a2, h2, hfull2⟩ := copyPart_step cs (bufLen cs buf) buf a1 pre hfull hfit
  exact ⟨a2, by simp [accumulatePart, h1, ok_bind, h2], hfull2⟩

theorem fullChunk_split (cs : Nat) (w : List Nat) (h : FullChunk cs w) :
    ∃ p x, w = p ++ [x] ∧ p.length = cs ∧ NoNul p := by
  obtain ⟨hl, hn⟩ := h
  have hne : w ≠ [] := by intro h0; simp [h0] at hl
  refine ⟨w.dropLast, w.getLast hne, (List.dropLast_append_getLast hne).symm, by simp [hl], ?_⟩
  have : w.take cs = w.dropLast := by
    rw [List.dropLast_eq_take, hl]; simp
  rwa [this] at hn

theorem bufLen_snoc (p : List Nat) (x : Nat) :
    bufLen p.length (p ++ [x]) = if x = 0 then p.length else p.length + 1 := by
  simp [bufLen, List.getD]

theorem fullChunk_copy (cs : Nat) (w : List Nat) (h : FullChunk cs w) :
    strncpyBytes w (bufLen cs w) = cstring w ∧ NoNul (cstring w) := by
  obtain ⟨p, x, rfl, rfl, hp⟩ := fullChunk_split cs w h
  rw [bufLen_snoc]
  by_cases hx : x = 0
  · subst hx
    have h1 : cstring (p ++ [0]) = p := cstring_append_nul p [] hp
    simp [strncpyBytes, h1, cstring_of_noNul p hp, hp]
  · have hn : NoNul (p ++ [x]) := by
      intro c hc
      rcases List.mem_append.mp hc with h1 | h1
      · exact hp c h1
      · simp at h1; omega
    have h1 : cstring (p ++ [x]) = p ++ [x] := cstring_of_noNul _ hn
    have ht : (p ++ [x]).take (p.length + 1) = p ++ [x] := List.take_of_length_le (by simp)
    simp [strncpyBytes, hx, h1, hn, ht]

theorem replicate_zero_cons (k : Nat) (tail : List Nat) :
    List.replicate k 0 ++ 0 :: tail = 0 :: (List.replicate k 0 ++ tail) := by
  induction k with
  | zero => rfl
  | succ k ih => simp [List.replicate_succ, ih]

theorem lastChunk_copy (cs : Nat) (last stale : List Nat) (hl : last.length ≤ cs)
    (hn : NoNul last) :
    ∃ k, strncpyBytes (last ++ 0 :: stale) (bufLen cs (last ++ 0 :: stale))
      = last ++ List.replicate k 0 := by
  obtain ⟨hb1, _⟩ := bufLen_bounds cs (last ++ 0 :: stale)
  generalize bufLen cs (last ++ 0 :: stale) = bl at hb1
  have hc : cstring ((last ++ 0 :: stale).take bl) = last := by
    rw [List.take_append_eq_append_take]
    have h1 : last.take bl = last := List.take_of_length_le (by omega)
    rw [h1]
    by_cases hz : bl - last.length = 0
    · rw [hz]
      simpa using cstring_of_noNul last hn
    · have h2 : bl - last.length = (bl - last.length - 1) + 1 := by omega
      rw [h2, List.take_succ_cons]
      exact cstring_append_nul _ _ hn
  exact ⟨bl - last.length, by simp only [strncpyBytes, hc]⟩

theorem deliver_whole (buf w : List Nat) (cs : Nat) (hb : buf.length = cs + 1)
    (hw : w.length ≤ cs + 1) :
    deliver buf 0 ((cs : Int) + 1) w = .ok (w ++ buf.drop w.length) := by
  have h1 : (w.length : Int) ≤ (cs : Int) + 1 := by exact_mod_cast hw
  have h2 := writeBytes_behind [] buf w (by omega)
  simp only [List.length_nil, List.nil_append] at h2
  simp [deliver, h1, h2]

theorem accumulateLoop_done (junk : Nat → Nat) (cs col : Nat) (reads : List GetDataReply)
    (buf : List Nat) (ret ind : Int) (a a1 : Accum) (calls : List OdbcCall)
    (hret : ret ≠ SQL_SUCCESS_WITH_INFO) (h : accumulatePart junk cs buf a = .ok a1) :
    accumulateLoop junk cs col reads buf ret ind a calls
      = .ok (a1, { buf := buf, ret := ret, indicator := ind, reads := reads,
                   calls := calls, notices := [] }) := by
  rw [accumulateLoop]
  simp [h, ok_bind, hret, pure_eq_ok]

theorem accumulateLoop_chunks (junk : Nat → Nat) (cs col : Nat) (hcs : 1 ≤ cs)
    (fin : GetDataReply) (last : List Nat) (rest : List GetDataReply)
    (hret : fin.ret = SQL_SUCCESS) (hwr : fin.written = last ++ [0])
    (hl : last.length ≤ cs) (hn : NoNul last) :
    ∀ (mids : List GetDataReply),
      (∀ r ∈ mids, r.ret = SQL_SUCCESS_WITH_INFO ∧ FullChunk cs r.written) →
      ∀ (w : List Nat) (ind : Int) (a : Accum) (pre : List Nat) (calls : List OdbcCall),
        FullChunk cs w → AccumInv cs a pre →
        ∃ a2 c tail,
          accumulateLoop junk cs col (mids ++ fin :: rest) w SQL_SUCCESS_WITH_INFO ind a calls
            = .ok (a2, c) ∧
          a2.accum_buffer = some (pre ++ cstring w ++
            (mids.map (fun r => cstring r.written)).flatten ++ last ++ 0 :: tail) ∧
          c.ret = SQL_SUCCESS ∧ c.reads = rest ∧ c.notices = [] ∧
          (∀ v, fin.indicator = some v → c.indicator = v) ∧
          c.calls = calls ++
            List.replicate (mids.length + 1) (OdbcCall.SQLGetData col ((cs : Int) + 1)) := by
  intro mids
  induction mids with
  | nil =>
    intro _ w ind a pre calls hw ha
    obtain ⟨a1, h1, hfull1⟩ := accumulatePart_step junk cs w a pre hcs ha
    rw [(fullChunk_copy cs w hw).1] at hfull1
    have hd := deliver_whole w (last ++ [0]) cs hw.1 (by simp; omega)
    obtain ⟨k, hz⟩ := lastChunk_copy cs last (w.drop (last ++ [0]).length) hl hn
    have hbuf1 : last ++ [0] ++ w.drop (last ++ [0]).length
        = last ++ 0 :: w.drop (last ++ [0]).length := by simp
    obtain ⟨a2, h2, tail, hb2, -, -, -⟩ := accumulatePart_step junk cs
      (last ++ 0 :: w.drop (last ++ [0]).length) a1 _ hcs (Or.inr hfull1)
    rw [hz] at hb2
    have hne : SQL_SUCCESS ≠ SQL_SUCCESS_WITH_INFO := by decide
    refine ⟨a2, ColumnRead.mk (last ++ 0 :: w.drop (last ++ [0]).length) fin.ret
      (fin.indicator.getD ind) rest
      (calls ++ [OdbcCall.SQLGetData col ((cs : Int) + 1)]) [],
      List.replicate k 0 ++ tail, ?_, ?_, hret, rfl, rfl, ?_, ?_⟩
    · rw [accumulateLoop]
      simp only [h1, ok_bind, List.nil_append, ne_eq, not_true_eq_false, if_false, hwr, hd, hbuf1]
      rw [accumulateLoop_done junk cs col rest _ _ _ a1 a2 _ (by rw [hret]; exact hne) h2]
    · rw [hb2]
      simp [replicate_zero_cons]
    · intro v hv; simp [hv]
    · simp
  | cons r mids ih =>
    intro hm w ind a pre calls hw ha
    obtain ⟨hr1, hr2⟩ := hm r (List.mem_cons_self _ _)
    obtain ⟨a1, h1, hfull1⟩ := accumulatePart_step junk cs w a pre hcs ha
    rw [(fullChunk_copy cs w hw).1] at hfull1
    have hd := deliver_whole w r.written cs hw.1 (by rw [hr2.1])
    have hdrop : w.drop r.written.length = [] := by
      apply List.drop_eq_nil_of_le; rw [hw.1, hr2.1]
    rw [hdrop, List.append_nil] at hd
    obtain ⟨a2, c, tail, hrun, hb, hc1, hc2, hc3, hc4, hc5⟩ :=
      ih (fun q hq => hm q (List.mem_cons_of_mem _ hq)) r.written (r.indicator.getD ind) a1
        (pre ++ cstring w) (calls ++ [OdbcCall.SQLGetData col ((cs : Int) + 1)]) hr2
        (Or.inr hfull1)
    refine ⟨a2, c, tail, ?_, ?_, hc1, hc2, hc3, hc4, ?_⟩
    · rw [accumulateLoop]
      simp only [h1, ok_bind, List.cons_append, ne_eq, not_true_eq_false, if_false, hd, hr1]
      exact hrun
    · simp [hb]
    · rw [hc5]
      simp [List.replicate_succ]

theorem noNul_append {p q : List Nat} (hp : NoNul p) (hq : NoNul q) : NoNul (p ++ q) := by
  intro c hc
  rcases List.mem_append.mp hc with h | h
  · exact hp c h
  · exact hq c h

theorem noNul_flatten (ls : List (List Nat)) (h : ∀ l ∈ ls, NoNul l) : NoNul ls.flatten := by
  intro c hc
  obtain ⟨l, hl, hcl⟩ := List.mem_flatten.mp hc
  exact h l hl c hcl

theorem readCString_append_nul (p t : List Nat) (hp : NoNul p) :
    readCString (p ++ 0 :: t) = .ok p := by
  simp [readCString, cstring_append_nul p t hp]

theorem store_first (m : List Nat) (h : 1 ≤ m.length) : store m 0 0 = .ok (0 :: m.drop 1) := by
  have := writeBytes_behind [] m [0] (by simpa using h)
  simpa [store] using this

theorem strncpy_fresh (t src : List Nat) (n : Nat) (h : n ≤ t.length) :
    strncpy t 0 src n = .ok (strncpyBytes src n ++ t.drop n) := by
  have := writeBytes_behind [] t (strncpyBytes src n) (by rw [strncpyBytes_length]; exact h)
  simpa [strncpy, strncpyBytes_length] using this

theorem store_behind (p t : List Nat) (h : 1 ≤ t.length) :
    store (p ++ t) p.length 0 = .ok (p ++ 0 :: t.drop 1) := by
  have := writeBytes_behind p t [0] (by simpa using h)
  simpa [store] using this

theorem deliver_behind (p t w : List Nat) (n : Int) (hn : (w.length : Int) ≤ n)
    (h : w.length ≤ t.length) :
    deliver (p ++ t) p.length n w = .ok (p ++ w ++ t.drop w.length) := by
  simp [deliver, hn, writeBytes_behind p t w h]

theorem writeBytes_length (m : List Nat) (off : Nat) (src m1 : List Nat)
    (h : writeBytes m off src = .ok m1) : m1.length = m.length := by
  unfold writeBytes at h
  split at h
  · injection h with h
    subst h
    simp only [List.length_append, List.length_take, List.length_drop]
    omega
  · cases h

theorem deliver_error (t : List Nat) (off : Nat) (n : Int) (w : List Nat) (e : Abort)
    (h : deliver t off n w = .error e) : e = Abort.fault := by
  unfold deliver writeBytes at h
  split at h
  · split at h
    · cases h
    · injection h with h; exact h.symm
  · injection h with h; exact h.symm

theorem strcmp0_true_length : ∀ (s m : List Nat), strcmp0 m s = .ok true →
    s.length + 1 ≤ m.length := by
  intro s
  induction s with
  | nil =>
    intro m h
    cases m with
    | nil => simp [strcmp0] at h
    | cons c m => simp
  | cons b s ih =>
    intro m h
    cases m with
    | nil => simp [strcmp0] at h
    | cons c m =>
      simp only [strcmp0] at h
      split at h
      · have := ih m h
        simp only [List.length_cons]
        omega
      · simp at h

theorem strcmp0_shorter : ∀ (p s t : List Nat), NoNul s → p.length < s.length →
    strcmp0 (p ++ 0 :: t) s = .ok false := by
  intro p
  induction p with
  | nil =>
    intro s t hs hl
    cases s with
    | nil => simp at hl
    | cons b s =>
      have hb : ¬ (0 = b) := fun h => hs b (List.mem_cons_self _ _) h.symm
      simp [strcmp0, hb]
  | cons c p ih =>
    intro s t hs hl
    cases s with
    | nil => simp at hl
    | cons b s =>
      simp only [List.cons_append, strcmp0]
      split
      · exact ih s t (fun x hx => hs x (List.mem_cons_of_mem _ hx))
          (by simpa using hl)
      · rfl

/-- The comparison of the stored SQLSTATE with a constant of five characters
never finds them equal: the array of 5 bytes cannot hold five characters and
the terminator. -/
theorem getDiagState_never_equal (junk : Nat → Nat) (sqlstate : String) (s m : List Nat)
    (hs : 5 ≤ s.length) (h : getDiagState junk sqlstate = .ok m) :
    strcmp0 m s ≠ .ok true := by
  intro ht
  have h1 := strcmp0_true_length s m ht
  have h2 := writeBytes_length _ _ _ _ h
  rw [palloc_length] at h2
  omega

/-- A SQLSTATE of five characters does not fit `SQLCHAR sqlstate[5]`. -/
theorem getDiagState_overrun (junk : Nat → Nat) (sqlstate : String)
    (h : 5 ≤ sqlstate.length) : getDiagState junk sqlstate = .error Abort.fault := by
  unfold getDiagState writeBytes
  have hl : sqlstate.toList.length = sqlstate.length := rfl
  have : ¬ (0 + (List.map Char.toNat sqlstate.toList ++ [0]).length
      ≤ (palloc junk 5).length) := by
    simp only [List.length_append, List.length_map, List.length_singleton, palloc_length]
    omega
  simp only [this, if_false]

/-- Every first read that returns `SQL_SUCCESS_WITH_INFO` with a SQLSTATE of
five characters ends in a store behind `SQLCHAR sqlstate[5]`. -/
theorem getColumnData_state_overrun (junk : Nat → Nat) (indicator0 : Int) (col_size col : Nat)
    (first : GetDataReply) (rest : List GetDataReply) (calls : List OdbcCall)
    (hret : first.ret = SQL_SUCCESS_WITH_INFO) (hstate : 5 ≤ first.sqlstate.length) :
    getColumnData junk indicator0 col_size col (first :: rest) calls = .error Abort.fault := by
  have hst := store_first (palloc junk (col_size + 1)) (by simp [palloc_length])
  have hg := getDiagState_overrun junk first.sqlstate hstate
  cases hd : deliver (0 :: (palloc junk (col_size + 1)).drop 1) 0 ((col_size : Int) + 1)
      first.written with
  | error e =>
    have := deliver_error _ _ _ _ e hd
    subst this
    simp only [getColumnData, hst, ok_bind, List.headD_cons, List.tail_cons, hd, error_bind]
  | ok buf =>
    simp only [getColumnData, hst, ok_bind, List.headD_cons, List.tail_cons, hd, hret, if_true,
      hg, error_bind]

/-- A first read that returns `SQL_SUCCESS_WITH_INFO` with a SQLSTATE of at
most four characters reaches the handling of the incomplete value. -/
theorem getColumnData_short_state (junk : Nat → Nat) (indicator0 : Int) (col_size col : Nat)
    (first : GetDataReply) (rest : List GetDataReply) (calls : List OdbcCall)
    (buf : List Nat)
    (hret : first.ret = SQL_SUCCESS_WITH_INFO) (hstate : first.sqlstate.length ≤ 4)
    (hd : deliver (0 :: (palloc junk (col_size + 1)).drop 1) 0 ((col_size : Int) + 1)
      first.written = .ok buf) :
    getColumnData junk indicator0 col_size col (first :: rest) calls
      = handleSuccessWithInfo junk col_size col buf SQL_SUCCESS_WITH_INFO
          (first.indicator.getD indicator0) false rest
          (calls ++ [OdbcCall.SQLGetData col ((col_size : Int) + 1)] ++
            [OdbcCall.SQLGetDiagRec]) := by
  have hst := store_first (palloc junk (col_size + 1)) (by simp [palloc_length])
  have hl : first.sqlstate.toList.length = first.sqlstate.length := rfl
  have hlen : (List.map Char.toNat first.sqlstate.toList).length ≤ 4 := by
    rw [List.length_map, hl]; exact hstate
  have hw := writeBytes_behind [] (palloc junk 5)
    (List.map Char.toNat first.sqlstate.toList ++ [0])
    (by simp only [List.length_append, List.length_singleton, palloc_length]; omega)
  have hg : getDiagState junk first.sqlstate
      = .ok (List.map Char.toNat first.sqlstate.toList ++
          0 :: (palloc junk 5).drop ((List.map Char.toNat first.sqlstate.toList).length + 1)) := by
    unfold getDiagState
    simpa using hw
  have hc := strcmp0_shorter (List.map Char.toNat first.sqlstate.toList)
    (ODBC_SQLSTATE_FRACTIONAL_TRUNCATION.toList.map Char.toNat)
    ((palloc junk 5).drop ((List.map Char.toNat first.sqlstate.toList).length + 1))
    (by decide) (by
      have : (ODBC_SQLSTATE_FRACTIONAL_TRUNCATION.toList.map Char.toNat).length = 5 := by decide
      omega)
  simp only [getColumnData, hst, ok_bind, List.headD_cons, List.tail_cons, hd, hret, if_true,
    hg, hc]

/-- The unknown-length protocol on a value delivered in full parts and a
final shorter part. -/
theorem handleSuccessWithInfo_unknown (junk : Nat → Nat) (col_size col : Nat)
    (w : List Nat) (mids : List GetDataReply) (fin : GetDataReply)
    (last : List Nat) (rest : List GetDataReply) (calls : List OdbcCall)
    (hw : FullChunk col_size w)
    (hmids : ∀ r ∈ mids, r.ret = SQL_SUCCESS_WITH_INFO ∧ FullChunk col_size r.written)
    (hfin : fin.ret = SQL_SUCCESS ∧ fin.written = last ++ [0] ∧ last.length ≤ col_size ∧
      NoNul last)
    (hcs : 1 ≤ col_size) :
    ∃ c, handleSuccessWithInfo junk col_size col w SQL_SUCCESS_WITH_INFO SQL_NO_TOTAL false
        (mids ++ fin :: rest) calls = .ok c ∧
      readCString c.buf = .ok (cstring w ++
        (mids.map (fun r => cstring r.written)).flatten ++ last) ∧
      c.ret = SQL_SUCCESS ∧ c.reads = rest ∧
      (∀ v, fin.indicator = some v → c.indicator = v) ∧
      c.calls = calls ++
        List.replicate (mids.length + 1) (OdbcCall.SQLGetData col ((col_size : Int) + 1)) := by
  obtain ⟨hfr, hfw, hfl, hfn⟩ := hfin
  obtain ⟨a2, c, tail, hrun, hb, hc1, hc2, hc3, hc4, hc5⟩ :=
    accumulateLoop_chunks junk col_size col hcs fin last rest hfr hfw hfl hfn mids hmids
      w SQL_NO_TOTAL ⟨none, 0, 0⟩ [] calls hw (Or.inl ⟨rfl, rfl⟩)
  refine ⟨{ c with buf := [] ++ cstring w ++
      (mids.map (fun r => cstring r.written)).flatten ++ last ++ 0 :: tail }, ?_, ?_, hc1, hc2,
      hc4, ?_⟩
  · simp only [handleSuccessWithInfo, Bool.false_eq_true, if_false, if_true, hrun, hb, ok_bind]
    rfl
  · have hnn : NoNul (cstring w ++
        (mids.map (fun r => cstring r.written)).flatten ++ last) := by
      refine noNul_append (noNul_append (fullChunk_copy _ _ hw).2 (noNul_flatten _ ?_)) hfn
      intro l hl
      obtain ⟨r, hr1, rfl⟩ := List.mem_map.mp hl
      exact (fullChunk_copy _ _ (hmids r hr1).2).2
    simpa using readCString_append_nul _ tail hnn
  · simp [hc5]

/-- The known-length protocol: one more read for the remainder. -/
theorem handleSuccessWithInfo_known (junk : Nat → Nat) (col_size col : Nat)
    (w : List Nat) (second : GetDataReply) (n : Int) (remainder : List Nat)
    (rest : List GetDataReply) (calls : List OdbcCall)
    (hw : FullChunk col_size w)
    (hn : (remainder.length : Int) ≤ n)
    (hsecond : second.written = remainder ++ [0] ∧ NoNul remainder) :
    ∃ c, handleSuccessWithInfo junk col_size col w SQL_SUCCESS_WITH_INFO n false
        (second :: rest) calls = .ok c ∧
      readCString c.buf = .ok (cstring w ++ remainder) ∧
      c.ret = second.ret ∧ c.reads = rest ∧
      c.calls = calls ++ [OdbcCall.SQLGetData col (n + 1)] := by
  obtain ⟨hsw, hsn⟩ := hsecond
  have hn0 : 0 ≤ n := le_trans (Int.ofNat_nonneg _) hn
  have hnt : n ≠ SQL_NO_TOTAL := by unfold SQL_NO_TOTAL; omega
  obtain ⟨hcopy, hnn⟩ := fullChunk_copy col_size w hw
  set bl := bufLen col_size w with hbl
  have hneg : ¬ ((bl : Int) + n + 1 < 0) := by omega
  have hlen : (palloc junk ((bl : Int) + n + 1).toNat).length = bl + n.toNat + 1 := by
    rw [palloc_length]; omega
  have h1 := strncpy_fresh (palloc junk ((bl : Int) + n + 1).toNat) w bl
    (by rw [hlen]; omega)
  rw [hcopy] at h1
  have hsl : (cstring w).length = bl := by
    rw [← hcopy, strncpyBytes_length]
  have h2 := store_behind (cstring w)
    ((palloc junk ((bl : Int) + n + 1).toNat).drop bl) (by simp [hlen]; omega)
  rw [hsl] at h2
  have h3 := deliver_behind (cstring w)
    (0 :: ((palloc junk ((bl : Int) + n + 1).toNat).drop bl).drop 1) (remainder ++ [0]) (n + 1)
    (by simp; omega) (by simp [hlen]; omega)
  rw [hsl] at h3
  refine ⟨ColumnRead.mk (cstring w ++ (remainder ++ [0]) ++
      List.drop (remainder ++ [0]).length
        (0 :: ((palloc junk ((bl : Int) + n + 1).toNat).drop bl).drop 1))
      second.ret (second.indicator.getD n) rest
      (calls ++ [OdbcCall.SQLGetData col (n + 1)]) [], ?_, ?_, rfl, rfl, rfl⟩
  · simp only [handleSuccessWithInfo, Bool.false_eq_true, if_false, List.headD_cons,
      List.tail_cons, ok_bind, hnt, ← hbl, hneg, h1, h2, hsw, h3, pure_eq_ok]
  · have := readCString_append_nul (cstring w ++ remainder)
      (List.drop (remainder ++ [0]).length
        (0 :: ((palloc junk ((bl : Int) + n + 1).toNat).drop bl).drop 1))
      (noNul_append hnn hsn)
    simpa using this


/-! ## Lemmas on the column loop of `odbcIterateForeignScan` -/

theorem bind_eq_ok {ε α β : Type} {x : Except ε α} {f : α → Except ε β} {b : β}
    (h : (x >>= f) = Except.ok b) : ∃ a, x = Except.ok a ∧ f a = Except.ok b := by
  cases x with
  | error e => simp [error_bind] at h
  | ok a => exact ⟨a, rfl, by simpa [ok_bind] using h⟩

theorem setAttr_get_false (a : List Bool) (j k : Nat) (a2 : List Bool)
    (h : setAttr a j false = .ok a2) (hk : a2.get? k = some false) :
    a.get? k = some false ∨ k + 1 = j := by
  unfold setAttr at h
  split at h
  · rename_i hj
    injection h with h
    subst h
    by_cases hkj : k + 1 = j
    · exact Or.inr hkj
    · left
      have : j - 1 ≠ k := by omega
      rw [List.get?_eq_getElem?] at hk ⊢
      rwa [List.getElem?_set_ne this] at hk
  · cases h

theorem mem_snoc_attr (os : List ColumnOutcome) (x o : ColumnOutcome) (h : o ∈ os ++ [x]) :
    o ∈ os ∨ o.attr = x.attr := by
  rcases List.mem_append.mp h with h | h
  · exact Or.inl h
  · simp at h; exact Or.inr (by rw [h])

/-- What storing a column does to the null flags and the record. -/
theorem storeColumn_step {δ : Type} (host : ScanHost δ) (festate : odbcFdwExecutionState)
    (conversion : ColumnConversion) (j : Nat) (c : ColumnRead) (s1 s2 : ScanLoop δ)
    (h : storeColumn host festate conversion j c s1 = .ok s2) :
    s2.outcomes = s1.outcomes ∧ s2.i = s1.i ∧
    (∀ k, s2.nulls.get? k = some false → s1.nulls.get? k = some false ∨
      (k + 1 = j ∧ SQL_SUCCEEDED c.ret = true ∧ c.indicator ≠ SQL_NULL_DATA)) := by
  unfold storeColumn at h
  split at h
  · rename_i hsucc
    split at h
    · obtain ⟨values, -, h⟩ := bind_eq_ok h
      injection h with h
      subst h
      exact ⟨rfl, rfl, fun k hk => Or.inl hk⟩
    · rename_i hnull
      obtain ⟨buf, -, h⟩ := bind_eq_ok h
      obtain ⟨col_data, -, h⟩ := bind_eq_ok h
      obtain ⟨nulls, hnulls, h⟩ := bind_eq_ok h
      obtain ⟨v, -, h⟩ := bind_eq_ok h
      obtain ⟨values, -, h⟩ := bind_eq_ok h
      injection h with h
      subst h
      refine ⟨rfl, rfl, fun k hk => ?_⟩
      rcases setAttr_get_false _ _ _ _ hnulls hk with h3 | h3
      · exact Or.inl h3
      · exact Or.inr ⟨h3, hsucc, hnull⟩
  · injection h with h
    subst h
    exact ⟨rfl, rfl, fun k hk => Or.inl hk⟩

/-- What the body of the loop does to the null flags and the record. -/
theorem scanColumn_step {δ : Type} (host : ScanHost δ) (junk : Nat → Nat) (indicator0 : Int)
    (festate : odbcFdwExecutionState) (j : Nat) (s s2 : ScanLoop δ)
    (h : scanColumn host junk indicator0 festate j s = .ok s2) :
    (∀ o ∈ s.outcomes, o ∈ s2.outcomes) ∧
    (∀ o ∈ s2.outcomes, o ∈ s.outcomes ∨ o.attr = j) ∧
    (∀ k, s2.nulls.get? k = some false → s.nulls.get? k = some false ∨
      (k + 1 = j ∧ ∃ o ∈ s2.outcomes, o.attr = j ∧ SQL_SUCCEEDED o.ret = true ∧
        o.indicator ≠ SQL_NULL_DATA)) := by
  unfold scanColumn at h
  obtain ⟨col_size, -, h⟩ := bind_eq_ok h
  obtain ⟨mapped_pos, -, h⟩ := bind_eq_ok h
  obtain ⟨conversion, -, h⟩ := bind_eq_ok h
  split at h
  · injection h with h
    subst h
    exact ⟨fun o ho => ho, fun o ho => Or.inl ho, fun k hk => Or.inl hk⟩
  · obtain ⟨c, -, h⟩ := bind_eq_ok h
    obtain ⟨s1, h1, h⟩ := bind_eq_ok h
    injection h with h
    subst h
    obtain ⟨e1, -, e3⟩ := storeColumn_step host festate conversion j c _ s1 h1
    simp only at e1 e3 ⊢
    refine ⟨fun o ho => by rw [e1]; simp [ho], fun o ho => ?_, fun k hk => ?_⟩
    · rw [e1] at ho
      exact mem_snoc_attr _ _ _ ho
    · rcases e3 k hk with h3 | ⟨h3, h4, h5⟩
      · exact Or.inl h3
      · exact Or.inr ⟨h3, ⟨j, c.ret, c.indicator⟩, by rw [e1]; simp, rfl, h4, h5⟩

/-- The invariant of the column loop. -/
theorem scanColumns_inv {δ : Type} (host : ScanHost δ) (junk : Nat → Nat) (indicator0 : Int)
    (festate : odbcFdwExecutionState) :
    ∀ (js : List Nat) (s s2 : ScanLoop δ),
      scanColumns host junk indicator0 festate js s = .ok s2 →
      (∀ o ∈ s.outcomes, o ∈ s2.outcomes) ∧
      (∀ o ∈ s2.outcomes, o ∈ s.outcomes ∨ o.attr ∈ js) ∧
      (∀ k, s2.nulls.get? k = some false → s.nulls.get? k = some false ∨
        (k + 1 ∈ js ∧ ∃ o ∈ s2.outcomes, o.attr = k + 1 ∧ SQL_SUCCEEDED o.ret = true ∧
          o.indicator ≠ SQL_NULL_DATA)) := by
  intro js
  induction js with
  | nil =>
    intro s s2 h
    simp only [scanColumns, pure_eq_ok] at h
    injection h with h
    subst h
    exact ⟨fun o ho => ho, fun o ho => Or.inl ho, fun k hk => Or.inl hk⟩
  | cons j js ih =>
    intro s s2 h
    simp only [scanColumns] at h
    obtain ⟨s1, h1, h2⟩ := bind_eq_ok h
    obtain ⟨a1, a2, a3⟩ := scanColumn_step host junk indicator0 festate j s s1 h1
    obtain ⟨b1, b2, b3⟩ := ih s1 s2 h2
    refine ⟨fun o ho => b1 o (a1 o ho), fun o ho => ?_, fun k hk => ?_⟩
    · rcases b2 o ho with h3 | h3
      · rcases a2 o h3 with h4 | h4
        · exact Or.inl h4
        · exact Or.inr (by simp [h4])
      · exact Or.inr (List.mem_cons_of_mem _ h3)
    · rcases b3 k hk with h3 | ⟨h3, o, ho, h4⟩
      · rcases a3 k h3 with h5 | ⟨h5, o, ho, h6, h7⟩
        · exact Or.inl h5
        · exact Or.inr ⟨by simp [h5], o, b1 o ho, by rw [h6, h5], h7⟩
      · exact Or.inr ⟨List.mem_cons_of_mem _ h3, o, ho, h4⟩

/-! ## Chunked retrieval (C1, C2) -/

/-- C1: the unknown-length protocol of `odbcIterateForeignScan` is not reached
by a truncated read.  Before the parts are put together `SQLGetDiagRec`
stores the five characters of the SQLSTATE and the terminator into
`SQLCHAR sqlstate[5]`, one byte behind the array (`check_return` uses
`state[7]`): the read of the parts `AB`, `CD`, `E` into a buffer of 2
characters ends in a fault, and so does every first read that returns
`SQL_SUCCESS_WITH_INFO` with a state of five characters.  Behind the
comparison of the state the protocol does what is wanted for every buffer
size from 1 on: for a value delivered as `k ≥ 1` parts that fill the buffer
(`w` and `mids`), each returned with `SQL_SUCCESS_WITH_INFO` and the first
with indicator `SQL_NO_TOTAL`, followed by a final part `last` of at most
`col_size` characters returned with `SQL_SUCCESS`, it returns, issues one
`SQLGetData` per further part, and leaves in `buf` the concatenation of all
parts in order (the parts are C strings: no NUL inside).  At the planned
buffer size 0 of a `varchar` column of declared size 0 it writes the
terminator behind the byte allocated for the accumulation buffer. -/
theorem unknown_length_read_overruns_sqlstate :
    getColumnData (fun _ => 7) 0 2 1
      [⟨1, [65, 66, 0], some (-4), "01004"⟩, ⟨1, [67, 68, 0], some (-4), "01004"⟩,
        ⟨0, [69, 0], some 1, "00000"⟩] [] = .error Abort.fault ∧
    getDiagState (fun _ => 7) "01004" = .error Abort.fault ∧
    (∀ (junk : Nat → Nat) (indicator0 : Int) (col_size col : Nat) (first : GetDataReply)
        (rest : List GetDataReply) (calls : List OdbcCall),
      first.ret = SQL_SUCCESS_WITH_INFO → 5 ≤ first.sqlstate.length →
      getColumnData junk indicator0 col_size col (first :: rest) calls = .error Abort.fault) ∧
    (∀ (junk : Nat → Nat) (col_size col : Nat) (w : List Nat) (mids : List GetDataReply)
        (fin : GetDataReply) (last : List Nat) (rest : List GetDataReply)
        (calls : List OdbcCall),
      FullChunk col_size w →
      (∀ r ∈ mids, r.ret = SQL_SUCCESS_WITH_INFO ∧ FullChunk col_size r.written) →
      fin.ret = SQL_SUCCESS ∧ fin.written = last ++ [0] ∧ last.length ≤ col_size ∧
        NoNul last →
      1 ≤ col_size →
      ∃ c, handleSuccessWithInfo junk col_size col w SQL_SUCCESS_WITH_INFO SQL_NO_TOTAL false
          (mids ++ fin :: rest) calls = .ok c ∧
        readCString c.buf = .ok (cstring w ++
          (mids.map (fun r => cstring r.written)).flatten ++ last) ∧
        c.ret = SQL_SUCCESS ∧ c.reads = rest ∧
        (∀ v, fin.indicator = some v → c.indicator = v) ∧
        c.calls = calls ++
          List.replicate (mids.length + 1) (OdbcCall.SQLGetData col ((col_size : Int) + 1))) ∧
    (∃ c, handleSuccessWithInfo (fun _ => 7) 2 1 [65, 66, 0] SQL_SUCCESS_WITH_INFO SQL_NO_TOTAL
        false [⟨1, [67, 68, 0], some (-4), "01004"⟩, ⟨0, [69, 0], some 1, "00000"⟩]
        [OdbcCall.SQLGetData 1 3, OdbcCall.SQLGetDiagRec] = .ok c ∧
      readCString c.buf = .ok [65, 66, 67, 68, 69] ∧
      c.calls = [OdbcCall.SQLGetData 1 3, OdbcCall.SQLGetDiagRec, OdbcCall.SQLGetData 1 3,
        OdbcCall.SQLGetData 1 3]) ∧
    (planColumn ⟨SQL_VARCHAR, 0, 0, 1⟩).2 = 0 ∧
    FullChunk 0 [65] ∧
    handleSuccessWithInfo (fun _ => 7) 0 1 [65] SQL_SUCCESS_WITH_INFO SQL_NO_TOTAL false
      [⟨0, [0], some 0, "00000"⟩] [OdbcCall.SQLGetData 1 1, OdbcCall.SQLGetDiagRec]
      = .error Abort.fault := by
  refine ⟨rfl, rfl, ?_, ?_, ⟨_, rfl, rfl, rfl⟩, by decide, by decide, rfl⟩
  · intro junk indicator0 col_size col first rest calls hret hstate
    exact getColumnData_state_overrun junk indicator0 col_size col first rest calls hret hstate
  · intro junk col_size col w mids fin last rest calls hw hmids hfin hcs
    exact handleSuccessWithInfo_unknown junk col_size col w mids fin last rest calls hw hmids
      hfin hcs

/-- C2: the known-length protocol of `odbcIterateForeignScan` is not reached
by a truncated read either: the read of `AB` with remaining length 3 and the
remainder `CDE` ends in the store behind `SQLCHAR sqlstate[5]`.  Behind the
comparison of the state the protocol does what is wanted: when the first read
has filled the buffer and reports a remaining length `n` that covers the
remainder, exactly one further `SQLGetData` is issued, whose buffer length
`n + 1` leaves room for `n` characters and the terminator, and the string
left in `buf` is the first part followed by the remainder.  For every buffer
size from 1 on the unknown-length protocol, run on a driver that delivers
the same characters in parts, leaves the same string. -/
theorem known_length_read_overruns_sqlstate :
    getColumnData (fun _ => 7) 0 2 1
      [⟨1, [65, 66, 0], some 3, "01004"⟩, ⟨0, [67, 68, 69, 0], some 3, "00000"⟩] []
      = .error Abort.fault ∧
    (∀ (junk : Nat → Nat) (col_size col : Nat) (w : List Nat) (second : GetDataReply)
        (n : Int) (remainder : List Nat) (rest : List GetDataReply) (calls : List OdbcCall),
      FullChunk col_size w →
      (remainder.length : Int) ≤ n →
      second.ret = SQL_SUCCESS ∧ second.written = remainder ++ [0] ∧ NoNul remainder →
      ∃ c, handleSuccessWithInfo junk col_size col w SQL_SUCCESS_WITH_INFO n false
          (second :: rest) calls = .ok c ∧
        c.calls = calls ++ [OdbcCall.SQLGetData col (n + 1)] ∧
        readCString c.buf = .ok (cstring w ++ remainder) ∧
        c.ret = SQL_SUCCESS ∧ c.reads = rest ∧
        ∀ (junkU : Nat → Nat) (mids : List GetDataReply) (fin : GetDataReply)
          (last : List Nat) (restU : List GetDataReply) (callsU : List OdbcCall),
          (∀ r ∈ mids, r.ret = SQL_SUCCESS_WITH_INFO ∧ FullChunk col_size r.written) →
          fin.ret = SQL_SUCCESS ∧ fin.written = last ++ [0] ∧ last.length ≤ col_size ∧
            NoNul last →
          1 ≤ col_size →
          (mids.map (fun r => cstring r.written)).flatten ++ last = remainder →
          ∃ cU, handleSuccessWithInfo junkU col_size col w SQL_SUCCESS_WITH_INFO SQL_NO_TOTAL
              false (mids ++ fin :: restU) callsU = .ok cU ∧
            readCString cU.buf = readCString c.buf) ∧
    (∃ c, handleSuccessWithInfo (fun _ => 7) 2 1 [65, 66, 0] SQL_SUCCESS_WITH_INFO 3 false
        [⟨0, [67, 68, 69, 0], some 3, "00000"⟩]
        [OdbcCall.SQLGetData 1 3, OdbcCall.SQLGetDiagRec] = .ok c ∧
      c.calls = [OdbcCall.SQLGetData 1 3, OdbcCall.SQLGetDiagRec, OdbcCall.SQLGetData 1 4] ∧
      readCString c.buf = .ok [65, 66, 67, 68, 69] ∧ c.reads = []) := by
  refine ⟨rfl, ?_, ⟨_, rfl, rfl, rfl, rfl⟩⟩
  intro junk col_size col w second n remainder rest calls hw hn hsecond
  obtain ⟨c, h1, h2, h3, h4, h5⟩ := handleSuccessWithInfo_known junk col_size col w second n
    remainder rest calls hw hn ⟨hsecond.2.1, hsecond.2.2⟩
  refine ⟨c, h1, h5, h2, by rw [h3, hsecond.1], h4, ?_⟩
  intro junkU mids fin last restU callsU hmids hfin hcs hsame
  obtain ⟨cU, g1, g2, -⟩ := handleSuccessWithInfo_unknown junkU col_size col w mids fin
    last restU callsU hw hmids hfin hcs
  refine ⟨cU, g1, ?_⟩
  rw [g2, h2, ← hsame, List.append_assoc]

/-! ## Driver failures and null columns in `odbcIterateForeignScan` (C3, C4) -/

theorem planColumns_attrs (festate : odbcFdwExecutionState) (d : ScanDriver) :
    (planColumns festate d).1.retrieved_attrs = festate.retrieved_attrs := by
  unfold planColumns; split <;> rfl

theorem heap_form_tuple_get {δ : Type} (values : List (Option δ)) (nulls : List Bool)
    (k : Nat) (v : δ) (h : (heap_form_tuple values nulls).get? k = some (some v)) :
    nulls.get? k = some false := by
  unfold heap_form_tuple at h
  rw [List.get?_eq_getElem?] at h ⊢
  rw [List.getElem?_zipWith] at h
  cases hv : values[k]? with
  | none => simp [hv] at h
  | some x =>
    cases hn : nulls[k]? with
    | none => simp [hv, hn] at h
    | some b =>
      cases b with
      | false => rfl
      | true => simp [hv, hn] at h

/-- C3 (the code at the failing inputs). A row fetch that returns `SQL_ERROR`
makes `odbcIterateForeignScan` return the cleared slot, which is how the end
of the data is reported, for every state and driver; and a column read that
returns `SQL_ERROR` makes it return a tuple in which the column is null.  No
error is raised in either case. -/
theorem iterate_failed_driver_call_raises_no_error :
    (∀ (δ : Type) (host : ScanHost δ) (junk : Nat → Nat) (indicator0 : Int)
        (festate : odbcFdwExecutionState) (d : ScanDriver) (rest : List Int),
        ∃ r, odbcIterateForeignScan host junk indicator0 festate
            { d with fetches := SQL_ERROR :: rest } = .ok r ∧ r.slot = none) ∧
    (∃ r, odbcIterateForeignScan sampleHost (fun _ => 7) 0 sampleState
        { fetches := [SQL_SUCCESS], describe := fun _ => ⟨12, 4, 0, 1⟩,
          reads := [⟨SQL_ERROR, [], none, "HY000"⟩], calls := [] } = .ok r ∧
      r.slot = some [none, none] ∧
      r.driver.calls = [OdbcCall.SQLFetch, OdbcCall.SQLGetData 1 5]) := by
  constructor
  · intro δ host junk indicator0 festate d rest
    exact ⟨_, rfl, rfl⟩
  · exact ⟨_, rfl, rfl, rfl⟩

/-- C4. In every tuple that `odbcIterateForeignScan` produces, an attribute is
non-null only if its number is in the retrieved-attribute list and a read of
it succeeded with an indicator other than `SQL_NULL_DATA`.  Hence an
attribute whose reads all returned the null indicator is null, whatever the
buffer holds, and an attribute outside the retrieved-attribute list is
null. -/
theorem produced_tuple_nulls {δ : Type} (host : ScanHost δ) (junk : Nat → Nat)
    (indicator0 : Int) (festate : odbcFdwExecutionState) (d : ScanDriver)
    (r : IterateResult δ) (tuple : List (Option δ))
    (hrun : odbcIterateForeignScan host junk indicator0 festate d = .ok r)
    (hslot : r.slot = some tuple) :
    (∀ k v, tuple.get? k = some (some v) →
      k + 1 ∈ festate.retrieved_attrs ∧
      ∃ o ∈ r.outcomes, o.attr = k + 1 ∧ SQL_SUCCEEDED o.ret = true ∧
        o.indicator ≠ SQL_NULL_DATA) ∧
    (∀ k, k < tuple.length →
      (∀ o ∈ r.outcomes, o.attr = k + 1 → o.indicator = SQL_NULL_DATA) →
      tuple.get? k = some none) ∧
    (∀ k, k < tuple.length → k + 1 ∉ festate.retrieved_attrs → tuple.get? k = some none) := by
  have main : ∀ k v, tuple.get? k = some (some v) →
      k + 1 ∈ festate.retrieved_attrs ∧
      ∃ o ∈ r.outcomes, o.attr = k + 1 ∧ SQL_SUCCEEDED o.ret = true ∧
        o.indicator ≠ SQL_NULL_DATA := by
    intro k v hk
    unfold odbcIterateForeignScan at hrun
    simp only at hrun
    split at hrun
    · obtain ⟨s, hs, hrun⟩ := bind_eq_ok hrun
      injection hrun with hrun
      subst hrun
      simp only at hslot
      injection hslot with hslot
      subst hslot
      have hn := heap_form_tuple_get _ _ k v hk
      obtain ⟨-, -, h3⟩ := scanColumns_inv host junk indicator0 _ _ _ _ hs
      rcases h3 k hn with h4 | ⟨h4, h5⟩
      · exfalso
        simp only at h4
        rw [List.get?_eq_getElem?] at h4
        have := List.getElem?_replicate (a := true) (n := (planColumns festate
          { d with fetches := d.fetches.tail, calls := d.calls ++ [OdbcCall.SQLFetch] }).1.natts)
          (m := k)
        rw [this] at h4
        split at h4 <;> simp at h4
      · rw [planColumns_attrs] at h4
        exact ⟨h4, h5⟩
    · injection hrun with hrun
      subst hrun
      simp at hslot
  have none_of : ∀ k, k < tuple.length → (∀ v, tuple.get? k ≠ some (some v)) →
      tuple.get? k = some none := by
    intro k hk hv
    rw [List.get?_eq_getElem?, List.getElem?_eq_getElem hk]
    cases hx : tuple[k] with
    | none => rfl
    | some v =>
      exfalso
      apply hv v
      rw [List.get?_eq_getElem?, List.getElem?_eq_getElem hk, hx]
  refine ⟨main, fun k hk hall => none_of k hk ?_, fun k hk hnot => none_of k hk ?_⟩
  · intro v hv
    obtain ⟨-, o, ho, h1, -, h3⟩ := main k v hv
    exact h3 (hall o ho h1)
  · intro v hv
    exact hnot (main k v hv).1

/-- C4 on a row of two attributes of which only the first is retrieved, its
read returning the null indicator over a buffer that holds text. -/
theorem produced_tuple_nulls_witness :
    odbcIterateForeignScan sampleHost (fun _ => 7) 0 sampleState
        { fetches := [SQL_SUCCESS], describe := fun _ => ⟨12, 4, 0, 1⟩,
          reads := [⟨SQL_SUCCESS, [65, 66, 0], some SQL_NULL_DATA, "00000"⟩], calls := [] }
      = .ok { slot := some [none, none], festate := sampleState,
              driver := { fetches := [], describe := fun _ => ⟨12, 4, 0, 1⟩, reads := [],
                          calls := [OdbcCall.SQLFetch, OdbcCall.SQLGetData 1 5] },
              notices := [], outcomes := [⟨1, SQL_SUCCESS, SQL_NULL_DATA⟩] } ∧
    (∀ k, k < 2 →
      (∀ o ∈ [(⟨1, SQL_SUCCESS, SQL_NULL_DATA⟩ : ColumnOutcome)], o.attr = k + 1 →
        o.indicator = SQL_NULL_DATA) →
      ([none, none] : List (Option Nat)).get? k = some none) :=
  ⟨rfl, (produced_tuple_nulls sampleHost (fun _ => 7) 0 sampleState
    { fetches := [SQL_SUCCESS], describe := fun _ => ⟨12, 4, 0, 1⟩,
      reads := [⟨SQL_SUCCESS, [65, 66, 0], some SQL_NULL_DATA, "00000"⟩], calls := [] }
    _ [none, none] rfl rfl).2.1⟩

/-! ## Insert parameters (C5, C6) -/

theorem bindOne_indicator {δ : Type} (host : ModifyHost δ) (atttypid nums : Nat)
    (p : Option (List Char)) (b : BoundParam) (h : bindOne host atttypid nums p = .ok b) :
    0 ≤ b.strLenOrInd := by
  unfold bindOne at h
  split at h
  · obtain ⟨result, -, h⟩ := bind_eq_ok h
    cases result with
    | word v => simp only at h; injection h with h; subst h; simp
    | varlena pl => simp at h
  · split at h
    · obtain ⟨result, -, h⟩ := bind_eq_ok h
      cases result with
      | word v => simp at h
      | varlena pl =>
        simp only at h; injection h with h; subst h
        exact Int.ofNat_nonneg _
    · split at h
      · simp at h
      · rename_i dst_type isChar _
        obtain ⟨param_size, hp, h⟩ := bind_eq_ok h
        injection h with h
        subst h
        simp only
        split at hp
        · injection hp with hp; omega
        · unfold strlen at hp
          cases p with
          | none => simp at hp
          | some s =>
            simp only at hp; injection hp with hp; subst hp
            exact Int.ofNat_nonneg _

theorem bindParams_indicator {δ : Type} (host : ModifyHost δ) (fmstate : odbcFdwModifyState)
    (p_value : List (Option (List Char))) :
    ∀ (attrs : List Nat) (nums : Nat) (bs : List BoundParam),
      bindParams host fmstate p_value attrs nums = .ok bs →
      bs.all (fun b => decide (0 ≤ b.strLenOrInd)) = true := by
  intro attrs
  induction attrs with
  | nil =>
    intro nums bs h
    simp only [bindParams] at h
    injection h with h
    subst h
    rfl
  | cons a rest ih =>
    intro nums bs h
    simp only [bindParams] at h
    obtain ⟨p, -, h⟩ := bind_eq_ok h
    obtain ⟨b, hb, h⟩ := bind_eq_ok h
    obtain ⟨u, -, h⟩ := bind_eq_ok h
    obtain ⟨more, hm, h⟩ := bind_eq_ok h
    injection h with h
    subst h
    simp only [List.all_cons, Bool.and_eq_true, decide_eq_true_eq]
    exact ⟨bindOne_indicator host _ _ _ _ hb, ih _ _ hm⟩

/-- C5 (the code at the failing input). A row whose only column is null is
converted to the NULL string.  For a `text` column (OID 25)
`odbc_Bind_Prepared` then applies `strlen` to the NULL pointer; for a
`boolean` column (OID 16) with a strict input function it binds the small
integer 0 with length 2.  In no run is a parameter bound with the null length
indicator: every parameter bound carries a length that is not negative,
while `SQL_NULL_DATA` is `-1`. -/
theorem null_column_not_bound_as_null :
    odbc_convert_prep_stmt_params sampleModifyHost (sampleModify 25) (fun _ => none)
      = [none] ∧
    bindRow sampleModifyHost (sampleModify 25) (fun _ => none) = .error Abort.fault ∧
    bindRow sampleModifyHost (sampleModify 16) (fun _ => none)
      = .ok [{ number := 1, valueType := SQL_C_SHORT, parameterType := SQL_SMALLINT,
               columnSize := 0, value := ParamValue.short 0, strLenOrInd := 2 }] ∧
    SQL_NULL_DATA = -1 ∧
    ∀ (δ : Type) (host : ModifyHost δ) (fmstate : odbcFdwModifyState) (slot : Nat → Option δ),
      match bindRow host fmstate slot with
      | .ok bs => bs.all (fun b => decide (0 ≤ b.strLenOrInd)) = true
      | .error _ => True := by
  refine ⟨rfl, rfl, rfl, rfl, ?_⟩
  intro δ host fmstate slot
  cases h : bindRow host fmstate slot with
  | error e => trivial
  | ok bs => exact bindParams_indicator host fmstate _ _ _ _ h

theorem readLiteralBody_quotedBody (v rest : List Char)
    (hrest : ∀ d ds, rest = d :: ds → d ≠ SINGLE_QUOTE) :
    readLiteralBody (quotedBody v ++ SINGLE_QUOTE :: rest) = some (v, rest) := by
  induction v with
  | nil =>
    cases rest with
    | nil => simp [quotedBody, readLiteralBody]
    | cons d ds =>
      have := hrest d ds rfl
      simp [quotedBody, readLiteralBody, this]
  | cons c cs ih =>
    by_cases hc : c = SINGLE_QUOTE
    · subst hc
      simp [quotedBody, readLiteralBody, ih]
    · simp only [quotedBody, if_neg hc, List.cons_append]
      rw [readLiteralBody.eq_def]
      simp only [if_neg hc, ih]
      rfl

/-- C6 (the code at the failing input). For a `text` column holding the value
`a` quote `b`, `odbc_Bind_Prepared` binds the three characters, while
`build_insert_sql` renders them between single quotes unchanged; read by the
SQL rule the rendered text is not a literal of that value (the literal ends
at the inner quote).  `appendQuotedString` of the same file doubles the
quote, and its output reads back as the value, for every value. -/
theorem direct_insert_literal_not_the_bound_value :
    odbc_Bind_Prepared sampleModifyHost (sampleModify 25) [some sampleQuoted]
      = .ok [{ number := 1, valueType := SQL_C_CHAR, parameterType := SQL_LONGVARCHAR,
               columnSize := 3, value := ParamValue.chars (some sampleQuoted),
               strLenOrInd := 3 }] ∧
    insertLiteral sampleModifyHost 25 0 (some sampleQuoted)
      = .ok [SINGLE_QUOTE, 'a', SINGLE_QUOTE, 'b', SINGLE_QUOTE] ∧
    build_insert_sql sampleModifyHost (sampleModify 25) [some sampleQuoted]
      = .ok ("INSERT INTO t VALUES(".toList ++
          [SINGLE_QUOTE, 'a', SINGLE_QUOTE, 'b', SINGLE_QUOTE] ++ [')']) ∧
    sqlLiteralValue [SINGLE_QUOTE, 'a', SINGLE_QUOTE, 'b', SINGLE_QUOTE] = none ∧
    readLiteralBody ['a', SINGLE_QUOTE, 'b', SINGLE_QUOTE] = some (['a'], ['b', SINGLE_QUOTE]) ∧
    ∀ v : List Char, sqlLiteralValue (appendQuotedString [] v) = some v := by
  refine ⟨rfl, rfl, rfl, by decide, by decide, ?_⟩
  intro v
  have h := readLiteralBody_quotedBody v [] (by intro d ds h; cases h)
  simp [sqlLiteralValue, appendQuotedString, h]

/-! ## Updatability (C7) -/

/-- C7 (the code at the failing input). With no `updatable` option on the
server and `updatable` false on the table, `odbcIsForeignRelUpdatable`
reports the relation as updatable (28 is the mask of INSERT, UPDATE and
DELETE), where the table setting should decide; the same holds when the
server says true.  In general the table options are consulted only when the
server setting is false. -/
theorem table_updatable_false_is_ignored :
    odbcIsForeignRelUpdatable [] [⟨"updatable", false⟩] = 28 ∧
    updatableByOverride [] [⟨"updatable", false⟩] = false ∧
    odbcIsForeignRelUpdatable [⟨"updatable", true⟩] [⟨"updatable", false⟩] = 28 ∧
    ∀ serverOptions tableOptions : List DefElem,
      odbcIsForeignRelUpdatable serverOptions tableOptions =
        if (firstUpdatable serverOptions).getD true then 28
        else if (firstUpdatable tableOptions).getD false then 28 else 0 := by
  refine ⟨by decide, by decide, by decide, ?_⟩
  intro s t
  unfold odbcIsForeignRelUpdatable
  cases hs : firstUpdatable s with
  | none => simp [CmdType.toNat]
  | some v =>
    cases v with
    | true => simp [CmdType.toNat]
    | false =>
      cases ht : firstUpdatable t with
      | none => simp
      | some w => cases w <;> simp [CmdType.toNat]

/-! ## Direct modification (C8, C9) -/

theorem collectTargetAttrs_some {Expr : Type} (f : Expr → Bool)
    (tl : List (TargetEntry Expr)) :
    ∀ (cols : List Nat) (attrs : List Int),
      collectTargetAttrs f tl cols = .ok (some attrs) ↔
        TargetsShippable f tl cols ∧ attrs = cols.map attnoOf := by
  intro cols
  induction cols with
  | nil =>
    intro attrs
    simp only [collectTargetAttrs, TargetsShippable, List.map_nil]
    constructor
    · intro h
      injection h with h
      injection h with h
      exact ⟨(by intro c hc; cases hc), h.symm⟩
    · rintro ⟨-, rfl⟩
      rfl
  | cons col rest ih =>
    intro attrs
    simp only [collectTargetAttrs]
    constructor
    · intro h
      split at h
      · cases h
      · rename_i hpos
        split at h
        · cases h
        · rename_i tle htle
          split at h
          · cases h
          · rename_i hf
            obtain ⟨more, hm, h⟩ := bind_eq_ok h
            injection h with h
            cases more with
            | none => simp at h
            | some l =>
              simp only [Option.map_some'] at h
              injection h with h
              obtain ⟨h1, h2⟩ := (ih l).mp hm
              refine ⟨?_, by rw [← h, h2]; rfl⟩
              intro c hc
              rcases List.mem_cons.mp hc with rfl | hc
              · exact ⟨by unfold attnoOf; omega, tle, htle, by simpa using hf⟩
              · exact h1 c hc
    · rintro ⟨h1, rfl⟩
      obtain ⟨hpos, tle, htle, hf⟩ := h1 col (List.mem_cons_self _ _)
      have hrest : TargetsShippable f tl rest := fun c hc => h1 c (List.mem_cons_of_mem _ hc)
      have hrec := (ih (rest.map attnoOf)).mpr ⟨hrest, rfl⟩
      unfold attnoOf at hpos htle
      rw [if_neg (by omega), htle]
      simp only [hf, Bool.not_true, Bool.false_eq_true, if_false, hrec, ok_bind]
      rfl

/-- C8. `odbcPlanDirectModify` returns true, handing `attrs` to the deparser
as target-attribute list, if and only if the operation is UPDATE or DELETE,
the subplan is a foreign scan with an empty `qual` list and `scanrelid != 0`,
and, for UPDATE, every explicitly updated column is a user column whose
target expression exists and passes `odbc_is_foreign_expr`; `attrs` is then
the list of the explicitly updated columns for UPDATE and empty for
DELETE. -/
theorem plan_direct_modify_iff {Expr : Type} (is_foreign_expr : Expr → Bool)
    (plan : DirectModifyPlan Expr) (attrs : List Int) :
    odbcPlanDirectModify is_foreign_expr plan = .ok (some attrs) ↔
      DirectModifyEligible is_foreign_expr plan ∧
      attrs = if plan.operation = CmdType.CMD_UPDATE then plan.updatedCols.map attnoOf
              else [] := by
  unfold odbcPlanDirectModify DirectModifyEligible
  by_cases hop : plan.operation ≠ CmdType.CMD_UPDATE ∧ plan.operation ≠ CmdType.CMD_DELETE
  · rw [if_pos hop]
    constructor
    · intro h; cases h
    · rintro ⟨⟨h1 | h1, -⟩, -⟩
      · exact absurd h1 hop.1
      · exact absurd h1 hop.2
  · rw [if_neg hop]
    have hop2 : plan.operation = CmdType.CMD_UPDATE ∨ plan.operation = CmdType.CMD_DELETE := by
      by_contra hc
      exact hop ⟨fun h => hc (Or.inl h), fun h => hc (Or.inr h)⟩
    cases hfs : plan.subplanIsForeignScan with
    | false =>
      simp only [Bool.not_false, if_true]
      constructor
      · intro h; cases h
      · rintro ⟨⟨-, h, -⟩, -⟩; cases h
    | true =>
      simp only [Bool.not_true, Bool.false_eq_true, if_false]
      cases hq : plan.qual with
      | cons q qs =>
        simp only [List.isEmpty_cons, Bool.not_false, if_true]
        constructor
        · intro h; cases h
        · rintro ⟨⟨-, -, h, -⟩, -⟩; cases h
      | nil =>
        simp only [List.isEmpty_nil, Bool.not_true, Bool.false_eq_true, if_false]
        by_cases hs : plan.scanrelid = 0
        · rw [if_pos hs]
          constructor
          · intro h; cases h
          · rintro ⟨⟨-, -, -, h, -⟩, -⟩; exact absurd hs h
        · rw [if_neg hs]
          by_cases hu : plan.operation = CmdType.CMD_UPDATE
          · rw [if_pos hu, if_pos hu, collectTargetAttrs_some]
            constructor
            · rintro ⟨h1, h2⟩
              exact ⟨⟨hop2, trivial, trivial, hs, fun _ => h1⟩, h2⟩
            · rintro ⟨⟨-, -, -, -, h1⟩, h2⟩
              exact ⟨h1 hu, h2⟩
          · rw [if_neg hu, if_neg hu]
            constructor
            · intro h
              injection h with h
              injection h with h
              exact ⟨⟨hop2, trivial, trivial, hs, fun h => absurd h hu⟩, h.symm⟩
            · rintro ⟨-, rfl⟩
              rfl

/-- C9 (the code at the failing input). On a driver that reports the row
count `-1` (the value ODBC uses for a count that is not available), two
pulls on one state execute the statement twice, and three pulls three times:
the stored count equals the `-1` that marks the state as not yet executed.
With a reported count of 5 the statement is executed once in three pulls. -/
theorem direct_modify_executes_again_after_minus_one :
    (pullDirectModify false 2 sampleDirect (sampleModifyDriver (-1))).map
        (fun r => r.2.calls)
      = .ok [OdbcCall.SQLExecDirect "DELETE FROM t", OdbcCall.SQLRowCount,
             OdbcCall.SQLExecDirect "DELETE FROM t", OdbcCall.SQLRowCount] ∧
    (pullDirectModify false 3 sampleDirect (sampleModifyDriver (-1))).map
        (fun r => countExec r.2.calls) = .ok 3 ∧
    (pullDirectModify false 3 sampleDirect (sampleModifyDriver 5)).map
        (fun r => countExec r.2.calls) = .ok 1 := by
  refine ⟨rfl, rfl, rfl⟩

/-! ## Grouping pushdown (C10) -/

theorem checkGroupingTarget_some {Node : Type} [DecidableEq Node] (h : ExprHost Node)
    (groupClause : List Nat) :
    ∀ (target : List (Node × Nat)) (tlist tlist2 : List (GroupTle Node)),
      checkGroupingTarget h groupClause target tlist = some tlist2 →
      TargetChecks h groupClause target := by
  intro target
  induction target with
  | nil => intro _ _ _ p hp; cases hp
  | cons p rest ih =>
    intro tlist tlist2 hrun
    obtain ⟨expr, sgref⟩ := p
    simp only [checkGroupingTarget] at hrun
    split at hrun
    · rename_i hg
      split at hrun
      · cases hrun
      · rename_i hf
        have hrest := ih _ _ hrun
        intro q hq
        rcases List.mem_cons.mp hq with rfl | hq
        · exact ⟨fun _ => by simpa using hf, fun hn => absurd hg hn⟩
        · exact hrest q hq
    · rename_i hg
      split at hrun
      · rename_i hf
        have hrest := ih _ _ hrun
        intro q hq
        rcases List.mem_cons.mp hq with rfl | hq
        · exact ⟨fun hy => absurd hy hg, fun _ => Or.inl hf⟩
        · exact hrest q hq
      · split at hrun
        · cases hrun
        · rename_i hl
          have hrest := ih _ _ hrun
          intro q hq
          rcases List.mem_cons.mp hq with rfl | hq
          · exact ⟨fun hy => absurd hy hg, fun _ => Or.inr (by simpa using hl)⟩
          · exact hrest q hq

theorem checkHavingAggrefs_some {Node : Type} [DecidableEq Node] (h : ExprHost Node) :
    ∀ (aggvars : List Node) (tlist tlist2 : List (GroupTle Node)),
      checkHavingAggrefs h aggvars tlist = some tlist2 →
      ∀ a ∈ aggvars, h.isAggref a = true → h.odbc_is_foreign_expr a = true := by
  intro aggvars
  induction aggvars with
  | nil => intro _ _ _ a ha; cases ha
  | cons e rest ih =>
    intro tlist tlist2 hrun a ha hagg
    simp only [checkHavingAggrefs] at hrun
    split at hrun
    · split at hrun
      · cases hrun
      · rename_i hf
        rcases List.mem_cons.mp ha with rfl | ha
        · simpa using hf
        · exact ih _ _ hrun a ha hagg
    · rename_i hn
      rcases List.mem_cons.mp ha with rfl | ha
      · exact absurd hagg hn
      · exact ih _ _ hrun a ha hagg

/-- What a true result, or a safety flag that was not set before, tells about
`foreign_grouping_ok`. -/
theorem foreign_grouping_ok_checks {Node : Type} [DecidableEq Node] (h : ExprHost Node)
    (query : GroupingQuery Node) (ofpinfo fpinfo : PgFdwRelationInfo Node)
    (hlocal : fpinfo.local_conds = []) (hflag : fpinfo.pushdown_safe = false) :
    ((foreign_grouping_ok h query ofpinfo fpinfo).1 = true →
      GroupingChecks h query ofpinfo) ∧
    ((foreign_grouping_ok h query ofpinfo fpinfo).2.pushdown_safe = true →
      (foreign_grouping_ok h query ofpinfo fpinfo).1 = true) := by
  unfold foreign_grouping_ok
  cases hgs : query.groupingSets with
  | true => simp [hflag]
  | false =>
    simp only [Bool.false_eq_true, if_false]
    cases hoc : ofpinfo.local_conds with
    | cons c cs => simp [hflag]
    | nil =>
      simp only [List.isEmpty_nil, Bool.not_true, Bool.false_eq_true, if_false]
      cases htc : checkGroupingTarget h query.groupClause query.grouping_target [] with
      | none => simp [hflag]
      | some tlist =>
        have htarget := checkGroupingTarget_some h _ _ _ _ htc
        simp only
        split
        · rename_i checked hchecked
          split <;> simp [hflag]
        · rename_i checked tlist1 hchecked
          refine ⟨fun _ => ⟨hgs, hoc, htarget, ?_⟩, fun _ => rfl⟩
          intro hhq c hc hnf a ha hagg
          have hne : query.havingQual ≠ [] := by
            intro h0; rw [h0] at hc; cases hc
          have hempty : query.havingQual.isEmpty = false := by
            cases hq : query.havingQual with
            | nil => exact absurd hq hne
            | cons x xs => rfl
          simp only [hhq, hempty, Bool.not_false, and_self, if_true, hlocal,
            List.nil_append] at hchecked
          have hcl : c ∈ query.havingQual.filter (fun e => !h.odbc_is_foreign_expr e) := by
            simp [List.mem_filter, hc, hnf]
          have hne2 : (query.havingQual.filter (fun e => !h.odbc_is_foreign_expr e)).isEmpty
              = false := by
            cases hq : query.havingQual.filter (fun e => !h.odbc_is_foreign_expr e) with
            | nil => rw [hq] at hcl; cases hcl
            | cons x xs => rfl
          simp only [hne2, Bool.not_false, if_true] at hchecked
          refine checkHavingAggrefs_some h _ _ _ hchecked a ?_ hagg
          exact List.mem_flatten.mpr ⟨h.pull_var_clause c, List.mem_map.mpr ⟨c, hcl, rfl⟩, ha⟩

theorem add_foreign_grouping_paths_checks {Node : Type} [DecidableEq Node]
    (h : ExprHost Node) (query : GroupingQuery Node)
    (ifpinfo fpinfo : PgFdwRelationInfo Node)
    (hlocal : fpinfo.local_conds = []) (hflag : fpinfo.pushdown_safe = false) :
    ((add_foreign_grouping_paths h query ifpinfo fpinfo).pathAdded = true →
      GroupingChecks h query ifpinfo) ∧
    (∀ fp, (add_foreign_grouping_paths h query ifpinfo fpinfo).fdw_private = some fp →
      fp.pushdown_safe = true →
      (add_foreign_grouping_paths h query ifpinfo fpinfo).pathAdded = true) := by
  obtain ⟨g1, g2⟩ := foreign_grouping_ok_checks h query ifpinfo fpinfo hlocal hflag
  unfold add_foreign_grouping_paths
  split
  · refine ⟨(fun hp => by cases hp), fun fp hfp hps => ?_⟩
    injection hfp with hfp
    rw [← hfp, hflag] at hps
    cases hps
  · simp only
    generalize foreign_grouping_ok h query ifpinfo fpinfo = r at g1 g2
    obtain ⟨ok, fp1⟩ := r
    cases ok with
    | false =>
      refine ⟨(fun hp => by cases hp), fun fp hfp hps => ?_⟩
      simp only [Bool.not_false, if_true] at hfp
      injection hfp with hfp
      rw [← hfp] at hps
      exact absurd (g2 hps) (by simp)
    | true =>
      exact ⟨fun _ => g1 rfl, fun _ _ _ => rfl⟩

theorem groupingChecks_aggregates {Node : Type} (h : ExprHost Node)
    (query : GroupingQuery Node) (ofpinfo : PgFdwRelationInfo Node)
    (hc : Compositional h) (hg : GroupingChecks h query ofpinfo) :
    AggregatesShippable h query := by
  obtain ⟨-, -, htarget, hhaving⟩ := hg
  obtain ⟨c1, c2⟩ := hc
  refine ⟨fun p hp a ha _ => ?_, fun hhq c hcm a ha hagg => ?_⟩
  · obtain ⟨t1, t2⟩ := htarget p hp
    by_cases hgb : IsGroupBy query.groupClause p
    · exact c1 p.1 (t1 hgb) a ha
    · rcases t2 hgb with h1 | h1
      · exact c1 p.1 h1 a ha
      · exact c2 _ h1 a ha
  · cases hf : h.odbc_is_foreign_expr c with
    | true => exact c1 c hf a ha
    | false => exact hhaving hhq c hcm hf a ha hagg

/-- The checks behind a grouped path, as far as `odbc_fdw.c` makes them.  When
`odbcGetForeignUpperPaths` adds a foreign path to the grouped relation, the
input descriptor exists and is safe, the query has no grouping sets, the
underlying scan has no local condition, every GROUP BY expression of the
grouping target passes `odbc_is_foreign_expr`, every other target expression
passes it as a whole or through the list of the Vars and aggregates it
references, and every aggregate referenced by a local HAVING clause passes
it.  The descriptor this call creates for the grouped relation has
`pushdown_safe` true only when the path was added, that is, only after all of
these checks.  Whether every referenced aggregate passes the test by itself
is then a matter of `odbc_is_foreign_expr`, which `odbc_deparse.c` defines. -/
theorem grouped_path_only_after_checks {Node : Type} [DecidableEq Node] (h : ExprHost Node)
    (query : GroupingQuery Node) (stageIsGroupAgg : Bool)
    (input_private output_private : Option (PgFdwRelationInfo Node)) :
    ((odbcGetForeignUpperPaths h query stageIsGroupAgg input_private output_private).pathAdded
        = true →
      ∃ ifpinfo, input_private = some ifpinfo ∧ ifpinfo.pushdown_safe = true ∧
        stageIsGroupAgg = true ∧ output_private = none ∧ GroupingChecks h query ifpinfo) ∧
    (output_private = none →
      ∀ fpinfo,
        (odbcGetForeignUpperPaths h query stageIsGroupAgg input_private
          output_private).fdw_private = some fpinfo →
        fpinfo.pushdown_safe = true →
        (odbcGetForeignUpperPaths h query stageIsGroupAgg input_private
          output_private).pathAdded = true) := by
  have early : ∀ (out : Option (PgFdwRelationInfo Node)),
      ((({ fdw_private := out, pathAdded := false } : UpperResult Node).pathAdded = true →
        ∃ ifpinfo, input_private = some ifpinfo ∧ ifpinfo.pushdown_safe = true ∧
          stageIsGroupAgg = true ∧ out = none ∧ GroupingChecks h query ifpinfo) ∧
      (out = none → ∀ fpinfo,
        ({ fdw_private := out, pathAdded := false } : UpperResult Node).fdw_private
          = some fpinfo →
        fpinfo.pushdown_safe = true →
        ({ fdw_private := out, pathAdded := false } : UpperResult Node).pathAdded = true)) := by
    intro out
    refine ⟨(fun hp => by cases hp), fun hnone fp hfp _ => ?_⟩
    subst hnone
    cases hfp
  have two : ((odbcGetForeignUpperPaths h query stageIsGroupAgg input_private
        output_private).pathAdded = true →
      ∃ ifpinfo, input_private = some ifpinfo ∧ ifpinfo.pushdown_safe = true ∧
        stageIsGroupAgg = true ∧ output_private = none ∧ GroupingChecks h query ifpinfo) ∧
    (output_private = none →
      ∀ fpinfo,
        (odbcGetForeignUpperPaths h query stageIsGroupAgg input_private
          output_private).fdw_private = some fpinfo →
        fpinfo.pushdown_safe = true →
        (odbcGetForeignUpperPaths h query stageIsGroupAgg input_private
          output_private).pathAdded = true) := by
    unfold odbcGetForeignUpperPaths
    cases input_private with
    | none => exact early output_private
    | some ifpinfo =>
      simp only
      cases hsafe : ifpinfo.pushdown_safe with
      | false =>
        simp only [Bool.not_false, if_true]
        have := early output_private
        simpa using this
      | true =>
        simp only [Bool.not_true, Bool.false_eq_true, if_false]
        by_cases hstage : (!stageIsGroupAgg) = true ∨ output_private.isSome = true
        · rw [if_pos hstage]
          refine ⟨(fun hp => by cases hp), fun hnone fp hfp _ => ?_⟩
          subst hnone
          cases hfp
        · rw [if_neg hstage]
          have hst : stageIsGroupAgg = true := by
            cases stageIsGroupAgg with
            | true => rfl
            | false => exact absurd (Or.inl rfl) hstage
          have hout : output_private = none := by
            cases output_private with
            | none => rfl
            | some x => exact absurd (Or.inr rfl) hstage
          obtain ⟨g1, g2⟩ := add_foreign_grouping_paths_checks h query ifpinfo
            PgFdwRelationInfo.zero rfl rfl
          exact ⟨fun hp => ⟨ifpinfo, rfl, hsafe, hst, hout, g1 hp⟩, fun _ => g2⟩
  exact two

/-- The checks on a query that groups by one shippable expression and
computes one shippable aggregate over a scan without local conditions: the
path is added. -/
theorem grouped_path_added_on_sample :
    (odbcGetForeignUpperPaths sampleExprHost sampleQuery true (some sampleScanInfo)
      none).pathAdded = true ∧
    GroupingChecks sampleExprHost sampleQuery sampleScanInfo := by
  refine ⟨rfl, ?_⟩
  obtain ⟨ifpinfo, h1, -, -, -, h5⟩ :=
    (grouped_path_only_after_checks sampleExprHost sampleQuery true (some sampleScanInfo)
      none).1 rfl
  injection h1 with h1
  rw [h1]
  exact h5

/-- The checks of `foreign_grouping_ok` do not test the aggregates of a target
expression one by one: a target expression that is not shippable as a whole
is followed by a single test of the list of its Vars and aggregates (line
4671).  With a test that lets such a list pass although a member fails, the
path is added. -/
theorem grouped_path_rests_on_list_test :
    (odbcGetForeignUpperPaths sampleListHost sampleListQuery true (some sampleScanInfo)
      none).pathAdded = true ∧
    sampleListHost.pull_var_clause 300 = [200] ∧
    sampleListHost.isAggref 200 = true ∧
    sampleListHost.odbc_is_foreign_expr 300 = false ∧
    sampleListHost.odbc_is_foreign_expr 200 = false ∧
    sampleListHost.odbc_is_foreign_expr (sampleListHost.listNode [200]) = true ∧
    ¬ Compositional sampleListHost ∧
    ¬ AggregatesShippable sampleListHost sampleListQuery := by
  refine ⟨rfl, rfl, rfl, rfl, rfl, rfl, ?_, ?_⟩
  · intro hc
    have := hc.2 [200] rfl 200 (List.mem_singleton.mpr rfl)
    exact absurd this (by decide)
  · intro ha
    have := ha.1 (300, 0) (by decide) 200 (by decide) rfl
    exact absurd this (by decide)

/-! ## Shippability (C11, C12) -/

theorem procedureCondition_always (objectId : Nat) : procedureCondition objectId = true := by
  have h : (decide (objectId ≥ 3822) || decide (objectId ≤ 3824)) = true := by
    rcases Nat.lt_or_ge objectId 3822 with h | h
    · have : objectId ≤ 3824 := by omega
      simp [this]
    · simp [h]
  unfold procedureCondition
  simp only [h, Bool.or_true, Bool.true_or]

theorem shippableBuiltin_procedure (objectId : Nat) :
    shippableBuiltin .ProcedureObj objectId = true := by
  simp [shippableBuiltin]

theorem hashFind_none {t : List (ShippableCacheKey × Bool)} {k : ShippableCacheKey}
    (h : hashFind t k = none) : ∀ e ∈ t, e.1 ≠ k := by
  intro e he
  unfold hashFind at h
  rw [Option.map_eq_none', List.find?_eq_none] at h
  simpa using h e he

theorem hashFind_enter {t : List (ShippableCacheKey × Bool)} {k : ShippableCacheKey}
    (v : Bool) (h : hashFind t k = none) :
    hashEnter t k v = t ++ [(k, v)] ∧ hashFind (hashEnter t k v) k = some v := by
  have hne := hashFind_none h
  have hany : t.any (fun e => decide (e.1 = k)) = false := by
    rw [List.any_eq_false]
    intro e he
    simpa using hne e he
  have h1 : hashEnter t k v = t ++ [(k, v)] := by
    unfold hashEnter
    simp [hany]
  refine ⟨h1, ?_⟩
  rw [h1]
  unfold hashFind
  rw [List.find?_append]
  have hf : t.find? (fun e => decide (e.1 = k)) = none := by
    rw [List.find?_eq_none]
    intro e he
    simpa using hne e he
  simp [hf]

theorem flushEntries_filter :
    ∀ (es table : List (ShippableCacheKey × Bool)),
      (es.map Prod.fst).Nodup → (∀ e ∈ es, ∃ x ∈ table, x.1 = e.1) →
      flushEntries es table = .ok (table.filter (fun x => decide (x.1 ∉ es.map Prod.fst))) := by
  intro es
  induction es with
  | nil => intro table _ _; simp [flushEntries]
  | cons e rest ih =>
    intro table hnd hin
    rw [List.map_cons, List.nodup_cons] at hnd
    obtain ⟨x, hx, hxe⟩ := hin e (List.mem_cons_self _ _)
    have hany : table.any (fun y => decide (y.1 = e.1)) = true := by
      rw [List.any_eq_true]
      exact ⟨x, hx, by simpa using hxe⟩
    have hrm : hashRemove table e.1 = some (table.filter (fun y => decide (y.1 ≠ e.1))) := by
      unfold hashRemove
      simp [hany]
    rw [flushEntries, hrm]
    simp only []
    rw [ih _ hnd.2]
    · rw [List.filter_filter]
      congr 1
      apply List.filter_congr
      intro y _
      by_cases h1 : y.1 = e.1 <;> by_cases h2 : y.1 ∈ List.map Prod.fst rest <;>
        simp [h1, h2]
    · intro e2 he2
      obtain ⟨y, hy, hye⟩ := hin e2 (List.mem_cons_of_mem _ he2)
      refine ⟨y, ?_, hye⟩
      rw [List.mem_filter]
      refine ⟨hy, ?_⟩
      have : y.1 ≠ e.1 := by
        intro hc
        apply hnd.1
        rw [← hc, hye]
        exact List.mem_map_of_mem _ he2
      simpa using this

theorem flushEntries_all (table : List (ShippableCacheKey × Bool))
    (hnd : (table.map Prod.fst).Nodup) : flushEntries table table = .ok [] := by
  rw [flushEntries_filter table table hnd (fun e he => ⟨e, he, rfl⟩)]
  congr 1
  rw [List.filter_eq_nil_iff]
  intro x hx
  have : x.1 ∈ table.map Prod.fst := List.mem_map_of_mem _ hx
  simp only [decide_eq_true_eq, not_not]
  exact this

/-- C11: with an empty list of trusted extensions `odbc_is_shippable` answers
an aggregate or a data type outside its fixed set with false and leaves the
cache alone, but it answers every procedure id with true: the condition of
the procedure ranges holds for every id, and the line after it returns true
as well.  Id 100000 is in none of the listed ranges and is reported
shippable. -/
theorem procedure_outside_ranges_reported_shippable :
    procedureListed 100000 = false ∧
    odbc_is_shippable (fun _ _ => 0) 100000 1255 [] 1 .ProcedureObj ⟨none, 0⟩
      = (true, ⟨none, 0⟩) ∧
    (∀ (g : Nat → Nat → Nat) (objectId classId serverid : Nat) (cache : ShippableCache),
      odbc_is_shippable g objectId classId [] serverid .ProcedureObj cache = (true, cache)) ∧
    (∀ objectId, procedureCondition objectId = true) ∧
    (∀ (g : Nat → Nat → Nat) (objectId classId serverid : Nat) (cache : ShippableCache),
      odbc_is_shippable g objectId classId [] serverid .AggObj cache
        = (decide (SHIPAGGMIN ≤ objectId ∧ objectId ≤ SHIPAGGMAX), cache)) ∧
    (∀ (g : Nat → Nat → Nat) (objectId classId serverid : Nat) (cache : ShippableCache),
      odbc_is_shippable g objectId classId [] serverid .DataTypeObj cache
        = (typeCondition objectId, cache)) := by
  refine ⟨by decide, rfl, ?_, procedureCondition_always, ?_, ?_⟩
  · intro g objectId classId serverid cache
    simp [odbc_is_shippable, shippableBuiltin_procedure]
  · intro g objectId classId serverid cache
    unfold odbc_is_shippable shippableBuiltin aggCondition
    by_cases h : SHIPAGGMIN ≤ objectId ∧ objectId ≤ SHIPAGGMAX
    · simp [h.1, h.2]
    · have h2 : (decide (objectId ≥ SHIPAGGMIN) && decide (objectId ≤ SHIPAGGMAX)) = false := by
        simpa using h
      simp [h2, h]
  · intro g objectId classId serverid cache
    unfold odbc_is_shippable shippableBuiltin
    cases h : typeCondition objectId <;> simp

theorem odbc_is_shippable_hit (g : Nat → Nat → Nat) (objectId classId serverid : Nat)
    (exts : List Nat) (objType : ShipObj) (cache : ShippableCache) (v : Bool)
    (hb : shippableBuiltin objType objectId = false) (hne : exts ≠ [])
    (hf : hashFind (cache.table.getD []) ⟨objectId, classId, serverid⟩ = some v) :
    odbc_is_shippable g objectId classId exts serverid objType cache
      = (v, { cache with table := some (cache.table.getD []) }) := by
  have he : exts.isEmpty = false := by
    cases exts with
    | nil => exact absurd rfl hne
    | cons a l => rfl
  unfold odbc_is_shippable
  simp only [hb, he, Bool.false_eq_true, if_false, hf]

theorem odbc_is_shippable_miss (g : Nat → Nat → Nat) (objectId classId serverid : Nat)
    (exts : List Nat) (objType : ShipObj) (cache : ShippableCache)
    (hb : shippableBuiltin objType objectId = false) (hne : exts ≠ [])
    (hf : hashFind (cache.table.getD []) ⟨objectId, classId, serverid⟩ = none) :
    odbc_is_shippable g objectId classId exts serverid objType cache
      = (lookup_shippable g objectId classId exts,
         { table := some ((cache.table.getD []) ++
             [(⟨objectId, classId, serverid⟩, lookup_shippable g objectId classId exts)]),
           lookups := cache.lookups + 1 }) := by
  have he : exts.isEmpty = false := by
    cases exts with
    | nil => exact absurd rfl hne
    | cons a l => rfl
  unfold odbc_is_shippable
  simp only [hb, he, Bool.false_eq_true, if_false, hf, (hashFind_enter _ hf).1]

theorem invalidate_distinct (cache : ShippableCache) (t : List (ShippableCacheKey × Bool))
    (ht : cache.table = some t) (hnd : (t.map Prod.fst).Nodup) :
    InvalidateShippableCacheCallback cache = .ok { cache with table := some [] } := by
  unfold InvalidateShippableCacheCallback
  rw [ht]
  simp only [flushEntries_all t hnd]
  rfl

/-- C12: for an object that the fixed sets do not answer and a non-empty list
of trusted extensions, a second call of `odbc_is_shippable` with the same
arguments returns what the first returned and runs no lookup (the first runs
one exactly when the cache had no entry for the key); the entry is found
under the key of object, catalog and server.  After
`InvalidateShippableCacheCallback` the table is empty and the next call runs
`lookup_shippable` again. -/
theorem shippable_decision_cached_until_invalidated
    (g : Nat → Nat → Nat) (objectId classId serverid : Nat) (exts : List Nat)
    (objType : ShipObj) (cache : ShippableCache)
    (hb : shippableBuiltin objType objectId = false) (hne : exts ≠ [])
    (hnd : CacheKeysDistinct cache) :
    (odbc_is_shippable g objectId classId exts serverid objType
        (odbc_is_shippable g objectId classId exts serverid objType cache).2).1
      = (odbc_is_shippable g objectId classId exts serverid objType cache).1 ∧
    (odbc_is_shippable g objectId classId exts serverid objType
        (odbc_is_shippable g objectId classId exts serverid objType cache).2).2.lookups
      = (odbc_is_shippable g objectId classId exts serverid objType cache).2.lookups ∧
    (odbc_is_shippable g objectId classId exts serverid objType cache).2.lookups
      = cache.lookups +
        (if (hashFind (cache.table.getD []) ⟨objectId, classId, serverid⟩).isSome then 0
         else 1) ∧
    hashFind ((odbc_is_shippable g objectId classId exts serverid objType cache).2.table.getD [])
        ⟨objectId, classId, serverid⟩
      = some (odbc_is_shippable g objectId classId exts serverid objType cache).1 ∧
    ∃ flushed,
      InvalidateShippableCacheCallback
          (odbc_is_shippable g objectId classId exts serverid objType
            (odbc_is_shippable g objectId classId exts serverid objType cache).2).2
        = .ok flushed ∧
      flushed.table = some [] ∧
      (odbc_is_shippable g objectId classId exts serverid objType flushed).1
        = lookup_shippable g objectId classId exts ∧
      (odbc_is_shippable g objectId classId exts serverid objType flushed).2.lookups
        = flushed.lookups + 1 := by
  have key : ∀ (c1 : ShippableCache) (t : List (ShippableCacheKey × Bool)) (v : Bool),
      c1.table = some t → (t.map Prod.fst).Nodup →
      hashFind t ⟨objectId, classId, serverid⟩ = some v →
      (odbc_is_shippable g objectId classId exts serverid objType c1).1 = v ∧
      (odbc_is_shippable g objectId classId exts serverid objType c1).2.lookups = c1.lookups ∧
      ∃ flushed,
        InvalidateShippableCacheCallback
            (odbc_is_shippable g objectId classId exts serverid objType c1).2 = .ok flushed ∧
        flushed.table = some [] ∧
        (odbc_is_shippable g objectId classId exts serverid objType flushed).1
          = lookup_shippable g objectId classId exts ∧
        (odbc_is_shippable g objectId classId exts serverid objType flushed).2.lookups
          = flushed.lookups + 1 := by
    intro c1 t v ht hndt hf
    have hf1 : hashFind (c1.table.getD []) ⟨objectId, classId, serverid⟩ = some v := by
      rw [ht]; exact hf
    rw [odbc_is_shippable_hit g objectId classId serverid exts objType c1 v hb hne hf1]
    refine ⟨rfl, rfl, _, invalidate_distinct _ t (by rw [ht]; rfl) hndt, rfl, ?_⟩
    have hmiss := odbc_is_shippable_miss g objectId classId serverid exts objType
      { table := some [], lookups := c1.lookups } hb hne rfl
    constructor
    · exact congrArg Prod.fst hmiss
    · exact congrArg (fun r => r.2.lookups) hmiss
  cases hfind : hashFind (cache.table.getD []) ⟨objectId, classId, serverid⟩ with
  | some v =>
    have h1 := odbc_is_shippable_hit g objectId classId serverid exts objType cache v hb hne hfind
    obtain ⟨k1, k2, k3⟩ := key { cache with table := some (cache.table.getD []) }
      (cache.table.getD []) v rfl hnd hfind
    rw [h1]
    refine ⟨k1, k2, by simp, hfind, k3⟩
  | none =>
    have h1 := odbc_is_shippable_miss g objectId classId serverid exts objType cache hb hne hfind
    have he := hashFind_enter (lookup_shippable g objectId classId exts) hfind
    rw [he.1] at he
    have hnd2 : (((cache.table.getD []) ++
        [((⟨objectId, classId, serverid⟩ : ShippableCacheKey),
          lookup_shippable g objectId classId exts)]).map Prod.fst).Nodup := by
      rw [List.map_append, List.nodup_append]
      refine ⟨hnd, by simp, ?_⟩
      intro a ha hb2
      simp only [List.map_cons, List.map_nil, List.mem_singleton] at hb2
      rw [List.mem_map] at ha
      obtain ⟨e, he1, he2⟩ := ha
      exact hashFind_none hfind e he1 (he2.trans hb2)
    obtain ⟨k1, k2, k3⟩ := key
      { table := some ((cache.table.getD []) ++
          [(⟨objectId, classId, serverid⟩, lookup_shippable g objectId classId exts)]),
        lookups := cache.lookups + 1 } _ _ rfl hnd2 he.2
    rw [h1]
    refine ⟨k1, k2, by simp, he.2, k3⟩

theorem shippable_decision_cached_until_invalidated_witness :
    shippableBuiltin .AggObj 100000 = false ∧ [7] ≠ ([] : List Nat) ∧
    CacheKeysDistinct sampleCache ∧
    (odbc_is_shippable sampleExtensionOf 100000 1255 [7] 1 .AggObj
        (odbc_is_shippable sampleExtensionOf 100000 1255 [7] 1 .AggObj sampleCache).2).1
      = true ∧
    (odbc_is_shippable sampleExtensionOf 100000 1255 [7] 1 .AggObj
        (odbc_is_shippable sampleExtensionOf 100000 1255 [7] 1 .AggObj sampleCache).2).2.lookups
      = 4 :=
  have h := shippable_decision_cached_until_invalidated sampleExtensionOf 100000 1255 1 [7]
    .AggObj sampleCache (by decide) (by decide) (by unfold CacheKeysDistinct; decide)
  ⟨by decide, by decide, by unfold CacheKeysDistinct; decide, h.1.trans (by decide),
    h.2.1.trans (by decide)⟩

/-! ## Cost estimation (C13, C14) -/

theorem Min_nonneg {x y : ℚ} (hx : 0 ≤ x) (hy : 0 ≤ y) : 0 ≤ Min x y := by
  unfold Min
  split <;> assumption

theorem computeBareCost_nonneg (env : CostEnv) (fpinfo : FdwCostInfo) (shape : RelShape)
    (rows retrieved_rows : ℚ) (width : Int)
    (h1 : 0 ≤ env.seq_page_cost) (h2 : 0 ≤ env.cpu_tuple_cost) (h3 : 0 ≤ env.cpu_operator_cost)
    (h4 : ∀ x, 0 ≤ env.clamp_row_est x) (h5 : fpinfo.local_conds_cost.Nonneg)
    (h6 : shape.Nonneg) (h7 : 0 ≤ retrieved_rows) :
    0 ≤ (computeBareCost env fpinfo shape rows retrieved_rows width).startup_cost ∧
    0 ≤ (computeBareCost env fpinfo shape rows retrieved_rows width).startup_cost
        + (computeBareCost env fpinfo shape rows retrieved_rows width).run_cost := by
  cases shape with
  | join fi fo rc jc =>
    obtain ⟨⟨i1, i2, i3⟩, ⟨o1, o2, o3⟩, ⟨r1, r2⟩, ⟨j1, j2⟩⟩ := h6
    obtain ⟨l1, l2⟩ := h5
    have hn : 0 ≤ fi.rows * fo.rows := mul_nonneg i3 o3
    have hm := Min_nonneg h7 hn
    have a1 := mul_nonneg hn j2
    have a2 := mul_nonneg (h4 (fi.rows * fo.rows * fpinfo.joinclause_sel)) r2
    have a3 := mul_nonneg l2 hm
    simp only [computeBareCost]
    constructor <;> linarith
  | upper o hasAggs ag n g pt =>
    obtain ⟨⟨o1, o2, o3⟩, ⟨t1, t2⟩, f1, g1, ⟨p1, p2⟩⟩ := h6
    have hz : (0 : ℚ) ≤ (n : ℚ) := Nat.cast_nonneg n
    have a4 := mul_nonneg (mul_nonneg h3 hz) o3
    have a5 := mul_nonneg h2 g1
    have a6 := mul_nonneg p2 g1
    cases hasAggs with
    | true =>
      have a1 := mul_nonneg t2 o3
      have a2 := mul_nonneg f1 g1
      simp only [computeBareCost, if_true]
      constructor <;> linarith
    | false =>
      simp only [computeBareCost, Bool.false_eq_true, if_false, AggClauseCosts.zero, zero_mul,
        add_zero]
      constructor <;> linarith
  | base tuples pages brc =>
    obtain ⟨t1, p1, ⟨b1, b2⟩⟩ := h6
    have a1 := mul_nonneg h1 p1
    have a2 := mul_nonneg (add_nonneg h2 b2) t1
    simp only [computeBareCost]
    constructor <;> linarith

theorem bareCost_nonneg (env : CostEnv) (foreignrel : ForeignRel)
    (h : CostInputsNonneg env foreignrel) :
    0 ≤ (bareCost env foreignrel).startup_cost ∧
    0 ≤ (bareCost env foreignrel).startup_cost + (bareCost env foreignrel).run_cost := by
  obtain ⟨h1, h2, h3, h4, h5, h6⟩ := h
  unfold bareCost
  simp only []
  split
  next hc =>
    simp only []
    constructor <;> linarith [hc.1, hc.2]
  next =>
    exact computeBareCost_nonneg env _ _ _ _ _ h1 h2 h3 h4 h5 h6 (h4 _)

theorem computeBareCost_computed (env : CostEnv) (fpinfo : FdwCostInfo) (shape : RelShape)
    (rows retrieved_rows : ℚ) (width : Int) :
    (computeBareCost env fpinfo shape rows retrieved_rows width).computed = true := by
  cases shape <;> rfl

/-- With `USE_ASSERT_CHECKING` the `Assert` of line 4054 stops every call that
has join conditions. -/
theorem estimate_asserts_no_join_conds {α β : Type} (env : CostEnv) (foreignrel : ForeignRel)
    (cond : α) (conds : List α) (pathkeys : List β) :
    estimate_path_cost_size true env foreignrel (cond :: conds) pathkeys
      = .error (Abort.error "TRAP: FailedAssertion(param_join_conds == NIL)") := by
  simp [estimate_path_cost_size]

theorem estimate_costs {α β : Type} (env : CostEnv) (foreignrel : ForeignRel)
    (conds : List α) (keys : List β) :
    ∃ e : PathCostEstimate,
      estimate_path_cost_size false env foreignrel conds keys = .ok e ∧
      e.p_startup_cost
        = (if keys.isEmpty then (bareCost env foreignrel).startup_cost
           else (bareCost env foreignrel).startup_cost * DEFAULT_FDW_SORT_MULTIPLIER)
          + foreignrel.fpinfo.fdw_startup_cost ∧
      e.p_total_cost
        = (if keys.isEmpty then
             (bareCost env foreignrel).startup_cost + (bareCost env foreignrel).run_cost
           else (bareCost env foreignrel).startup_cost * DEFAULT_FDW_SORT_MULTIPLIER
             + (bareCost env foreignrel).run_cost * DEFAULT_FDW_SORT_MULTIPLIER)
          + foreignrel.fpinfo.fdw_startup_cost
          + foreignrel.fpinfo.fdw_tuple_cost * (bareCost env foreignrel).retrieved_rows
          + env.cpu_tuple_cost * (bareCost env foreignrel).retrieved_rows := by
  refine ⟨_, rfl, ?_, ?_⟩ <;>
    cases hk : keys.isEmpty <;> cases hc : conds.isEmpty <;> simp [hk, hc]

/-- C13: for one relation and descriptor with non-negative cost inputs, in a
build without assertion checking, `estimate_path_cost_size` with a requested
ordering returns a startup cost and a total cost no lower than without
ordering, whatever the join conditions; and with one more join condition it
returns a total cost no lower than without it (the two are equal). -/
theorem ordering_and_join_condition_never_cheaper {α β : Type} (env : CostEnv)
    (foreignrel : ForeignRel) (cond : α) (conds : List α) (pathkeys : List β)
    (hk : pathkeys ≠ []) (hnn : CostInputsNonneg env foreignrel) :
    (∃ plain ordered : PathCostEstimate,
      estimate_path_cost_size false env foreignrel conds ([] : List β) = .ok plain ∧
      estimate_path_cost_size false env foreignrel conds pathkeys = .ok ordered ∧
      plain.p_startup_cost ≤ ordered.p_startup_cost ∧
      plain.p_total_cost ≤ ordered.p_total_cost) ∧
    (∀ keys : List β, ∃ fewer more : PathCostEstimate,
      estimate_path_cost_size false env foreignrel conds keys = .ok fewer ∧
      estimate_path_cost_size false env foreignrel (cond :: conds) keys = .ok more ∧
      fewer.p_total_cost ≤ more.p_total_cost ∧
      fewer.p_total_cost = more.p_total_cost) := by
  obtain ⟨b1, b2⟩ := bareCost_nonneg env foreignrel hnn
  have hke : pathkeys.isEmpty = false := by
    cases pathkeys with
    | nil => exact absurd rfl hk
    | cons a l => rfl
  constructor
  · obtain ⟨plain, p0, p1, p2⟩ := estimate_costs env foreignrel conds ([] : List β)
    obtain ⟨ordered, o0, o1, o2⟩ := estimate_costs env foreignrel conds pathkeys
    refine ⟨plain, ordered, p0, o0, ?_, ?_⟩
    · rw [p1, o1]
      simp only [hke, List.isEmpty_nil, Bool.false_eq_true, if_false, if_true,
        DEFAULT_FDW_SORT_MULTIPLIER]
      linarith
    · rw [p2, o2]
      simp only [hke, List.isEmpty_nil, Bool.false_eq_true, if_false, if_true,
        DEFAULT_FDW_SORT_MULTIPLIER]
      linarith
  · intro keys
    obtain ⟨fewer, f0, _, f2⟩ := estimate_costs env foreignrel conds keys
    obtain ⟨more, m0, _, m2⟩ := estimate_costs env foreignrel (cond :: conds) keys
    exact ⟨fewer, more, f0, m0, le_of_eq (f2.trans m2.symm), f2.trans m2.symm⟩

theorem ordering_and_join_condition_never_cheaper_witness :
    ([1] : List Nat) ≠ [] ∧ CostInputsNonneg sampleCostEnv (sampleBaseRel 0) ∧
    ∃ plain ordered : PathCostEstimate,
      estimate_path_cost_size false sampleCostEnv (sampleBaseRel 0) [7] ([] : List Nat)
        = .ok plain ∧
      estimate_path_cost_size false sampleCostEnv (sampleBaseRel 0) [7] [1] = .ok ordered ∧
      plain.p_startup_cost ≤ ordered.p_startup_cost ∧
      plain.p_total_cost ≤ ordered.p_total_cost :=
  have h2 : CostInputsNonneg sampleCostEnv (sampleBaseRel 0) := by
    refine ⟨by norm_num [sampleCostEnv], by norm_num [sampleCostEnv],
      by norm_num [sampleCostEnv], ?_, ?_, ?_⟩
    · intro x
      simp only [sampleCostEnv]
      split <;> linarith
    · norm_num [QualCost.Nonneg, sampleBaseRel, sampleCostInfo, resetRelCosts]
    · norm_num [RelShape.Nonneg, QualCost.Nonneg, sampleBaseRel]
  ⟨by decide, h2,
    (ordering_and_join_condition_never_cheaper sampleCostEnv (sampleBaseRel 0) 7 [7] [1]
      (by decide) h2).1⟩

/-- C14: `odbcGetForeignRelSize` resets the cached pair to -1, and the first
estimate without join conditions or ordering computes the cost of the bare
scan and stores it.  For a base relation whose restriction clauses have
startup cost 0 the stored startup cost is 0, the test `rel_startup_cost > 0`
of line 4073 takes it for unset, and the next call computes the cost again;
with a startup cost of 1 the next call reuses the stored pair.  Whatever the
relation, a stored startup cost of 0 is never reused. -/
theorem zero_startup_cost_is_computed_again :
    (∀ fp, (resetRelCosts fp).rel_startup_cost = -1 ∧ (resetRelCosts fp).rel_total_cost = -1) ∧
    (∃ first second : PathCostEstimate,
      estimate_path_cost_size false sampleCostEnv (sampleBaseRel 0)
        ([] : List Nat) ([] : List Nat) = .ok first ∧
      first.computed = true ∧
      first.fpinfo.rel_startup_cost = 0 ∧ first.fpinfo.rel_total_cost = 45 / 2 ∧
      estimate_path_cost_size false sampleCostEnv
        { sampleBaseRel 0 with fpinfo := first.fpinfo } ([] : List Nat) [1] = .ok second ∧
      second.computed = true) ∧
    (∃ first second : PathCostEstimate,
      estimate_path_cost_size false sampleCostEnv (sampleBaseRel 1)
        ([] : List Nat) ([] : List Nat) = .ok first ∧
      first.computed = true ∧
      first.fpinfo.rel_startup_cost = 1 ∧ first.fpinfo.rel_total_cost = 47 / 2 ∧
      estimate_path_cost_size false sampleCostEnv
        { sampleBaseRel 1 with fpinfo := first.fpinfo } ([] : List Nat) [1] = .ok second ∧
      second.computed = false) ∧
    (∀ (env : CostEnv) (foreignrel : ForeignRel) (total : ℚ),
      (bareCost env { foreignrel with
        fpinfo := { foreignrel.fpinfo with rel_startup_cost := 0, rel_total_cost := total } }
      ).computed = true) := by
  refine ⟨fun fp => ⟨rfl, rfl⟩, ⟨_, _, rfl, ?_, ?_, ?_, rfl, ?_⟩,
    ⟨_, _, rfl, ?_, ?_, ?_, rfl, ?_⟩, ?_⟩
  · norm_num [bareCost, sampleBaseRel, sampleCostInfo, resetRelCosts, computeBareCost]
  · norm_num [bareCost, sampleBaseRel, sampleCostInfo, resetRelCosts, computeBareCost]
  · norm_num [bareCost, sampleBaseRel, sampleCostInfo, resetRelCosts, computeBareCost,
      sampleCostEnv]
  · norm_num [bareCost, sampleBaseRel, sampleCostInfo, resetRelCosts, computeBareCost,
      sampleCostEnv]
  · norm_num [bareCost, sampleBaseRel, sampleCostInfo, resetRelCosts, computeBareCost]
  · norm_num [bareCost, sampleBaseRel, sampleCostInfo, resetRelCosts, computeBareCost]
  · norm_num [bareCost, sampleBaseRel, sampleCostInfo, resetRelCosts, computeBareCost,
      sampleCostEnv]
  · norm_num [bareCost, sampleBaseRel, sampleCostInfo, resetRelCosts, computeBareCost,
      sampleCostEnv]
  · intro env foreignrel total
    simp [bareCost, computeBareCost_computed]

/-! ## Buffer sizes, fractional truncation and conversion modes (C15, C16, C17) -/

theorem minimum_buffer_size_le (t : Int) : minimum_buffer_size t ≤ 32 := by
  unfold minimum_buffer_size
  repeat' split
  all_goals decide

theorem planColumn_size (desc : ColumnDescription) :
    (planColumn desc).2
      = min (max desc.columnSize (minimum_buffer_size desc.dataType)) MAXIMUM_BUFFER_SIZE := by
  have hm := minimum_buffer_size_le desc.dataType
  simp only [planColumn, MAXIMUM_BUFFER_SIZE]
  split <;> split <;> omega

theorem noNul_cstring (m : List Nat) : NoNul (cstring m) := by
  intro c hc
  have := List.mem_takeWhile_imp hc
  simpa using this

theorem cstring_append_of_mem (w rest : List Nat) (h : 0 ∈ w) :
    cstring (w ++ rest) = cstring w := by
  induction w with
  | nil => cases h
  | cons c w ih =>
    simp only [cstring, List.cons_append] at ih ⊢
    rw [List.takeWhile_cons, List.takeWhile_cons]
    cases hb : (c != 0)
    · rfl
    · have hc : c ≠ 0 := by simpa using hb
      have hw : 0 ∈ w := by
        rcases List.mem_cons.mp h with h0 | h0
        · exact absurd h0.symm hc
        · exact h0
      simp only [if_true]
      rw [ih hw]

theorem readCString_of_mem (m : List Nat) (h : 0 ∈ m) : readCString m = .ok (cstring m) := by
  simp [readCString, h]

/-- The first `SQLGetData` of a column: a driver that stores a terminated
string, or fills all `col_size + 1` bytes, leaves a buffer of `col_size + 1`
bytes that reads as the characters stored. -/
theorem first_read_delivered (junk : Nat → Nat) (col_size : Nat) (written : List Nat)
    (hlen : written.length ≤ col_size + 1)
    (hterm : 0 ∈ written ∨ written.length = col_size + 1) :
    ∃ buf, (store (palloc junk (col_size + 1)) 0 0 >>= fun buf0 =>
        deliver buf0 0 ((col_size : Int) + 1) written) = .ok buf ∧
      buf.length = col_size + 1 ∧ cstring buf = cstring written := by
  have hst := store_first (palloc junk (col_size + 1)) (by simp [palloc_length])
  have hd := deliver_whole (0 :: (palloc junk (col_size + 1)).drop 1) written col_size
    (by simp [palloc_length]) hlen
  refine ⟨written ++ List.drop written.length (0 :: (palloc junk (col_size + 1)).drop 1),
    (by simp only [hst, ok_bind, hd]), ?_, ?_⟩
  · simp [palloc_length]; omega
  · rcases hterm with h | h
    · exact cstring_append_of_mem _ _ h
    · have : List.drop written.length (0 :: (palloc junk (col_size + 1)).drop 1) = [] := by
        apply List.drop_eq_nil_of_le; simp [palloc_length, h]
      rw [this, List.append_nil]

/-- The value left by the fractional-truncation branch of lines 2247-2258. -/
theorem handleSuccessWithInfo_fractional (junk : Nat → Nat) (col_size col : Nat)
    (buf : List Nat) (ret indicator : Int) (rest : List GetDataReply) (calls : List OdbcCall)
    (hbl : buf.length = col_size + 1) :
    ∃ c, handleSuccessWithInfo junk col_size col buf ret indicator true rest calls = .ok c ∧
      c.calls = calls ∧ c.reads = rest ∧ c.ret = ret ∧ c.indicator = indicator ∧
      readCString c.buf = .ok (cstring buf) ∧
      c.notices = [cstring buf] := by
  cases hz : (buf.getD col_size 0 != 0) with
  | false =>
    have hmem : 0 ∈ buf := by
      have h0 : buf.getD col_size 0 = 0 := by simpa using hz
      have hlt : col_size < buf.length := by omega
      rw [List.getD_eq_getElem _ _ hlt] at h0
      rw [← h0]
      exact List.getElem_mem hlt
    have hr := readCString_of_mem buf hmem
    refine ⟨ColumnRead.mk buf ret indicator rest calls [cstring buf], ?_, rfl, rfl, rfl, rfl,
      hr, rfl⟩
    simp only [handleSuccessWithInfo, if_true, hz, Bool.false_eq_true, if_false, pure_eq_ok,
      ok_bind, hr]
  | true =>
    have h1 := strncpy_fresh (palloc junk (col_size + 2)) buf (col_size + 1)
      (by simp [palloc_length])
    have hsl := strncpyBytes_length buf (col_size + 1)
    have h2 := store_behind (strncpyBytes buf (col_size + 1))
      ((palloc junk (col_size + 2)).drop (col_size + 1)) (by simp [palloc_length])
    rw [hsl] at h2
    have htake : buf.take (col_size + 1) = buf := by
      apply List.take_of_length_le; omega
    have hr : readCString (strncpyBytes buf (col_size + 1) ++
        0 :: List.drop 1 ((palloc junk (col_size + 2)).drop (col_size + 1)))
        = .ok (cstring buf) := by
      unfold strncpyBytes
      simp only [htake]
      rw [List.append_assoc, replicate_zero_cons]
      exact readCString_append_nul _ _ (noNul_cstring _)
    refine ⟨ColumnRead.mk (strncpyBytes buf (col_size + 1) ++
        0 :: List.drop 1 ((palloc junk (col_size + 2)).drop (col_size + 1)))
      ret indicator rest calls [cstring buf], ?_, rfl, rfl, rfl, rfl, hr, rfl⟩
    simp only [handleSuccessWithInfo, if_true, hz, h1, h2, pure_eq_ok, ok_bind, hr]

/-- C15 (counterexample): a `varchar` column declared with 10000 characters is
planned with a buffer size of 8192, below the declared size. -/
theorem declared_size_above_maximum_not_reached :
    (planColumn ⟨SQL_VARCHAR, 10000, 0, 1⟩).2 = 8192 ∧
    ¬ BufferSizeBounds ⟨SQL_VARCHAR, 10000, 0, 1⟩ := by
  have h : (planColumn ⟨SQL_VARCHAR, 10000, 0, 1⟩).2 = 8192 := by
    rw [planColumn_size]; decide
  refine ⟨h, ?_⟩
  intro hb
  have := hb.1
  rw [h] at this
  exact absurd this (by decide)

/-- C15 (amended): for every column description the buffer size planned on
the first pull is the declared size raised to the minimum of the type and then
cut to `MAXIMUM_BUFFER_SIZE`; so it is at least the smaller of the declared
size and 8192, at least `minimum_buffer_size` of the type, and at most 8192.
The size list of the first pull holds this size for each result column. -/
theorem planned_buffer_size_bounds (desc : ColumnDescription) :
    (planColumn desc).2
      = min (max desc.columnSize (minimum_buffer_size desc.dataType)) MAXIMUM_BUFFER_SIZE ∧
    min desc.columnSize MAXIMUM_BUFFER_SIZE ≤ (planColumn desc).2 ∧
    minimum_buffer_size desc.dataType ≤ (planColumn desc).2 ∧
    (planColumn desc).2 ≤ MAXIMUM_BUFFER_SIZE ∧
    (∀ (festate : odbcFdwExecutionState) (d : ScanDriver),
      (planColumns { festate with first_iteration := true } d).1.col_size_array
        = (List.range festate.num_of_result_cols).map
            (fun k => (planColumn (d.describe (k + 1))).2)) := by
  have hm := minimum_buffer_size_le desc.dataType
  have hs := planColumn_size desc
  refine ⟨hs, ?_, ?_, ?_, ?_⟩
  · rw [hs]; simp only [MAXIMUM_BUFFER_SIZE]; omega
  · rw [hs]; simp only [MAXIMUM_BUFFER_SIZE]; omega
  · rw [hs]; simp only [MAXIMUM_BUFFER_SIZE]; omega
  · intro festate d
    simp [planColumns, List.map_map, Function.comp_def]

/-- C16: a column read that returns `SQL_SUCCESS_WITH_INFO` with SQLSTATE
01S07 does not get to the fractional-truncation branch of
`odbcIterateForeignScan`.  `SQLGetDiagRec` stores the five characters of the
state and the terminator into `SQLCHAR sqlstate[5]`, one byte behind the
array (`check_return` uses `state[7]`), so the read of `1.256` into the 5
bytes of a buffer of size 4 ends in a fault; and whatever state the driver
reports, a store that stays inside the array never compares equal to
`01S07`.  The branch itself, entered with the comparison answered
"equal", does what is wanted: for a driver that has stored a terminated
string, or has filled all `col_size + 1` bytes, it raises no error, issues
no further call, and leaves in `buf` a terminated string whose characters
are those the driver stored; the notice carries the same characters. -/
theorem fractional_truncation_read_overruns_sqlstate :
    getColumnData (fun _ => 7) 0 4 1 [⟨1, [49, 46, 50, 53, 54], some 6, "01S07"⟩] []
      = .error Abort.fault ∧
    getDiagState (fun _ => 7) ODBC_SQLSTATE_FRACTIONAL_TRUNCATION = .error Abort.fault ∧
    (∀ (junk : Nat → Nat) (indicator0 : Int) (col_size col : Nat) (first : GetDataReply)
        (rest : List GetDataReply) (calls : List OdbcCall),
      first.ret = SQL_SUCCESS_WITH_INFO →
      first.sqlstate = ODBC_SQLSTATE_FRACTIONAL_TRUNCATION →
      getColumnData junk indicator0 col_size col (first :: rest) calls = .error Abort.fault) ∧
    (∀ (junk : Nat → Nat) (sqlstate : String) (m : List Nat),
      getDiagState junk sqlstate = .ok m →
      strcmp0 m (ODBC_SQLSTATE_FRACTIONAL_TRUNCATION.toList.map Char.toNat) ≠ .ok true) ∧
    (∀ (junk : Nat → Nat) (col_size col : Nat) (written : List Nat) (ret indicator : Int)
        (rest : List GetDataReply) (calls : List OdbcCall),
      written.length ≤ col_size + 1 →
      (0 ∈ written ∨ written.length = col_size + 1) →
      ∃ buf c,
        (store (palloc junk (col_size + 1)) 0 0 >>= fun buf0 =>
          deliver buf0 0 ((col_size : Int) + 1) written) = .ok buf ∧
        handleSuccessWithInfo junk col_size col buf ret indicator true rest calls = .ok c ∧
        c.calls = calls ∧ c.reads = rest ∧ c.ret = ret ∧
        readCString c.buf = .ok (cstring written) ∧
        c.notices = [cstring written]) ∧
    (∃ c, handleSuccessWithInfo (fun _ => 7) 4 1 [49, 46, 50, 53, 54] SQL_SUCCESS_WITH_INFO 6
        true [] [OdbcCall.SQLGetData 1 5, OdbcCall.SQLGetDiagRec] = .ok c ∧
      c.calls = [OdbcCall.SQLGetData 1 5, OdbcCall.SQLGetDiagRec] ∧
      readCString c.buf = .ok [49, 46, 50, 53, 54] ∧
      c.notices = [[49, 46, 50, 53, 54]]) := by
  refine ⟨rfl, rfl, ?_, ?_, ?_, ⟨_, rfl, rfl, rfl, rfl⟩⟩
  · intro junk indicator0 col_size col first rest calls hret hstate
    exact getColumnData_state_overrun junk indicator0 col_size col first rest calls hret
      (by rw [hstate]; decide)
  · intro junk sqlstate m h
    exact getDiagState_never_equal junk sqlstate _ m (by decide) h
  · intro junk col_size col written ret indicator rest calls hlen hterm
    obtain ⟨buf, hb, hbl, hcs⟩ := first_read_delivered junk col_size written hlen hterm
    obtain ⟨c, h1, h2, h3, h4, -, h6, h7⟩ :=
      handleSuccessWithInfo_fractional junk col_size col buf ret indicator rest calls hbl
    rw [hcs] at h6 h7
    exact ⟨buf, c, hb, h1, h2, h3, h4, h6, h7⟩

theorem ite_holds {c : Prop} [Decidable c] {α : Type} (P : α → Prop) (a b : α)
    (ha : P a) (hb : P b) : P (if c then a else b) := by
  split <;> assumption

theorem sql_data_type_no_bit (t : Int) (n : Nat) (dd nl : Int) :
    NoBitName (sql_data_type t n dd nl) := by
  unfold sql_data_type
  repeat' apply ite_holds NoBitName
  all_goals exact ⟨rfl, rfl⟩

/-- C17: `sql_data_type` has no case for `SQL_BINARY` and `SQL_VARBINARY`, so
a column of either type gets an empty type name and the plain-text mode; a
non-null value of such a column is returned as text and no error is raised.
No column description at all is given the mode `BIN_CONVERSION`.  A
`SQL_LONGVARBINARY` column gets `HEX_CONVERSION` and a `SQL_BIT` column
`BOOL_CONVERSION`. -/
theorem bit_string_column_is_read_as_text :
    sql_data_type SQL_BINARY 16 0 1 = [] ∧ sql_data_type SQL_VARBINARY 16 0 1 = [] ∧
    planColumn ⟨SQL_BINARY, 16, 0, 1⟩ = (ColumnConversion.TEXT_CONVERSION, 16) ∧
    planColumn ⟨SQL_VARBINARY, 16, 0, 1⟩ = (ColumnConversion.TEXT_CONVERSION, 16) ∧
    (∃ r, odbcIterateForeignScan sampleHost (fun _ => 7) 0 sampleFreshState
        { fetches := [SQL_SUCCESS], describe := fun _ => ⟨SQL_BINARY, 16, 0, 1⟩,
          reads := [⟨SQL_SUCCESS, [49, 48, 0], some 2, "00000"⟩], calls := [] } = .ok r ∧
      r.slot = some [some 2, none]) ∧
    (∀ desc : ColumnDescription, (planColumn desc).1 ≠ ColumnConversion.BIN_CONVERSION) ∧
    (∀ (n : Nat) (dd nl : Int),
      (planColumn ⟨SQL_LONGVARBINARY, n, dd, nl⟩).1 = ColumnConversion.HEX_CONVERSION) ∧
    (∀ (n : Nat) (dd nl : Int),
      (planColumn ⟨SQL_BIT, n, dd, nl⟩).1 = ColumnConversion.BOOL_CONVERSION) := by
  refine ⟨rfl, rfl, by decide, by decide, ⟨_, rfl, rfl⟩, ?_, ?_, ?_⟩
  · intro desc
    obtain ⟨h1, h2⟩ := sql_data_type_no_bit desc.dataType desc.columnSize desc.decimalDigits
      desc.nullable
    simp only [planColumn, h1, h2, Bool.false_eq_true, or_self, if_false]
    split
    · simp
    · split <;> simp
  · intro n dd nl
    have : sql_data_type SQL_LONGVARBINARY n dd nl = "bytea".toList := rfl
    simp only [planColumn, this]
    decide
  · intro n dd nl
    have : sql_data_type SQL_BIT n dd nl = "boolean".toList := rfl
    simp only [planColumn, this]
    decide

/-! ## The encoding option (C18) -/

theorem odbcBeginForeignScan_encoding (defGetBoolean : String → Bool) (explainOnly : Bool)
    (tableOptions serverOptions mappingOptions : List OptionDef) (driver : BeginDriver)
    (natts : Nat) (retrieved_attrs : List Nat) (st : BeginState)
    (h : odbcBeginForeignScan defGetBoolean explainOnly tableOptions serverOptions
      mappingOptions driver natts retrieved_attrs = .ok (some st)) :
    st.festate.encoding = -1 := by
  unfold odbcBeginForeignScan at h
  simp only [] at h
  split at h
  · cases h
  · obtain ⟨_, _, h2⟩ := bind_eq_ok h
    obtain ⟨_, _, h3⟩ := bind_eq_ok h2
    cases h3
    rfl

/-- C18: with the table option `encoding` set to `LATIN1`,
`odbcBeginForeignScan` copies the name into `festate->options` but stores -1
in `festate->encoding`, the value that means no conversion; a pull from that
state returns the bytes of a non-null value as the driver delivered them,
although the host's conversion would change them.  Whatever the options, the
state that `odbcBeginForeignScan` builds has `encoding` -1, and with -1 the
buffer passes through unconverted. -/
theorem configured_encoding_is_not_applied :
    (∃ st, odbcBeginForeignScan (fun _ => true) false [⟨"encoding", "LATIN1"⟩] [] []
        sampleBeginDriver 2 [1] = .ok (some st) ∧
      st.options.encoding = some "LATIN1" ∧ st.festate.encoding = -1 ∧
      sampleRecodingHost.pg_any_to_server 8 [233, 0] = .ok [234, 0] ∧
      ∃ r, odbcIterateForeignScan sampleRecodingHost (fun _ => 7) 0 st.festate
          { fetches := [SQL_SUCCESS], describe := fun _ => ⟨SQL_VARCHAR, 4, 0, 1⟩,
            reads := [⟨SQL_SUCCESS, [233, 0], some 1, "00000"⟩], calls := [] } = .ok r ∧
        r.slot = some [some [233], none]) ∧
    (∀ (defGetBoolean : String → Bool) (explainOnly : Bool)
        (tableOptions serverOptions mappingOptions : List OptionDef) (driver : BeginDriver)
        (natts : Nat) (retrieved_attrs : List Nat),
      match odbcBeginForeignScan defGetBoolean explainOnly tableOptions serverOptions
          mappingOptions driver natts retrieved_attrs with
      | .ok (some st) => st.festate.encoding = -1
      | _ => True) ∧
    (∀ (δ : Type) (host : ScanHost δ) (festate : odbcFdwExecutionState) (buf : List Nat),
      encodeBuffer host { festate with encoding := -1 } buf = .ok buf) := by
  refine ⟨⟨_, rfl, rfl, rfl, rfl, _, rfl, rfl⟩, ?_, ?_⟩
  · intro defGetBoolean explainOnly tableOptions serverOptions mappingOptions driver natts
      retrieved_attrs
    split
    next st h => exact odbcBeginForeignScan_encoding _ _ _ _ _ _ _ _ st h
    next => trivial
  · intro δ host festate buf
    simp [encodeBuffer]

/-! ## Scan clauses (C19) -/

theorem separateScanClauses_eq {Node : Type} (f : Node → Bool)
    (remote_conds local_conds : List (RestrictInfo Node)) :
    ∀ (scan_clauses : List (RestrictInfo Node)) (remote_exprs local_exprs : List Node),
      separateScanClauses f remote_conds local_conds scan_clauses remote_exprs local_exprs
        = (remote_exprs ++ (scan_clauses.filter (fun r =>
              !r.pseudoconstant && shipsRemote f remote_conds local_conds r)).map
              (fun r => r.clause),
           local_exprs ++ (scan_clauses.filter (fun r =>
              !r.pseudoconstant && !shipsRemote f remote_conds local_conds r)).map
              (fun r => r.clause)) := by
  intro scan_clauses
  induction scan_clauses with
  | nil => intro re le; simp [separateScanClauses]
  | cons r rest ih =>
    intro re le
    rw [separateScanClauses]
    cases hp : r.pseudoconstant with
    | true => simp [ih, hp]
    | false =>
      cases hr : list_member_ptr remote_conds r with
      | true => simp [ih, hp, hr, shipsRemote]
      | false =>
        cases hl : list_member_ptr local_conds r with
        | true => simp [ih, hp, hr, hl, shipsRemote]
        | false =>
          cases hf : f r.clause with
          | true => simp [ih, hp, hr, hl, hf, shipsRemote]
          | false => simp [ih, hp, hr, hl, hf, shipsRemote]

/-- C19: for a base relation `odbcGetForeignPlan` puts the clause of every
scan clause that is not a pseudoconstant into exactly one of `remote_exprs`
and `local_exprs`, in input order: `remote_exprs` holds those that are in
`remote_conds`, or are in neither list of the descriptor and pass
`odbc_is_foreign_expr`, and `local_exprs` holds the others.  Together the two
lists are a rearrangement of the clauses that are not pseudoconstants, so a
pseudoconstant contributes to neither. -/
theorem scan_clauses_are_partitioned {Node : Type} (odbc_is_foreign_expr : Node → Bool)
    (remote_conds local_conds scan_clauses : List (RestrictInfo Node)) :
    (odbcGetForeignPlan odbc_is_foreign_expr remote_conds local_conds scan_clauses).remote_exprs
      = (scan_clauses.filter (fun r => !r.pseudoconstant &&
          shipsRemote odbc_is_foreign_expr remote_conds local_conds r)).map
          (fun r => r.clause) ∧
    (odbcGetForeignPlan odbc_is_foreign_expr remote_conds local_conds scan_clauses).local_exprs
      = (scan_clauses.filter (fun r => !r.pseudoconstant &&
          !shipsRemote odbc_is_foreign_expr remote_conds local_conds r)).map
          (fun r => r.clause) ∧
    ((odbcGetForeignPlan odbc_is_foreign_expr remote_conds local_conds scan_clauses).remote_exprs
      ++ (odbcGetForeignPlan odbc_is_foreign_expr remote_conds local_conds
            scan_clauses).local_exprs).Perm
      ((scan_clauses.filter (fun r => !r.pseudoconstant)).map (fun r => r.clause)) ∧
    (odbcGetForeignPlan odbc_is_foreign_expr remote_conds local_conds scan_clauses).remote_exprs.length
      + (odbcGetForeignPlan odbc_is_foreign_expr remote_conds local_conds
          scan_clauses).local_exprs.length
      = (scan_clauses.filter (fun r => !r.pseudoconstant)).length ∧
    (odbcGetForeignPlan odbc_is_foreign_expr remote_conds local_conds
        scan_clauses).fdw_recheck_quals
      = (odbcGetForeignPlan odbc_is_foreign_expr remote_conds local_conds
          scan_clauses).remote_exprs := by
  have h := separateScanClauses_eq odbc_is_foreign_expr remote_conds local_conds scan_clauses
    [] []
  simp only [List.nil_append] at h
  have hperm : (((scan_clauses.filter (fun r => !r.pseudoconstant &&
          shipsRemote odbc_is_foreign_expr remote_conds local_conds r)).map
          (fun r => r.clause))
      ++ ((scan_clauses.filter (fun r => !r.pseudoconstant &&
          !shipsRemote odbc_is_foreign_expr remote_conds local_conds r)).map
          (fun r => r.clause))).Perm
      ((scan_clauses.filter (fun r => !r.pseudoconstant)).map (fun r => r.clause)) := by
    rw [← List.map_append]
    apply List.Perm.map
    have h1 : scan_clauses.filter (fun r => !r.pseudoconstant &&
          shipsRemote odbc_is_foreign_expr remote_conds local_conds r)
        = (scan_clauses.filter (fun r => !r.pseudoconstant)).filter
            (fun r => shipsRemote odbc_is_foreign_expr remote_conds local_conds r) := by
      rw [List.filter_filter]
      apply List.filter_congr
      intro x _
      exact Bool.and_comm _ _
    have h2 : scan_clauses.filter (fun r => !r.pseudoconstant &&
          !shipsRemote odbc_is_foreign_expr remote_conds local_conds r)
        = (scan_clauses.filter (fun r => !r.pseudoconstant)).filter
            (fun r => !shipsRemote odbc_is_foreign_expr remote_conds local_conds r) := by
      rw [List.filter_filter]
      apply List.filter_congr
      intro x _
      exact Bool.and_comm _ _
    rw [h1, h2]
    exact List.filter_append_perm _ _
  refine ⟨?_, ?_, ?_, ?_, rfl⟩
  · simp only [odbcGetForeignPlan, h]
  · simp only [odbcGetForeignPlan, h]
  · simp only [odbcGetForeignPlan, h]
    exact hperm
  · simp only [odbcGetForeignPlan, h]
    have := hperm.length_eq
    simpa using this

/-! ## Useful pathkeys (C20) -/

theorem pathkeyPushable_iff {Node : Type} (f : Node → Bool) (relids : List Nat)
    (pathkey : PathKey Node) :
    pathkeyPushable f relids pathkey = true ↔ PathkeyQualifies f relids pathkey := by
  unfold pathkeyPushable PathkeyQualifies
  simp only []
  cases hv : pathkey.pk_eclass.ec_has_volatile with
  | true => simp
  | false =>
    cases hf : odbc_find_em_expr_for_rel pathkey.pk_eclass relids with
    | none => simp
    | some e => simp

theorem queryPathkeysOk_iff {Node : Type} (f : Node → Bool) (relids : List Nat) :
    ∀ query_pathkeys : List (PathKey Node),
      queryPathkeysOk f relids query_pathkeys = true ↔
        ∀ pathkey ∈ query_pathkeys, PathkeyQualifies f relids pathkey := by
  intro query_pathkeys
  induction query_pathkeys with
  | nil => simp [queryPathkeysOk]
  | cons pk rest ih =>
    rw [queryPathkeysOk]
    cases hp : pathkeyPushable f relids pk with
    | true =>
      have hq := (pathkeyPushable_iff f relids pk).mp hp
      simp only [Bool.not_true, Bool.false_eq_true, if_false, ih, List.mem_cons,
        forall_eq_or_imp, hq, true_and]
    | false =>
      have hq : ¬ PathkeyQualifies f relids pk := by
        intro h
        rw [(pathkeyPushable_iff f relids pk).mpr h] at hp
        cases hp
      simp only [Bool.not_false, if_true, Bool.false_eq_true, List.mem_cons, forall_eq_or_imp,
        hq, false_and]

theorem mergePathkeys_mem {Node : Type} (f : Node → Bool) (relids : List Nat)
    (query_ec : Option Nat) :
    ∀ (ecs : List (EquivalenceClass Node)) (acc : List (List (PathKey Node)))
      (x : List (PathKey Node)),
      x ∈ mergePathkeys f relids query_ec ecs acc →
        x ∈ acc ∨ ∃ ec ∈ ecs, query_ec ≠ some ec.ptr ∧
          x = [make_canonical_pathkey ec (ec.ec_opfamilies.headD 0) BTLessStrategyNumber false] := by
  intro ecs
  induction ecs with
  | nil => intro acc x hx; left; simpa [mergePathkeys] using hx
  | cons ec rest ih =>
    intro acc x hx
    have lift : (x ∈ acc ∨ ∃ e ∈ rest, query_ec ≠ some e.ptr ∧
          x = [make_canonical_pathkey e (e.ec_opfamilies.headD 0) BTLessStrategyNumber false]) →
        (x ∈ acc ∨ ∃ e ∈ ec :: rest, query_ec ≠ some e.ptr ∧
          x = [make_canonical_pathkey e (e.ec_opfamilies.headD 0) BTLessStrategyNumber false]) := by
      intro h
      rcases h with h | ⟨e, he, h1, h2⟩
      · exact Or.inl h
      · exact Or.inr ⟨e, List.mem_cons_of_mem _ he, h1, h2⟩
    rw [mergePathkeys] at hx
    by_cases hq : query_ec = some ec.ptr
    · rw [if_pos hq] at hx
      exact lift (ih acc x hx)
    · rw [if_neg hq] at hx
      cases hf : odbc_find_em_expr_for_rel ec relids with
      | none =>
        rw [hf] at hx
        exact lift (ih acc x hx)
      | some e =>
        rw [hf] at hx
        simp only [] at hx
        cases hfe : f e with
        | false =>
          simp only [hfe, Bool.not_false, if_true] at hx
          exact lift (ih acc x hx)
        | true =>
          simp only [hfe, Bool.not_true, Bool.false_eq_true, if_false] at hx
          rcases ih _ x hx with h | ⟨e2, he2, h1, h2⟩
          · rcases List.mem_append.mp h with h | h
            · exact Or.inl h
            · right
              refine ⟨ec, List.mem_cons_self _ _, hq, ?_⟩
              simpa using h
          · exact Or.inr ⟨e2, List.mem_cons_of_mem _ he2, h1, h2⟩

theorem mergePathkeys_keeps {Node : Type} (f : Node → Bool) (relids : List Nat)
    (query_ec : Option Nat) :
    ∀ (ecs : List (EquivalenceClass Node)) (acc : List (List (PathKey Node)))
      (x : List (PathKey Node)),
      x ∈ acc → x ∈ mergePathkeys f relids query_ec ecs acc := by
  intro ecs
  induction ecs with
  | nil => intro acc x hx; simpa [mergePathkeys] using hx
  | cons ec rest ih =>
    intro acc x hx
    rw [mergePathkeys]
    split
    · exact ih acc x hx
    · split
      · exact ih acc x hx
      · split
        · exact ih acc x hx
        · exact ih _ x (List.mem_append_left _ hx)

/-- C20: `get_useful_pathkeys_for_relation` offers the query's ordering if and
only if the query has pathkeys and every one of them qualifies: its
equivalence class is not volatile, `odbc_find_em_expr_for_rel` finds an
expression for the relation, and the expression passes
`odbc_is_foreign_expr`.  With remote estimates off the result is the one list
`query_pathkeys`, complete, when all qualify, and empty otherwise. -/
theorem query_ordering_offered_iff_all_qualify {Node : Type}
    (odbc_is_foreign_expr : Node → Bool) (eq_classes : List (EquivalenceClass Node))
    (eclass_useful_for_merging : EquivalenceClass Node → Bool)
    (query_pathkeys : List (PathKey Node)) (rel : PathkeyRel Node) :
    (query_pathkeys ∈ get_useful_pathkeys_for_relation odbc_is_foreign_expr eq_classes
        eclass_useful_for_merging query_pathkeys rel
      ↔ query_pathkeys ≠ [] ∧
        ∀ pathkey ∈ query_pathkeys,
          PathkeyQualifies odbc_is_foreign_expr rel.relids pathkey) ∧
    ((query_pathkeys ≠ [] ∧
        ∀ pathkey ∈ query_pathkeys,
          PathkeyQualifies odbc_is_foreign_expr rel.relids pathkey) ∧
      get_useful_pathkeys_for_relation odbc_is_foreign_expr eq_classes
        eclass_useful_for_merging query_pathkeys { rel with use_remote_estimate := false }
        = [query_pathkeys]
     ∨
     ¬ (query_pathkeys ≠ [] ∧
        ∀ pathkey ∈ query_pathkeys,
          PathkeyQualifies odbc_is_foreign_expr rel.relids pathkey) ∧
      get_useful_pathkeys_for_relation odbc_is_foreign_expr eq_classes
        eclass_useful_for_merging query_pathkeys { rel with use_remote_estimate := false }
        = []) := by
  have hok := queryPathkeysOk_iff odbc_is_foreign_expr rel.relids query_pathkeys
  have hne : query_pathkeys.isEmpty = false ↔ query_pathkeys ≠ [] := by
    cases query_pathkeys <;> simp
  -- the list built from the query's pathkeys
  have hfirst : ∀ x, x ∈ (if !query_pathkeys.isEmpty then
        if queryPathkeysOk odbc_is_foreign_expr rel.relids query_pathkeys then [query_pathkeys]
        else []
      else ([] : List (List (PathKey Node)))) ↔
      (x = query_pathkeys ∧ query_pathkeys ≠ [] ∧
        ∀ pathkey ∈ query_pathkeys,
          PathkeyQualifies odbc_is_foreign_expr rel.relids pathkey) := by
    intro x
    cases he : query_pathkeys.isEmpty with
    | true =>
      have : ¬ query_pathkeys ≠ [] := by rw [← hne, he]; simp
      simp [this]
    | false =>
      have h1 : query_pathkeys ≠ [] := hne.mp he
      cases hq : queryPathkeysOk odbc_is_foreign_expr rel.relids query_pathkeys with
      | true =>
        have h2 := hok.mp hq
        simp only [Bool.not_false, if_true, List.mem_singleton]
        exact ⟨fun h => ⟨h, h1, h2⟩, fun h => h.1⟩
      | false =>
        have h2 : ¬ ∀ pathkey ∈ query_pathkeys,
            PathkeyQualifies odbc_is_foreign_expr rel.relids pathkey := by
          intro h
          rw [hok.mpr h] at hq
          cases hq
        simp only [Bool.not_false, if_true, Bool.false_eq_true, if_false, List.not_mem_nil,
          false_iff]
        exact fun h => h2 h.2.2
  constructor
  · constructor
    · intro hmem
      unfold get_useful_pathkeys_for_relation at hmem
      simp only [] at hmem
      split at hmem
      · exact ((hfirst query_pathkeys).mp hmem).2
      · rcases mergePathkeys_mem _ _ _ _ _ _ hmem with h | ⟨ec, _, hq, hx⟩
        · exact ((hfirst query_pathkeys).mp h).2
        · exfalso
          apply hq
          rw [hx]
          rfl
    · intro h
      have hin := (hfirst query_pathkeys).mpr ⟨rfl, h⟩
      unfold get_useful_pathkeys_for_relation
      simp only []
      split
      · exact hin
      · exact mergePathkeys_keeps _ _ _ _ _ _ hin
  · by_cases h : query_pathkeys ≠ [] ∧
        ∀ pathkey ∈ query_pathkeys,
          PathkeyQualifies odbc_is_foreign_expr rel.relids pathkey
    · left
      refine ⟨h, ?_⟩
      have h1 : query_pathkeys.isEmpty = false := hne.mpr h.1
      have h2 := hok.mpr h.2
      simp [get_useful_pathkeys_for_relation, h1, h2]
    · right
      refine ⟨h, ?_⟩
      cases he : query_pathkeys.isEmpty with
      | true => simp [get_useful_pathkeys_for_relation, he]
      | false =>
        have h1 : query_pathkeys ≠ [] := hne.mp he
        have h2 : queryPathkeysOk odbc_is_foreign_expr rel.relids query_pathkeys = false := by
          cases hq : queryPathkeysOk odbc_is_foreign_expr rel.relids query_pathkeys with
          | false => rfl
          | true => exact absurd ⟨h1, hok.mp hq⟩ h
        simp [get_useful_pathkeys_for_relation, he, h2]

/-! ## Binding of insert parameters (C21, C22) -/

theorem bindOne_unsupported {δ : Type} (host : ModifyHost δ) (atttypid nums : Nat)
    (p : Option (List Char)) (h : atttypid ∉ supportedBindTypes) :
    bindOne host atttypid nums p
      = .error (Abort.error ("Does not support data type " ++ oidText atttypid)) := by
  simp only [supportedBindTypes, List.mem_cons, List.mem_singleton, not_or, List.not_mem_nil,
    or_false] at h
  obtain ⟨h16, h17, h18, h20, h21, h23, h25, h700, h701, h1042, h1043, h1082, h1083, h1114,
    h1700, h2950⟩ := h
  simp [bindOne, bindDispatch, h16, h17, h18, h20, h21, h23, h25, h700, h701, h1042, h1043,
    h1082, h1083, h1114, h1700, h2950]

theorem bindOne_chars {δ : Type} (host : ModifyHost δ) (atttypid nums : Nat)
    (p : Option (List Char)) (dst_type : Int) (isChar : Bool)
    (h16 : atttypid ≠ 16) (h17 : atttypid ≠ 17)
    (hd : bindDispatch atttypid = some (dst_type, isChar)) :
    bindOne host atttypid nums p =
      ((if isChar then .ok 1 else strlen p) >>= fun param_size =>
        .ok { number := nums + 1, valueType := SQL_C_CHAR, parameterType := dst_type,
              columnSize :=
                if dst_type = SQL_CHAR ∨ dst_type = SQL_WCHAR ∨ dst_type = SQL_VARCHAR ∨
                    dst_type = SQL_LONGVARCHAR then param_size else 0,
              value := .chars p, strLenOrInd := param_size }) := by
  simp only [bindOne, h16, h17, if_false, hd]

theorem bindOne_supported_error {δ : Type} (host : ModifyHost δ) (atttypid nums : Nat)
    (p : Option (List Char)) (msg : String) (h : atttypid ∈ supportedBindTypes)
    (he : bindOne host atttypid nums p = .error (Abort.error msg)) :
    host.InputFunctionCall nums p = .error (Abort.error msg) := by
  by_cases h16 : atttypid = 16
  · subst h16
    simp only [bindOne, if_true] at he
    cases hr : host.InputFunctionCall nums p with
    | error e =>
      rw [hr, error_bind] at he
      injection he with he
      rw [he]
    | ok d =>
      rw [hr, ok_bind] at he
      cases d <;> simp at he
  · by_cases h17 : atttypid = 17
    · subst h17
      have hne : ¬ ((17 : Nat) = 16) := by decide
      simp only [bindOne, hne, if_false, if_true] at he
      cases hr : host.InputFunctionCall nums p with
      | error e =>
        rw [hr, error_bind] at he
        injection he with he
        rw [he]
      | ok d =>
        rw [hr, ok_bind] at he
        cases d <;> simp at he
    · exfalso
      cases hd : bindDispatch atttypid with
      | none =>
        simp only [supportedBindTypes, List.mem_cons, List.mem_singleton, List.not_mem_nil,
          or_false] at h
        rcases h with h | h | h | h | h | h | h | h | h | h | h | h | h | h | h | h <;>
          subst h <;> simp [bindDispatch] at hd <;> contradiction
      | some r =>
        obtain ⟨dst_type, isChar⟩ := r
        rw [bindOne_chars host atttypid nums p dst_type isChar h16 h17 hd] at he
        cases isChar with
        | true => simp [ok_bind] at he
        | false =>
          cases p with
          | none => simp [strlen, error_bind] at he
          | some s => simp [strlen, ok_bind] at he

/-- C21: when the host's input function raises no error for the value, the
loop body of `odbc_Bind_Prepared` raises an error for a target column if and
only if the type OID of the column is not one of the sixteen it has a case
for; the error is then 'Does not support data type' with the OID.  The error
for a type outside the table is raised whatever the host does. -/
theorem bind_error_iff_type_unsupported {δ : Type} (host : ModifyHost δ)
    (atttypid nums : Nat) (p : Option (List Char))
    (hhost : ∀ msg, host.InputFunctionCall nums p ≠ .error (Abort.error msg)) :
    ((∃ msg, bindOne host atttypid nums p = .error (Abort.error msg))
      ↔ atttypid ∉ supportedBindTypes) ∧
    (∀ msg, bindOne host atttypid nums p = .error (Abort.error msg) →
      msg = "Does not support data type " ++ oidText atttypid) ∧
    (∀ (other : ModifyHost δ), atttypid ∉ supportedBindTypes →
      bindOne other atttypid nums p
        = .error (Abort.error ("Does not support data type " ++ oidText atttypid))) := by
  have hno : atttypid ∈ supportedBindTypes →
      ∀ msg, bindOne host atttypid nums p ≠ .error (Abort.error msg) :=
    fun hin msg he => hhost msg (bindOne_supported_error host atttypid nums p msg hin he)
  refine ⟨⟨?_, ?_⟩, ?_, ?_⟩
  · rintro ⟨msg, he⟩ hin
    exact hno hin msg he
  · intro hout
    exact ⟨_, bindOne_unsupported host atttypid nums p hout⟩
  · intro msg he
    by_cases hin : atttypid ∈ supportedBindTypes
    · exact absurd he (hno hin msg)
    · rw [bindOne_unsupported host atttypid nums p hin] at he
      injection he with he
      injection he with he
      exact he.symm
  · intro other hout
    exact bindOne_unsupported other atttypid nums p hout

/-- C21 at a column of type `oid` (OID 26), which has no case. -/
theorem bind_error_iff_type_unsupported_witness :
    (∀ msg, sampleModifyHost.InputFunctionCall 0 (some ['7']) ≠ .error (Abort.error msg)) ∧
    (26 : Nat) ∉ supportedBindTypes ∧
    bindOne sampleModifyHost 26 0 (some ['7'])
      = .error (Abort.error "Does not support data type 26") :=
  have hh : ∀ msg, sampleModifyHost.InputFunctionCall 0 (some ['7'])
      ≠ .error (Abort.error msg) := by
    intro msg h
    cases h
  ⟨hh, by decide,
    (bind_error_iff_type_unsupported sampleModifyHost 26 0 (some ['7']) hh).2.2
      sampleModifyHost (by decide)⟩

/-- C22 (counterexample): a column of type `char` (OID 18) whose value has
the empty text is bound with the declared width 1, the size of one
character, not with the length 0 of its text. -/
theorem char_width_is_not_text_length :
    ∃ b, bindOne sampleModifyHost 18 0 (some []) = .ok b ∧ b.columnSize = 1 ∧
      ¬ WidthIsTextLength 18 [] b := by
  refine ⟨_, rfl, rfl, ?_⟩
  unfold WidthIsTextLength
  simp

/-- C22 (amended): for every supported type of a target column and every
non-null value, `odbc_Bind_Prepared` binds boolean as a small integer, bytea
as a long binary parameter with declared width 0, and every other type as
character data; the declared width is 1 for `char`, the length of the value's
text for bpchar, varchar and text, and 0 for every numeric and temporal type
and for uuid. -/
theorem bound_parameter_shape {δ : Type} (host : ModifyHost δ) (nums : Nat) (s : List Char) :
    (∀ v, host.InputFunctionCall nums (some s) = .ok (Datum.word v) →
      bindOne host 16 nums (some s)
        = .ok { number := nums + 1, valueType := SQL_C_SHORT, parameterType := SQL_SMALLINT,
                columnSize := 0, value := .short (toSmallInt v), strLenOrInd := 2 }) ∧
    (∀ payload, host.InputFunctionCall nums (some s) = .ok (Datum.varlena payload) →
      bindOne host 17 nums (some s)
        = .ok { number := nums + 1, valueType := SQL_C_CHAR,
                parameterType := SQL_LONGVARBINARY, columnSize := 0,
                value := .bytes payload, strLenOrInd := payload.length }) ∧
    bindOne host 18 nums (some s)
      = .ok { number := nums + 1, valueType := SQL_C_CHAR, parameterType := SQL_CHAR,
              columnSize := 1, value := .chars (some s), strLenOrInd := 1 } ∧
    (∀ p ∈ [(1042, SQL_WCHAR), (1043, SQL_VARCHAR), (25, SQL_LONGVARCHAR)],
      bindOne host p.1 nums (some s)
        = .ok { number := nums + 1, valueType := SQL_C_CHAR, parameterType := p.2,
                columnSize := s.length, value := .chars (some s),
                strLenOrInd := s.length }) ∧
    (∀ p ∈ [(1700, SQL_DECIMAL), (23, SQL_INTEGER), (700, SQL_FLOAT), (701, SQL_DOUBLE),
        (21, SQL_SMALLINT), (20, SQL_BIGINT), (1082, SQL_DATE), (1083, SQL_TIME),
        (1114, SQL_TIMESTAMP), (2950, SQL_GUID)],
      bindOne host p.1 nums (some s)
        = .ok { number := nums + 1, valueType := SQL_C_CHAR, parameterType := p.2,
                columnSize := 0, value := .chars (some s), strLenOrInd := s.length }) := by
  refine ⟨?_, ?_, ?_, ?_, ?_⟩
  · intro v hv
    simp only [bindOne, if_true, hv, ok_bind]
  · intro payload hv
    have hne : ¬ ((17 : Nat) = 16) := by decide
    simp only [bindOne, hne, if_false, if_true, hv, ok_bind]
  · rw [bindOne_chars host 18 nums (some s) SQL_CHAR true (by decide) (by decide) rfl]
    rfl
  · intro p hp
    simp only [List.mem_cons, List.mem_singleton, List.not_mem_nil, or_false] at hp
    rcases hp with rfl | rfl | rfl
    · rw [bindOne_chars host 1042 nums (some s) SQL_WCHAR false (by decide) (by decide) rfl]
      rfl
    · rw [bindOne_chars host 1043 nums (some s) SQL_VARCHAR false (by decide) (by decide) rfl]
      rfl
    · rw [bindOne_chars host 25 nums (some s) SQL_LONGVARCHAR false (by decide) (by decide) rfl]
      rfl
  · intro p hp
    simp only [List.mem_cons, List.mem_singleton, List.not_mem_nil, or_false] at hp
    rcases hp with rfl | rfl | rfl | rfl | rfl | rfl | rfl | rfl | rfl | rfl
    · rw [bindOne_chars host 1700 nums (some s) SQL_DECIMAL false (by decide) (by decide) rfl]
      rfl
    · rw [bindOne_chars host 23 nums (some s) SQL_INTEGER false (by decide) (by decide) rfl]
      rfl
    · rw [bindOne_chars host 700 nums (some s) SQL_FLOAT false (by decide) (by decide) rfl]
      rfl
    · rw [bindOne_chars host 701 nums (some s) SQL_DOUBLE false (by decide) (by decide) rfl]
      rfl
    · rw [bindOne_chars host 21 nums (some s) SQL_SMALLINT false (by decide) (by decide) rfl]
      rfl
    · rw [bindOne_chars host 20 nums (some s) SQL_BIGINT false (by decide) (by decide) rfl]
      rfl
    · rw [bindOne_chars host 1082 nums (some s) SQL_DATE false (by decide) (by decide) rfl]
      rfl
    · rw [bindOne_chars host 1083 nums (some s) SQL_TIME false (by decide) (by decide) rfl]
      rfl
    · rw [bindOne_chars host 1114 nums (some s) SQL_TIMESTAMP false (by decide) (by decide)
        rfl]
      rfl
    · rw [bindOne_chars host 2950 nums (some s) SQL_GUID false (by decide) (by decide) rfl]
      rfl

/-! ## Closing and operations that are not implemented (C23, C25) -/

/-- C23: each of `odbcEndForeignScan`, `odbcEndForeignModify` and
`odbcEndDirectModify` applied to a state that has been closed, or to the NULL
state left under EXPLAIN, issues no driver call and leaves the state as it
is; a first close of an open state frees the statement handle, disconnects
and frees the connection, and clears both fields.  None of them can raise an
error. -/
theorem closing_is_idempotent (fdw_state : Option Handles) (stmt conn : Nat) :
    (odbcEndForeignScan (odbcEndForeignScan fdw_state).1
        = ((odbcEndForeignScan fdw_state).1, []) ∧
      odbcEndForeignScan none = (none, []) ∧
      odbcEndForeignScan (some ⟨some stmt, some conn⟩)
        = (some ⟨none, none⟩, [HandleCall.SQLFreeHandleStmt stmt,
            HandleCall.SQLDisconnect conn, HandleCall.SQLFreeHandleDbc conn])) ∧
    (odbcEndForeignModify (odbcEndForeignModify fdw_state).1
        = ((odbcEndForeignModify fdw_state).1, []) ∧
      odbcEndForeignModify none = (none, []) ∧
      odbcEndForeignModify (some ⟨some stmt, some conn⟩)
        = (some ⟨none, none⟩, [HandleCall.SQLFreeHandleStmt stmt,
            HandleCall.SQLDisconnect conn, HandleCall.SQLFreeHandleDbc conn])) ∧
    (odbcEndDirectModify (odbcEndDirectModify fdw_state).1
        = ((odbcEndDirectModify fdw_state).1, []) ∧
      odbcEndDirectModify none = (none, []) ∧
      odbcEndDirectModify (some ⟨some stmt, some conn⟩)
        = (some ⟨none, none⟩, [HandleCall.SQLFreeHandleStmt stmt,
            HandleCall.SQLDisconnect conn, HandleCall.SQLFreeHandleDbc conn])) := by
  refine ⟨⟨?_, rfl, rfl⟩, ⟨?_, rfl, rfl⟩, ⟨?_, rfl, rfl⟩⟩
  · cases fdw_state with
    | none => rfl
    | some st =>
      obtain ⟨s, c⟩ := st
      cases s <;> cases c <;> rfl
  · cases fdw_state with
    | none => rfl
    | some st =>
      obtain ⟨s, c⟩ := st
      cases s <;> cases c <;> rfl
  · cases fdw_state with
    | none => rfl
    | some st =>
      obtain ⟨s, c⟩ := st
      cases s <;> cases c <;> rfl

/-- C25: `odbcReScanForeignScan`, `odbcExecForeignUpdate` and
`odbcExecForeignDelete` report the error 'should not be here, TBD' for every
input, and `odbcPlanForeignModify` reports 'unexpected operation' for every
operation other than INSERT, whatever its other inputs. -/
theorem unimplemented_operations_fail :
    (∀ (σ : Type) (node : σ),
      odbcReScanForeignScan node = .error (Abort.error "should not be here, TBD")) ∧
    (∀ (σ τ : Type) (resultRelInfo : σ) (slot planSlot : τ),
      odbcExecForeignUpdate resultRelInfo slot planSlot
        = .error (Abort.error "should not be here, TBD")) ∧
    (∀ (σ τ : Type) (resultRelInfo : σ) (slot planSlot : τ),
      odbcExecForeignDelete resultRelInfo slot planSlot
        = .error (Abort.error "should not be here, TBD")) ∧
    (∀ (operation : CmdType) (attisdropped : List Bool) (returningList : List Nat)
        (onConflictAction : OnConflictAction)
        (deparse : List Nat → Bool → List Nat → List Char × List Nat),
      operation ≠ CmdType.CMD_INSERT →
      odbcPlanForeignModify operation attisdropped returningList onConflictAction deparse
        = .error (Abort.error ("unexpected operation: " ++ Nat.repr operation.toNat))) ∧
    (∃ plan, odbcPlanForeignModify CmdType.CMD_INSERT [false, true, false] []
        OnConflictAction.ONCONFLICT_NONE (fun _ _ _ => ("INSERT".toList, []))
        = .ok plan ∧ plan.targetAttrs = [1, 3]) := by
  refine ⟨fun _ _ => rfl, fun _ _ _ _ _ => rfl, fun _ _ _ _ _ => rfl, ?_, ⟨_, rfl, rfl⟩⟩
  intro operation attisdropped returningList onConflictAction deparse hop
  simp [odbcPlanForeignModify, hop]

/-! ## Connection attributes (C24) -/

theorem extractOption_connection (defGetBoolean : String → Bool) (o : odbcFdwOptions)
    (d : OptionDef)
    (h : ∀ x ∈ o.connection_list, x.defname = "dsn" ∨ x.defname = "driver") :
    ∀ x ∈ (extractOption defGetBoolean o d).connection_list,
      x.defname = "dsn" ∨ x.defname = "driver" := by
  unfold extractOption
  split
  · rename_i hd
    intro x hx
    simp only [List.mem_append, List.mem_singleton] at hx
    rcases hx with hx | hx
    · exact h x hx
    · rw [hx]; exact Or.inl hd
  · split
    · rename_i hd
      intro x hx
      simp only [List.mem_append, List.mem_singleton] at hx
      rcases hx with hx | hx
      · exact h x hx
      · rw [hx]; exact Or.inr hd
    · repeat' split
      all_goals exact h

theorem extract_connection (defGetBoolean : String → Bool) :
    ∀ (options_list : List OptionDef) (o : odbcFdwOptions),
      (∀ x ∈ o.connection_list, x.defname = "dsn" ∨ x.defname = "driver") →
      ∀ x ∈ (options_list.foldl (extractOption defGetBoolean) o).connection_list,
        x.defname = "dsn" ∨ x.defname = "driver" := by
  intro options_list
  induction options_list with
  | nil => intro o h; exact h
  | cons d rest ih =>
    intro o h
    exact ih _ (extractOption_connection defGetBoolean o d h)

/-- C24: the option `odbc_UID` is valid in every context, but
`extract_odbcFdwOptions` puts it with the column mappings: only options named
`dsn` or `driver` reach `connection_list`, the one list `odbcConnStr` reads.
With table option `odbc_UID` = `joe` and server option `dsn` = `mydsn` the
connection string is `DSN=mydsn`, without `UID=joe`.  Given the option in
`connection_list`, `odbcConnStr` would strip the leading `odbc_` and join with
a semicolon. -/
theorem odbc_option_is_left_out_of_connection_string :
    (∀ context, odbcIsValidOption "odbc_UID" context = true) ∧
    (odbcGetTableOptions (fun _ => true) [⟨"odbc_UID", "joe"⟩] [⟨"dsn", "mydsn"⟩] []
      ).connection_list = [⟨"dsn", "mydsn"⟩] ∧
    (odbcGetTableOptions (fun _ => true) [⟨"odbc_UID", "joe"⟩] [⟨"dsn", "mydsn"⟩] []
      ).mapping_list = [⟨"odbc_UID", "joe"⟩] ∧
    odbcConnStr
        (odbcGetTableOptions (fun _ => true) [⟨"odbc_UID", "joe"⟩] [⟨"dsn", "mydsn"⟩] [])
      = "DSN=mydsn".toList ∧
    odbcConnStr { init_odbcFdwOptions with
        connection_list := [⟨"odbc_UID", "joe"⟩, ⟨"dsn", "mydsn"⟩] }
      = "UID=joe;DSN=mydsn".toList ∧
    (∀ (defGetBoolean : String → Bool) (options_list : List OptionDef),
      ∀ x ∈ (extract_odbcFdwOptions defGetBoolean options_list).connection_list,
        x.defname = "dsn" ∨ x.defname = "driver") := by
  refine ⟨?_, by decide, by decide, by decide, by decide, ?_⟩
  · intro context
    unfold odbcIsValidOption
    split
    · rfl
    · rfl
  · intro defGetBoolean options_list
    exact extract_connection defGetBoolean options_list init_odbcFdwOptions
      (fun x hx => by cases hx)

/-! ## Capacity of the accumulation buffer (C26) -/

theorem deliver_length (buf w : List Nat) (cs : Nat) (hb : buf.length = cs + 1)
    (hw : w.length ≤ cs + 1) :
    ∃ buf1, deliver buf 0 ((cs : Int) + 1) w = .ok buf1 ∧ buf1.length = cs + 1 := by
  refine ⟨_, deliver_whole buf w cs hb hw, ?_⟩
  simp only [List.length_append, List.length_drop]
  omega

theorem accumulateLoop_in_bounds (junk : Nat → Nat) (cs col : Nat) (hcs : 1 ≤ cs) :
    ∀ (reads : List GetDataReply) (buf : List Nat) (ret ind : Int) (a : Accum)
      (pre : List Nat) (calls : List OdbcCall),
      buf.length = cs + 1 → (∀ r ∈ reads, r.written.length ≤ cs + 1) → AccumInv cs a pre →
      ∃ res, accumulateLoop junk cs col reads buf ret ind a calls = .ok res := by
  intro reads
  induction reads with
  | nil =>
    intro buf ret ind a pre calls _ _ ha
    obtain ⟨a1, h1, hfull1⟩ := accumulatePart_step junk cs buf a pre hcs ha
    by_cases hret : ret = SQL_SUCCESS_WITH_INFO
    · obtain ⟨a2, h2, -⟩ := accumulatePart_step junk cs buf a1 _ hcs (Or.inr hfull1)
      refine ⟨(a2, ColumnRead.mk buf SQL_NO_DATA ind []
        (calls ++ [OdbcCall.SQLGetData col ((cs : Int) + 1)]) []), ?_⟩
      rw [accumulateLoop]
      simp only [h1, ok_bind, hret, ne_eq, not_true_eq_false, if_false, h2, pure_eq_ok]
    · exact ⟨_, accumulateLoop_done junk cs col [] buf ret ind a a1 calls hret h1⟩
  | cons r rest ih =>
    intro buf ret ind a pre calls hb hr ha
    obtain ⟨a1, h1, hfull1⟩ := accumulatePart_step junk cs buf a pre hcs ha
    by_cases hret : ret = SQL_SUCCESS_WITH_INFO
    · obtain ⟨buf1, hd, hl⟩ := deliver_length buf r.written cs hb
        (hr r (List.mem_cons_self _ _))
      obtain ⟨res, hres⟩ := ih buf1 r.ret (r.indicator.getD ind) a1 _
        (calls ++ [OdbcCall.SQLGetData col ((cs : Int) + 1)]) hl
        (fun x hx => hr x (List.mem_cons_of_mem _ hx)) (Or.inr hfull1)
      refine ⟨res, ?_⟩
      rw [accumulateLoop]
      simp only [h1, ok_bind, hret, ne_eq, not_true_eq_false, if_false, hd, hres]
    · exact ⟨_, accumulateLoop_done junk cs col (r :: rest) buf ret ind a a1 calls hret h1⟩

/-- C26: a column planned with buffer size 0 (a `varchar` column whose
declared size is 0) makes the unknown-length loop write outside the
accumulation buffer.  When the driver stores only the terminator, `buf_len`
is 0, nothing is allocated and the terminator is written through the NULL
pointer; when it stores one character, the size becomes `0*2 = 0`, one byte
is allocated and the terminator is written at index 1.  For every buffer size
from 1 on, every sequence of parts that fit the read buffer is accumulated
with all writes inside the allocated bytes. -/
theorem accumulation_overruns_at_size_zero :
    (planColumn ⟨SQL_VARCHAR, 0, 0, 1⟩).2 = 0 ∧
    growAccum (fun _ => 7) 0 0 ⟨none, 0, 0⟩ = .ok ⟨none, 0, 0⟩ ∧
    copyPart [0] 0 ⟨none, 0, 0⟩ = .error Abort.fault ∧
    getColumnData (fun _ => 7) 0 0 1
      [⟨SQL_SUCCESS_WITH_INFO, [0], some SQL_NO_TOTAL, "01004"⟩] [] = .error Abort.fault ∧
    growAccum (fun _ => 7) 0 1 ⟨none, 0, 0⟩ = .ok ⟨some [0], 0, 0⟩ ∧
    copyPart [65] 1 ⟨some [0], 0, 0⟩ = .error Abort.fault ∧
    getColumnData (fun _ => 7) 0 0 1
      [⟨SQL_SUCCESS_WITH_INFO, [65], some SQL_NO_TOTAL, "01004"⟩] [] = .error Abort.fault ∧
    odbcIterateForeignScan sampleHost (fun _ => 7) 0 sampleFreshState
      { fetches := [SQL_SUCCESS], describe := fun _ => ⟨SQL_VARCHAR, 0, 0, 1⟩,
        reads := [⟨SQL_SUCCESS_WITH_INFO, [0], some SQL_NO_TOTAL, "01004"⟩], calls := [] }
      = .error Abort.fault ∧
    (∀ (junk : Nat → Nat) (cs col : Nat) (reads : List GetDataReply) (buf : List Nat)
        (ret ind : Int) (calls : List OdbcCall),
      1 ≤ cs → buf.length = cs + 1 → (∀ r ∈ reads, r.written.length ≤ cs + 1) →
      ∃ res, accumulateLoop junk cs col reads buf ret ind ⟨none, 0, 0⟩ calls = .ok res) := by
  refine ⟨by decide, rfl, rfl, rfl, rfl, rfl, rfl, rfl, ?_⟩
  intro junk cs col reads buf ret ind calls hcs hb hr
  exact accumulateLoop_in_bounds junk cs col hcs reads buf ret ind ⟨none, 0, 0⟩ [] calls hb hr
    (Or.inl ⟨rfl, rfl⟩)

/-! ## Reuse of the cached base cost (C27) -/

theorem base_estimate_cached (env : CostEnv) (rows : ℚ) (width : Int) (shape : RelShape)
    (fp : FdwCostInfo) (h1 : 0 < fp.rel_startup_cost) (h2 : 0 < fp.rel_total_cost) :
    estimate_path_cost_size false env ⟨rows, width, shape, fp⟩ ([] : List Nat) ([] : List Nat)
      = .ok { p_rows := rows, p_width := width,
              p_startup_cost := fp.rel_startup_cost + fp.fdw_startup_cost,
              p_total_cost := fp.rel_startup_cost
                + (fp.rel_total_cost - fp.rel_startup_cost)
                + fp.fdw_startup_cost
                + fp.fdw_tuple_cost * env.clamp_row_est (rows / fp.local_conds_sel)
                + env.cpu_tuple_cost * env.clamp_row_est (rows / fp.local_conds_sel),
              fpinfo := { fp with
                rel_startup_cost := fp.rel_startup_cost,
                rel_total_cost := fp.rel_startup_cost
                  + (fp.rel_total_cost - fp.rel_startup_cost) },
              computed := false } := by
  simp [estimate_path_cost_size, bareCost, h1, h2]

/-- The traced run of `odbcIterateDirectModify` returns or raises what the
untraced one does. -/
theorem odbcIterateDirectModify_traced (ri_projectReturning : Bool)
    (dmstate : odbcFdwDirectModifyState) (d : ModifyDriver) :
    odbcIterateDirectModify ri_projectReturning dmstate d
      = (odbcIterateDirectModifyTraced ri_projectReturning dmstate d).2.map
          (fun st => (st, (odbcIterateDirectModifyTraced ri_projectReturning dmstate d).1)) := by
  unfold odbcIterateDirectModify odbcIterateDirectModifyTraced executeIfFirst check_return
    finishDirectModify
  by_cases h1 : dmstate.num_tuples = -1
  · by_cases h2 : SQL_SUCCEEDED (d.execRets.headD SQL_NO_DATA) = true
    · by_cases h3 : SQL_SUCCEEDED (d.rowCounts.headD (SQL_ERROR, 0)).1 = true
      · simp only [h1, h2, h3, if_true]
        cases ri_projectReturning <;> rfl
      · simp only [h1, h2, h3, if_true, if_false]
        cases ri_projectReturning <;> rfl
    · simp only [h1, h2, if_true, if_false]
      cases ri_projectReturning <;> rfl
  · simp only [h1, if_false]
    cases ri_projectReturning <;> rfl

/-- C28: a pull of `odbcIterateDirectModify` on a state whose local query has
RETURNING, followed through the calls it issues to the driver.  On the first
pull (`num_tuples = -1`) the call issues `SQLExecDirect` with the statement
of the state; when that succeeds it issues `SQLRowCount`; and when that
succeeds too it raises 'Does not support local query  specified RETURNING',
with both calls in the trace of the failing run: the remote statement has
been executed when the error is raised.  When `SQLExecDirect` fails the
driver's error is raised after that one call, and when `SQLRowCount` fails
the driver's error is raised after both calls, the statement executed.  On a
state that has been executed the error is raised with no driver call.  The
run without trace raises the same errors. -/
theorem returning_error_after_execution (dmstate : odbcFdwDirectModifyState)
    (d : ModifyDriver) :
    (dmstate.num_tuples = -1 →
      SQL_SUCCEEDED (d.execRets.headD SQL_NO_DATA) = true →
      SQL_SUCCEEDED (d.rowCounts.headD (SQL_ERROR, 0)).1 = true →
      odbcIterateDirectModifyTraced true dmstate d
        = ({ execRets := d.execRets.tail, rowCounts := d.rowCounts.tail, diag := d.diag,
             calls := d.calls ++
               [OdbcCall.SQLExecDirect dmstate.query, OdbcCall.SQLRowCount] },
           .error (Abort.error "Does not support local query  specified RETURNING"))) ∧
    (dmstate.num_tuples = -1 →
      SQL_SUCCEEDED (d.execRets.headD SQL_NO_DATA) = false →
      odbcIterateDirectModifyTraced true dmstate d
        = ({ execRets := d.execRets.tail, rowCounts := d.rowCounts, diag := d.diag,
             calls := d.calls ++ [OdbcCall.SQLExecDirect dmstate.query] },
           .error (Abort.error d.diag))) ∧
    (dmstate.num_tuples = -1 →
      SQL_SUCCEEDED (d.execRets.headD SQL_NO_DATA) = true →
      SQL_SUCCEEDED (d.rowCounts.headD (SQL_ERROR, 0)).1 = false →
      odbcIterateDirectModifyTraced true dmstate d
        = ({ execRets := d.execRets.tail, rowCounts := d.rowCounts.tail, diag := d.diag,
             calls := d.calls ++
               [OdbcCall.SQLExecDirect dmstate.query, OdbcCall.SQLRowCount] },
           .error (Abort.error d.diag))) ∧
    (dmstate.num_tuples ≠ -1 →
      odbcIterateDirectModifyTraced true dmstate d
        = (d, .error (Abort.error "Does not support local query  specified RETURNING"))) ∧
    odbcIterateDirectModify true dmstate d
      = (odbcIterateDirectModifyTraced true dmstate d).2.map
          (fun st => (st, (odbcIterateDirectModifyTraced true dmstate d).1)) := by
  refine ⟨?_, ?_, ?_, ?_, odbcIterateDirectModify_traced true dmstate d⟩
  · intro h1 h2 h3
    simp only [odbcIterateDirectModifyTraced, finishDirectModify, check_return, h1, h2, h3,
      if_true, Bool.not_true, Bool.false_eq_true, if_false, List.append_assoc,
      List.singleton_append]
  · intro h1 h2
    simp only [odbcIterateDirectModifyTraced, check_return, h1, h2, if_true,
      Bool.false_eq_true, if_false]
  · intro h1 h2 h3
    simp only [odbcIterateDirectModifyTraced, check_return, h1, h2, h3, if_true,
      Bool.false_eq_true, if_false, List.append_assoc, List.singleton_append]
  · intro h1
    simp only [odbcIterateDirectModifyTraced, finishDirectModify, h1, if_false,
      Bool.not_true, Bool.false_eq_true]

/-- C28 at a DELETE on a driver that reports 5 affected rows: the failing run
holds the execution of the statement and the read of the count. -/
theorem returning_error_after_execution_witness :
    sampleDirect.num_tuples = -1 ∧
    odbcIterateDirectModifyTraced true sampleDirect (sampleModifyDriver 5)
      = ({ execRets := [SQL_SUCCESS, SQL_SUCCESS],
           rowCounts := [(SQL_SUCCESS, 5), (SQL_SUCCESS, 5)], diag := "diagnostic",
           calls := [OdbcCall.SQLExecDirect "DELETE FROM t", OdbcCall.SQLRowCount] },
         .error (Abort.error "Does not support local query  specified RETURNING")) ∧
    odbcIterateDirectModify true sampleDirect (sampleModifyDriver 5)
      = .error (Abort.error "Does not support local query  specified RETURNING") :=
  have h := returning_error_after_execution sampleDirect (sampleModifyDriver 5)
  ⟨by decide, h.1 (by decide) (by decide) (by decide), rfl⟩

/-! ## Options of the descriptors (C29) -/

theorem odbc_is_shippable_no_extensions (g : Nat → Nat → Nat) (objectId classId serverid : Nat)
    (objType : ShipObj) (cache : ShippableCache) :
    (odbc_is_shippable g objectId classId [] serverid objType cache).2 = cache := by
  unfold odbc_is_shippable
  split
  · rfl
  · rfl

/-- C29: whatever the options of the table, the server and the user mapping,
the descriptor `odbcGetForeignRelSize` builds for a base relation has
`use_remote_estimate` false, no shippable extensions, startup cost 100 and
tuple cost 0.01, and the descriptor of a grouped relation, which
`merge_fdw_options` fills from it, has the same values.  With such a
descriptor `odbcGetForeignPaths` adds no parameterized path and
`odbc_is_shippable` returns with the cache as it was. -/
theorem produced_descriptors_have_fixed_options (options : odbcFdwOptions) :
    odbcGetForeignRelSize options
      = { use_remote_estimate := false, fdw_startup_cost := 100, fdw_tuple_cost := 1 / 100,
          shippable_extensions := [], fetch_size := 100 } ∧
    groupedOptionFields (odbcGetForeignRelSize options) = odbcGetForeignRelSize options ∧
    groupedOptionFields (groupedOptionFields (odbcGetForeignRelSize options))
      = odbcGetForeignRelSize options ∧
    (∀ (κ π : Type) (useful_pathkeys_list : List κ) (ppi_list : List π),
      (odbcGetForeignPaths (odbcGetForeignRelSize options) useful_pathkeys_list
        ppi_list).parameterized = []) ∧
    (∀ (g : Nat → Nat → Nat) (objectId classId serverid : Nat) (objType : ShipObj)
        (cache : ShippableCache),
      (odbc_is_shippable g objectId classId
        (groupedOptionFields (odbcGetForeignRelSize options)).shippable_extensions serverid
        objType cache).2 = cache ∧
      (odbc_is_shippable g objectId classId
        (odbcGetForeignRelSize options).shippable_extensions serverid objType cache).2
        = cache) := by
  refine ⟨rfl, rfl, rfl, fun _ _ _ _ => rfl, ?_⟩
  intro g objectId classId serverid objType cache
  exact ⟨odbc_is_shippable_no_extensions g objectId classId serverid objType cache,
    odbc_is_shippable_no_extensions g objectId classId serverid objType cache⟩

/-! ## Minimum buffer sizes of the integer types (C30) -/

theorem fmtInt_length (v : Int) (e : Nat) (he : 0 < e) (h : v.natAbs < 10 ^ e) :
    (fmtInt v).length ≤ e + 1 := by
  have hr : (Nat.repr v.natAbs).toList.length ≤ e := Nat.repr_length v.natAbs e he h
  unfold fmtInt
  split
  · simp only [List.length_cons]
    omega
  · omega

/-- C30: the decimal text with sign of a signed integer of 16, 32 or 64 bits
is no longer than `minimum_buffer_size` of `SQL_SMALLINT` (6), `SQL_INTEGER`
(12) or `SQL_BIGINT` (21), and the buffer size planned for a column of that
type is at least this minimum; so the text and its terminator fit the
`col_size + 1` bytes of the first read. -/
theorem integer_text_fits_planned_buffer (desc : ColumnDescription) (v : Int) (bits : Nat)
    (htype : (desc.dataType = SQL_SMALLINT ∧ bits = 16) ∨
      (desc.dataType = SQL_INTEGER ∧ bits = 32) ∨ (desc.dataType = SQL_BIGINT ∧ bits = 64))
    (hrange : -(2 : Int) ^ (bits - 1) ≤ v ∧ v < (2 : Int) ^ (bits - 1)) :
    (fmtInt v).length ≤ minimum_buffer_size desc.dataType ∧
    minimum_buffer_size desc.dataType ≤ (planColumn desc).2 ∧
    (fmtInt v).length + 1 ≤ (planColumn desc).2 + 1 ∧
    minimum_buffer_size SQL_SMALLINT = 6 ∧ minimum_buffer_size SQL_INTEGER = 12 ∧
    minimum_buffer_size SQL_BIGINT = 21 := by
  have hplan : minimum_buffer_size desc.dataType ≤ (planColumn desc).2 := by
    have hm := minimum_buffer_size_le desc.dataType
    rw [planColumn_size]
    simp only [MAXIMUM_BUFFER_SIZE]
    omega
  have hfit : (fmtInt v).length ≤ minimum_buffer_size desc.dataType := by
    obtain ⟨h1, h2⟩ := hrange
    rcases htype with ⟨ht, hb⟩ | ⟨ht, hb⟩ | ⟨ht, hb⟩
    · subst hb
      have hn : v.natAbs < 10 ^ 5 := by norm_num at h1 h2 ⊢; omega
      have := fmtInt_length v 5 (by decide) hn
      rw [ht]
      have h6 : minimum_buffer_size SQL_SMALLINT = 6 := by decide
      omega
    · subst hb
      have hn : v.natAbs < 10 ^ 10 := by norm_num at h1 h2 ⊢; omega
      have := fmtInt_length v 10 (by decide) hn
      rw [ht]
      have h12 : minimum_buffer_size SQL_INTEGER = 12 := by decide
      omega
    · subst hb
      have hn : v.natAbs < 10 ^ 19 := by norm_num at h1 h2 ⊢; omega
      have := fmtInt_length v 19 (by decide) hn
      rw [ht]
      have h21 : minimum_buffer_size SQL_BIGINT = 21 := by decide
      omega
  exact ⟨hfit, hplan, by omega, by decide, by decide, by decide⟩

/-- C30 at the smallest 16-bit integer in a `smallint` column declared with 5
digits. -/
theorem integer_text_fits_planned_buffer_witness :
    (-(2 : Int) ^ (16 - 1) ≤ -32768 ∧ (-32768 : Int) < (2 : Int) ^ (16 - 1)) ∧
    fmtInt (-32768) = "-32768".toList ∧
    (fmtInt (-32768)).length ≤ minimum_buffer_size SQL_SMALLINT ∧
    (fmtInt (-32768)).length + 1 ≤ (planColumn ⟨SQL_SMALLINT, 5, 0, 1⟩).2 + 1 :=
  have h := integer_text_fits_planned_buffer ⟨SQL_SMALLINT, 5, 0, 1⟩ (-32768) 16
    (Or.inl ⟨rfl, rfl⟩) (by decide)
  ⟨by decide, by decide, h.1, h.2.2.1⟩

end OdbcFdw
